import Mathlib

/-!
Verification of the transaction categorization and transfer-matching engine
of the bank statement analyzer (`src/logic.py`).

Strings are modelled as `List Char` (field `String.data`); Python's `str.upper`
becomes `Char.toUpper` mapped over the list, `in` (substring test) becomes an
explicit first-occurrence search, and monetary amounts (JSON numbers) are
modelled as rational numbers.  Python dictionaries that are only read by key
are modelled as association lists; `sorted(...)` (a stable sort) is modelled
by a stable insertion sort on the same key.  `datetime.now(...)` is an input
(`now`) to the analysis entry point, and exceptions are modelled with
`Except`.
-/

namespace BankAnalysis

abbrev Str := List Char

/-- Python `str.upper()` (ASCII, which covers the engine's keyword tables). -/
def upperS (s : Str) : Str := s.map Char.toUpper

/-- `needle` is a prefix of `hay` (character-wise). -/
def isPrefixB : Str → Str → Bool
  | [], _ => true
  | _ :: _, [] => false
  | a :: as, b :: bs => a == b && isPrefixB as bs

/-- Python `hay.find(needle)`: index of the first occurrence, `none` if absent. -/
def findSub : Str → Str → Option Nat
  | hay, needle =>
    if isPrefixB needle hay then some 0
    else
      match hay with
      | [] => none
      | _ :: t =>
        match findSub t needle with
        | some k => some (k + 1)
        | none => none

/-- Python `needle in hay` for strings (substring containment). -/
def containsS (hay needle : Str) : Bool := (findSub hay needle).isSome

/-- Python `s < t` on strings (lexicographic by code point). -/
def strLt : Str → Str → Bool
  | _, [] => false
  | [], _ :: _ => true
  | a :: as, b :: bs => if a < b then true else if b < a then false else strLt as bs

def strLe (a b : Str) : Bool := !strLt b a

/-- Drop leading spaces (Python `str.strip`, left part; inputs use plain spaces). -/
def dropSpaces : Str → Str
  | [] => []
  | c :: t => if c == ' ' then dropSpaces t else c :: t

/-- Python `str.strip()`. -/
def stripS (s : Str) : Str := (dropSpaces (dropSpaces s.reverse).reverse)

/-- Python `str.split()` (split on runs of whitespace, dropping empties). -/
def wordsS (s : Str) : List Str := (s.splitOn ' ').filter (fun w => !w.isEmpty)

/-- Stable insertion into a sorted list: `x` goes after every element it does
not strictly precede.  `lt` is the strict "sort key less-than". -/
def sinsert (lt : α → α → Bool) (x : α) : List α → List α
  | [] => [x]
  | y :: ys => if lt x y then x :: y :: ys else y :: sinsert lt x ys

/-- Stable sort (the semantics of Python's `sorted` for a given strict key
order: any stable sort computes the same list). -/
def ssort (lt : α → α → Bool) (l : List α) : List α :=
  l.foldl (fun acc x => sinsert lt x acc) []

/-- Python dict lookup `m[k]` / `m.get(k)` on an association list. -/
def dget (m : List (Str × α)) (k : Str) : Option α :=
  match m with
  | [] => none
  | (k', v) :: t => if k' == k then some v else dget t k

/-- `defaultdict(int)`-style counter increment, preserving insertion order. -/
def bump (m : List (Str × Nat)) (k : Str) : List (Str × Nat) :=
  match m with
  | [] => [(k, 1)]
  | (k', v) :: t => if k' == k then (k', v + 1) :: t else (k', v) :: bump t k

-- ===========================================================================
-- CONSTANTS - UNIVERSAL BANKING RULES (src/logic.py lines 11-63)
-- ===========================================================================

def BANK_CODES : List (Str × Str) :=
  [("AMFB".data, "AmBank".data), ("AMB".data, "AmBank".data), ("AMBANK".data, "AmBank".data),
   ("BIMB".data, "Bank Islam".data), ("BANK ISLAM".data, "Bank Islam".data),
   ("MBB".data, "Maybank".data), ("MAYBANK".data, "Maybank".data),
   ("RHB".data, "RHB Bank".data),
   ("PBB".data, "Public Bank".data), ("PUBLIC BANK".data, "Public Bank".data),
   ("OCBC".data, "OCBC Bank".data), ("HSBC".data, "HSBC Bank".data),
   ("UOB".data, "UOB Bank".data), ("AFFIN".data, "Affin Bank".data),
   ("BSN".data, "BSN".data), ("CITI".data, "Citibank".data), ("SCB".data, "Standard Chartered".data)]

def PROVIDED_BANK_CODES : List Str :=
  ["CIMB".data, "CIMBKL".data, "CIMB14".data, "CIMB9".data, "CIMBSEK".data,
   "HLB".data, "HLBB".data, "BMMB".data, "MUAMALAT".data]

def INTER_ACCOUNT_MARKERS : List Str :=
  ["ITB TRF".data, "ITC TRF".data, "INTERBANK".data, "INTER ACC".data, "OWN ACC".data,
   "INTERCO TXN".data, "INTER-CO".data, "INTRA ACC".data, "SELF TRF".data,
   "TR FROM CA".data, "TR TO C/A".data]

def STATUTORY_KEYWORDS : List (Str × List Str) :=
  [("EPF/KWSP".data, ["KUMPULAN WANG SIMPANAN PEKERJA".data, "KWSP".data, "EPF".data, "EMPLOYEES PROVIDENT".data]),
   ("SOCSO/PERKESO".data, ["PERTUBUHAN KESELAMATAN SOSIAL".data, "PERKESO".data, "SOCSO".data, "SOCIAL SECURITY".data]),
   ("LHDN/Tax".data, ["LEMBAGA HASIL DALAM NEGERI".data, "LHDN".data, "PCB".data, "MTD".data, "CP39".data, "CP38".data, "INCOME TAX".data]),
   ("HRDF/PSMB".data, ["PEMBANGUNAN SUMBER MANUSIA".data, "HRDF".data, "PSMB".data, "HRD CORP".data])]

def SALARY_KEYWORDS : List Str :=
  ["SALARY".data, "GAJI".data, "PAYROLL".data, "WAGES".data, "ALLOWANCE".data, "ELAUN".data,
   "BONUS".data, "COMMISSION".data, "INCENTIVE".data, "EPF EMPLOYER".data, "STAFF CLAIM".data,
   "OVERTIME".data, "OT CLAIM".data]

def UTILITY_KEYWORDS : List Str :=
  ["TNB".data, "TENAGA NASIONAL".data, "TENAGA".data,
   "SYABAS".data, "AIR SELANGOR".data, "PENGURUSAN AIR".data, "SAINS".data, "SAJ".data, "SAJH".data,
   "TELEKOM".data, "TM NET".data, "UNIFI".data, "STREAMYX".data,
   "MAXIS".data, "CELCOM".data, "DIGI".data, "U MOBILE".data, "YES".data,
   "ASTRO".data, "TIME DOTCOM".data, "TIME FIBRE".data,
   "IWK".data, "INDAH WATER".data]

def BANK_CHARGE_KEYWORDS : List Str :=
  ["SERVICE CHARGE".data, "BANK CHARGE".data, "AUTOPAY CHARGES".data, "FEE".data,
   "COMMISSION".data, "STAMP DUTY".data, "DUTI SETEM".data, "COT".data,
   "HANDLING CHARGE".data, "PROCESSING FEE".data, "ADM CHARGE".data, "ADMIN FEE".data]

def DISBURSEMENT_KEYWORDS : List Str :=
  ["DISB".data, "DISBURSEMENT".data, "LOAN CR".data, "FINANCING CR".data, "DRAWDOWN".data, "FACILITY RELEASE".data]

def INTEREST_KEYWORDS : List Str :=
  ["PROFIT PAID".data, "PROFIT/HIBAH".data, "HIBAH".data, "INTEREST".data, "DIVIDEND".data, "FAEDAH".data, "BONUS INTEREST".data]

def REVERSAL_KEYWORDS : List Str :=
  ["REVERSAL".data, "REVERSE".data, "REV".data, "CANCELLED".data, "VOID".data, "RETURNED".data, "REJECTED".data]

def ROUND_FIGURE_THRESHOLD : ℚ := 10000

def ROUND_FIGURE_WARNING_PCT : ℚ := 40

-- ===========================================================================
-- HELPER FUNCTIONS (src/logic.py lines 69-156)
-- ===========================================================================

/-- `has_inter_account_marker` (logic.py line 73). -/
def has_inter_account_marker (desc : Str) : Bool :=
  INTER_ACCOUNT_MARKERS.any (fun marker => containsS (upperS desc) marker)

/-- `has_company_name` (logic.py line 77). -/
def has_company_name (desc : Str) (company_keywords : List Str) : Bool :=
  company_keywords.any (fun kw => containsS (upperS desc) (upperS kw))

/-- `get_missing_bank_code` (logic.py line 81); the Python set of missing codes
is modelled as a list (first-occurrence order), iterated in list order. -/
def get_missing_bank_code (desc : Str) (missing_codes : List Str) : Option Str :=
  match missing_codes with
  | [] => none
  | code :: rest =>
    if containsS (upperS desc) code then some code else get_missing_bank_code desc rest

/-- `is_round_figure` (logic.py line 88): `amount % 1000 == 0` on a float is
"amount is an integer multiple of 1000", i.e. `amount / 1000` has denominator 1. -/
def is_round_figure (amount : ℚ) : Bool :=
  ROUND_FIGURE_THRESHOLD ≤ amount && (amount / 1000).den == 1

/-- Round-half-to-even to an integer (Python's `round` on exact values). -/
def rhe (q : ℚ) : ℤ :=
  if q - ⌊q⌋ < 1/2 then ⌊q⌋
  else if 1/2 < q - ⌊q⌋ then ⌊q⌋ + 1
  else if ⌊q⌋ % 2 = 0 then ⌊q⌋ else ⌊q⌋ + 1

/-- Python `round(x, 2)`. -/
def roundTo2 (q : ℚ) : ℚ := (rhe (q * 100) : ℚ) / 100

/-- `calculate_volatility` (logic.py lines 91-103). -/
def calculate_volatility (high low : ℚ) : ℚ × Str :=
  if high = low then (0, "LOW".data)
  else
    if (high + low) / 2 = 0 then (0, "LOW".data)
    else
      if (high - low) / ((high + low) / 2) * 100 ≤ 50 then
        (roundTo2 ((high - low) / ((high + low) / 2) * 100), "LOW".data)
      else if (high - low) / ((high + low) / 2) * 100 ≤ 100 then
        (roundTo2 ((high - low) / ((high + low) / 2) * 100), "MODERATE".data)
      else if (high - low) / ((high + low) / 2) * 100 ≤ 200 then
        (roundTo2 ((high - low) / ((high + low) / 2) * 100), "HIGH".data)
      else
        (roundTo2 ((high - low) / ((high + low) / 2) * 100), "EXTREME".data)

/-- `get_recurring_status` (logic.py lines 105-108). -/
def get_recurring_status (found_count : Nat) (expected_count : Nat) : Str :=
  if max 4 (expected_count - 2) ≤ found_count then "FOUND".data
  else if 1 ≤ found_count then "PARTIAL".data
  else "NOT_FOUND".data

structure RelatedParty where
  name : Str
  relationship : Str
deriving DecidableEq, Repr

structure RpPattern where
  name : Str
  relationship : Str
  patterns : List Str
deriving DecidableEq, Repr

def RP_STOP_WORDS : List Str :=
  ["SDN".data, "BHD".data, "PLT".data, "BERHAD".data, "ENTERPRISE".data, "TRADING".data,
   "SERVICES".data, "SOLUTIONS".data, "HOLDINGS".data, "GROUP".data, "AND".data, "&".data]

/-- `' '.join(words[:2])` for a list with at least two words. -/
def joinFirstTwo (words : List Str) : Str :=
  match words with
  | w1 :: w2 :: _ => w1 ++ (' ' :: w2)
  | [w1] => w1
  | [] => []

/-- `generate_related_party_patterns` (logic.py lines 110-130). -/
def generate_related_party_patterns (related_parties : List RelatedParty) : List RpPattern :=
  related_parties.map (fun rp =>
    let name_upper := upperS rp.name
    let words := (wordsS name_upper).filter (fun w => !RP_STOP_WORDS.contains w && 2 < w.length)
    let search_patterns :=
      [name_upper]
      ++ (if 2 ≤ words.length then [joinFirstTwo words] else [])
      ++ (if 1 ≤ words.length then [words.headD []] else [])
    { name := rp.name, relationship := rp.relationship, patterns := search_patterns })

def PURPOSE_KEYWORDS : List Str :=
  ["STATUTORY".data, "SALARY".data, "LOAN".data, "PAYMENT".data, "ADVANCE".data, "INTERBANK".data]

structure RpMatch where
  name : Str
  relationship : Str
  purpose_note : Str
deriving DecidableEq, Repr

/-- The purpose-note extraction inside `check_related_party` (logic.py lines
137-142): the first context keyword found in the uppercased description yields
the 30-character slice starting at its position, stripped. -/
def purposeNote (desc_upper : Str) : Str :=
  match PURPOSE_KEYWORDS.findSome? (fun kw => (findSub desc_upper kw).map (fun i => (kw, i))) with
  | some (_, i) => stripS ((desc_upper.drop i).take 30)
  | none => []

/-- `check_related_party` (logic.py lines 132-148). -/
def check_related_party (desc : Str) (rp_patterns : List RpPattern) : Option RpMatch :=
  match rp_patterns with
  | [] => none
  | rp :: rest =>
    if rp.patterns.any (fun pattern => containsS (upperS desc) pattern) then
      some { name := rp.name, relationship := rp.relationship, purpose_note := purposeNote (upperS desc) }
    else
      check_related_party desc rest

/-- `check_statutory` (logic.py lines 150-156). -/
def check_statutory (desc : Str) : Option Str :=
  STATUTORY_KEYWORDS.findSome? (fun p =>
    if p.2.any (fun keyword => containsS (upperS desc) keyword) then some p.1 else none)

-- ===========================================================================
-- DATES (`datetime.strptime(_, '%Y-%m-%d')` and day arithmetic)
-- ===========================================================================

structure Date where
  year : Nat
  month : Nat
  day : Nat
deriving DecidableEq, Repr

def digitVal (c : Char) : Option Nat :=
  if '0' ≤ c && c ≤ '9' then some (c.toNat - 48) else none

/-- Parse a nonempty all-digit string as a number. -/
def digitsToNat (s : Str) : Option Nat :=
  match s with
  | [] => none
  | _ => s.foldl (fun acc c =>
      match acc, digitVal c with
      | some n, some d => some (10 * n + d)
      | _, _ => none) (some 0)

def isLeapYear (y : Nat) : Bool := (y % 4 == 0 && y % 100 != 0) || (y % 400 == 0)

def MONTH_DAYS : List Nat := [31, 28, 31, 30, 31, 30, 31, 31, 30, 31, 30, 31]

def daysInMonth (y m : Nat) : Nat :=
  if m == 2 && isLeapYear y then 29 else MONTH_DAYS.getD (m - 1) 0

/-- `datetime.strptime(s, '%Y-%m-%d')`: `none` models the raised `ValueError`. -/
def parseDate (s : Str) : Option Date :=
  match (s.splitOn '-').map digitsToNat with
  | [some y, some m, some d] =>
    if 1 ≤ y && y ≤ 9999 && 1 ≤ m && m ≤ 12 && 1 ≤ d && d ≤ daysInMonth y m then
      some ⟨y, m, d⟩
    else none
  | _ => none

/-- `datetime.strptime(s, '%Y-%m')`. -/
def parseMonth (s : Str) : Option (Nat × Nat) :=
  match (s.splitOn '-').map digitsToNat with
  | [some y, some m] =>
    if 1 ≤ y && y ≤ 9999 && 1 ≤ m && m ≤ 12 then some (y, m) else none
  | _ => none

def daysBeforeMonth (y m : Nat) : Nat :=
  ((List.range (m - 1)).map (fun i => daysInMonth y (i + 1))).sum

/-- Proleptic Gregorian ordinal (Python `date.toordinal`). -/
def toOrdinal (d : Date) : Nat :=
  365 * (d.year - 1) + (d.year - 1) / 4 - (d.year - 1) / 100 + (d.year - 1) / 400
    + daysBeforeMonth d.year d.month + d.day

/-- `(c_date - d_date).days` for exact dates. -/
def dayDiff (a b : Date) : ℤ := (toOrdinal a : ℤ) - (toOrdinal b : ℤ)

def MONTH_NAMES : List Str :=
  ["January".data, "February".data, "March".data, "April".data, "May".data, "June".data,
   "July".data, "August".data, "September".data, "October".data, "November".data, "December".data]

def pad4 (n : Nat) : Str :=
  let s := Nat.toDigits 10 n
  List.replicate (4 - s.length) '0' ++ s

/-- `strftime('%B %Y')` applied to a parsed `YYYY-MM` month. -/
def monthLabel (y m : Nat) : Str :=
  MONTH_NAMES.getD (m - 1) [] ++ (' ' :: pad4 y)

-- ===========================================================================
-- DATA MODEL
-- ===========================================================================

/-- One raw statement line as uploaded (JSON object); `none` models both a
missing key and JSON `null` (the code treats them alike via `.get(...) or 0`). -/
structure RawTxn where
  date : Option Str
  description : Option Str
  credit : Option ℚ
  debit : Option ℚ
  balance : Option ℚ
deriving DecidableEq, Repr

structure MonthRow where
  month : Str
  highest_balance : Option ℚ
  lowest_balance : Option ℚ
  ending_balance : Option ℚ
  net_change : Option ℚ
  total_credit : Option ℚ
  total_debit : Option ℚ
  transaction_count : Option Nat
deriving DecidableEq, Repr

structure RawAccount where
  transactions : List RawTxn
  monthly_summary : List MonthRow
deriving DecidableEq, Repr

structure AccountInfo where
  bank_name : Str
  account_number : Str
deriving DecidableEq, Repr

inductive Category
  | INTER_ACCOUNT_TRANSFER
  | INTER_ACCOUNT_TRANSFER_UNVERIFIED
  | RELATED_PARTY
  | LOAN_DISBURSEMENT
  | INTEREST_PROFIT_DIVIDEND
  | REVERSAL
  | GENUINE_SALES_COLLECTIONS
  | STATUTORY_PAYMENT
  | SALARY_WAGES
  | UTILITIES
  | BANK_CHARGES
  | SUPPLIER_VENDOR_PAYMENTS
deriving DecidableEq, Repr

/-- A normalized transaction (the dicts built at logic.py lines 191-205,
plus the `sorted_idx` assigned at lines 209-210). -/
structure Txn where
  idx : Nat
  account_id : Str
  date : Str
  description : Str
  debit : ℚ
  credit : ℚ
  balance : ℚ
  category : Option Category
  exclude_from_turnover : Bool
  is_related_party : Bool
  related_party_name : Str
  related_party_relationship : Str
  purpose_note : Str
  sorted_idx : Nat
deriving DecidableEq, Repr

instance : Inhabited Txn :=
  ⟨{ idx := 0, account_id := [], date := [], description := [], debit := 0, credit := 0,
     balance := 0, category := none, exclude_from_turnover := false, is_related_party := false,
     related_party_name := [], related_party_relationship := [], purpose_note := [],
     sorted_idx := 0 }⟩

inductive Err
  | missingField
  | badDate
deriving DecidableEq, Repr

-- ===========================================================================
-- TRANSACTION NORMALIZER (logic.py lines 173-210)
-- ===========================================================================

/-- Flatten one account's raw records (logic.py lines 184-206): default missing
credit/debit/balance to zero, discard rows where both amounts are zero, read
the required `date`/`description` fields (raising on absence), and number the
kept rows with the running `idx`. -/
def normalizeTxns (acc_id : Str) : List RawTxn → Nat → Except Err (List Txn × Nat)
  | [], idx => .ok ([], idx)
  | r :: rest, idx =>
    let credit_amt := r.credit.getD 0
    let debit_amt := r.debit.getD 0
    if credit_amt = 0 ∧ debit_amt = 0 then normalizeTxns acc_id rest idx
    else
      match r.date, r.description with
      | some dt, some ds => do
        let (ts, idx') ← normalizeTxns acc_id rest (idx + 1)
        .ok ({ idx := idx, account_id := acc_id, date := dt, description := ds,
               debit := debit_amt, credit := credit_amt, balance := r.balance.getD 0,
               category := none, exclude_from_turnover := false, is_related_party := false,
               related_party_name := [], related_party_relationship := [], purpose_note := [],
               sorted_idx := 0 } :: ts, idx')
      | _, _ => .error .missingField

/-- Iterate the sorted account ids, skipping ids absent from the uploaded data
(logic.py lines 177-179). -/
def combineGo : List Str → List (Str × RawAccount) → Nat → Except Err (List Txn)
  | [], _, _ => .ok []
  | k :: ks, up, idx =>
    match dget up k with
    | none => combineGo ks up idx
    | some acc => do
      let (ts, idx') ← normalizeTxns k acc.transactions idx
      let rest ← combineGo ks up idx'
      .ok (ts ++ rest)

/-- `create_transaction_key` comparison (logic.py lines 69-71): strict
less-than of the tuples `(date, -(credit+debit), description)`. -/
def txnKeyLt (a b : Txn) : Bool :=
  if strLt a.date b.date then true
  else if strLt b.date a.date then false
  else if a.credit + a.debit > b.credit + b.debit then true
  else if b.credit + b.debit > a.credit + a.debit then false
  else strLt a.description b.description

def assignSorted : List Txn → Nat → List Txn
  | [], _ => []
  | t :: ts, i => { t with sorted_idx := i } :: assignSorted ts (i + 1)

/-- Normalizer output: all accounts flattened (in sorted-key order), sorted by
the deterministic key, with `sorted_idx` assigned (logic.py lines 173-210). -/
def combine (account_info : List (Str × AccountInfo)) (uploaded_data : List (Str × RawAccount)) :
    Except Err (List Txn) := do
  let ts ← combineGo (ssort strLt (account_info.map Prod.fst)) uploaded_data 0
  .ok (assignSorted (ssort txnKeyLt ts) 0)

-- ===========================================================================
-- MISSING BANK DETECTION (logic.py lines 212-220)
-- ===========================================================================

def missingAccountsOf (txns : List Txn) : List (Str × Nat) :=
  txns.foldl (fun m t =>
    BANK_CODES.foldl (fun m' p =>
      if containsS (upperS t.description) p.1 && !PROVIDED_BANK_CODES.contains p.1 then
        bump m' (p.1 ++ " (".data ++ p.2 ++ ")".data)
      else m') m) []

def dedupKeepFirst (l : List Str) : List Str :=
  l.foldl (fun acc x => if acc.contains x then acc else acc ++ [x]) []

/-- `missing_bank_codes` (logic.py line 220): first whitespace token of each
counter key; the Python `set` is modelled as a duplicate-free list. -/
def missingBankCodesOf (ma : List (Str × Nat)) : List Str :=
  dedupKeepFirst (ma.map (fun p => (wordsS p.1).headD []))

-- ===========================================================================
-- TRANSFER MATCHING AND CATEGORIZATION CASCADE (logic.py lines 222-456)
-- ===========================================================================

/-- Key for `credits_sorted` (logic.py line 246): `(date, -credit, description)`. -/
def creditKeyLt (a b : Txn) : Bool :=
  if strLt a.date b.date then true
  else if strLt b.date a.date then false
  else if b.credit < a.credit then true
  else if a.credit < b.credit then false
  else strLt a.description b.description

/-- Key for `debits_sorted` (logic.py line 247): `(date, -debit, description)`. -/
def debitKeyLt (a b : Txn) : Bool :=
  if strLt a.date b.date then true
  else if strLt b.date a.date then false
  else if b.debit < a.debit then true
  else if a.debit < b.debit then false
  else strLt a.description b.description

/-- The credit transactions in deterministic matching order, as `sorted_idx`
positions into the normalized store (logic.py lines 223, 246). -/
def creditIdxsOf (store : List Txn) : List Nat :=
  (ssort creditKeyLt (store.filter (fun t => 0 < t.credit))).map (fun t => t.sorted_idx)

def debitIdxsOf (store : List Txn) : List Nat :=
  (ssort debitKeyLt (store.filter (fun t => 0 < t.debit))).map (fun t => t.sorted_idx)

def setCat (c : Category) (excl : Bool) (t : Txn) : Txn :=
  { t with category := some c, exclude_from_turnover := excl }

structure MatchedTransfer where
  date : Str
  amount : ℚ
  from_account : Str
  to_account : Str
  credit_description : Str
  debit_description : Str
  credit_idx : Nat
  debit_idx : Nat
deriving DecidableEq, Repr

/-- The inner loop of the matched-transfer pass (logic.py lines 255-271): scan
the sorted debits and return the first unused one compatible with credit `c`
(different account, amount within 1, dates parse and differ by at most one day,
and an inter-account/company marker or a credit of at least 50000). -/
def findMatch (ck : List Str) (c : Txn) (store : List Txn) (used : List Nat) :
    List Nat → Except Err (Option Nat)
  | [] => .ok none
  | j :: rest =>
    let d := store.getD j default
    if j ∈ used then findMatch ck c store used rest
    else if d.account_id == c.account_id then findMatch ck c store used rest
    else if 1 < |c.credit - d.debit| then findMatch ck c store used rest
    else
      match parseDate c.date with
      | none => .error .badDate
      | some cd =>
        match parseDate d.date with
        | none => .error .badDate
        | some dd =>
          if 1 < (dayDiff cd dd).natAbs then findMatch ck c store used rest
          else
            if (has_inter_account_marker (upperS c.description)
                || has_inter_account_marker (upperS d.description)
                || has_company_name (upperS c.description) ck
                || has_company_name (upperS d.description) ck)
               || 50000 ≤ c.credit then
              .ok (some j)
            else findMatch ck c store used rest

/-- The matched-transfer pass (logic.py lines 252-288): greedy first-match over
the sorted credits, consuming both sides of each accepted pair. -/
def matchPass (ck : List Str) (dIdxs : List Nat) :
    List Nat → List Txn → List Nat → List MatchedTransfer →
    Except Err (List Txn × List Nat × List MatchedTransfer)
  | [], store, used, mts => .ok (store, used, mts)
  | i :: rest, store, used, mts =>
    let c := store.getD i default
    if i ∈ used then matchPass ck dIdxs rest store used mts
    else
      match findMatch ck c store used dIdxs with
      | .error e => .error e
      | .ok none => matchPass ck dIdxs rest store used mts
      | .ok (some j) =>
        let d := store.getD j default
        let mt : MatchedTransfer :=
          { date := c.date, amount := c.credit, from_account := d.account_id,
            to_account := c.account_id, credit_description := c.description,
            debit_description := d.description, credit_idx := i, debit_idx := j }
        matchPass ck dIdxs rest
          ((store.set i (setCat .INTER_ACCOUNT_TRANSFER true c)).set j
            (setCat .INTER_ACCOUNT_TRANSFER true d))
          (j :: i :: used) (mts ++ [mt])

/-- One cascade rule applied in a single pass over `idxs` (each of logic.py's
`for ...: if used: continue; if <rule matches>: <categorize, record, mark used>`
loops): `upd` returns the categorized transaction when the rule fires.  Returns
the new store, the new used set, and the list of transactions the rule
categorized, in pass order. -/
def runPass (upd : Txn → Option Txn) : List Nat → List Txn → List Nat →
    List Txn × List Nat × List Txn
  | [], store, used => (store, used, [])
  | i :: rest, store, used =>
    if i ∈ used then runPass upd rest store used
    else
      match upd (store.getD i default) with
      | some t' =>
        let r := runPass upd rest (store.set i t') (i :: used)
        (r.1, r.2.1, t' :: r.2.2)
      | none => runPass upd rest store used

/-- Unverified inter-account transfer rule (logic.py lines 291-308, 384-401). -/
def updUnverified (ck : List Str) (missing : List Str) (t : Txn) : Option Txn :=
  match get_missing_bank_code (upperS t.description) missing with
  | some _ =>
    if has_inter_account_marker (upperS t.description)
        || has_company_name (upperS t.description) ck then
      some (setCat .INTER_ACCOUNT_TRANSFER_UNVERIFIED true t)
    else none
  | none => none

/-- Related-party rule (logic.py lines 310-322, 370-382). -/
def updRP (rps : List RpPattern) (t : Txn) : Option Txn :=
  match check_related_party t.description rps with
  | some m =>
    some { t with
            category := some Category.RELATED_PARTY, exclude_from_turnover := true,
            is_related_party := true, related_party_name := m.name,
            related_party_relationship := m.relationship, purpose_note := m.purpose_note }
  | none => none

/-- Simple keyword rule (loan disbursement, interest, reversal, salary,
utilities). -/
def updKeyword (kws : List Str) (c : Category) (excl : Bool) (t : Txn) : Option Txn :=
  if kws.any (fun kw => containsS (upperS t.description) kw) then some (setCat c excl t)
  else none

/-- Statutory-payment rule (logic.py lines 403-418). -/
def updStatutory (t : Txn) : Option Txn :=
  match check_statutory t.description with
  | some _ => some (setCat .STATUTORY_PAYMENT false t)
  | none => none

/-- Bank-charge rule, gated on amount below 1000 (logic.py lines 440-448). -/
def updBankCharge (t : Txn) : Option Txn :=
  if BANK_CHARGE_KEYWORDS.any (fun kw => containsS (upperS t.description) kw) ∧ t.debit < 1000 then
    some (setCat .BANK_CHARGES false t)
  else none

/-- Credit catch-all (logic.py lines 354-365). -/
def updGenuine (t : Txn) : Option Txn := some (setCat .GENUINE_SALES_COLLECTIONS false t)

/-- Debit catch-all (logic.py lines 450-456). -/
def updSupplier (t : Txn) : Option Txn := some (setCat .SUPPLIER_VENDOR_PAYMENTS false t)

structure CatResult where
  store : List Txn
  used : List Nat
  matched_transfers : List MatchedTransfer
  unverified_credit_transfers : List Txn
  unverified_debit_transfers : List Txn
  related_party_credits : List Txn
  related_party_debits : List Txn
  loan_disbursements : List Txn
  interest_credits : List Txn
  reversals : List Txn
  genuine_credits : List Txn
  statutory_payments : List Txn
  salary_wages : List Txn
  utilities : List Txn
  bank_charges : List Txn
  supplier_payments : List Txn
deriving DecidableEq, Repr

/-- The full pass sequence of logic.py lines 222-456: matched transfers, then
the credit cascade (unverified, related party, loan, interest, reversal,
genuine), then the debit cascade (related party, unverified, statutory, salary,
utilities, bank charges, supplier). -/
def categorize (ck : List Str) (rps : List RpPattern) (missing : List Str) (store0 : List Txn) :
    Except Err CatResult :=
  match matchPass ck (debitIdxsOf store0) (creditIdxsOf store0) store0 [] [] with
  | .error e => .error e
  | .ok (s1, u1, mts) =>
    match runPass (updUnverified ck missing) (creditIdxsOf store0) s1 u1 with
    | (s2, u2, unvC) =>
    match runPass (updRP rps) (creditIdxsOf store0) s2 u2 with
    | (s3, u3, rpC) =>
    match runPass (updKeyword DISBURSEMENT_KEYWORDS .LOAN_DISBURSEMENT true)
        (creditIdxsOf store0) s3 u3 with
    | (s4, u4, loans) =>
    match runPass (updKeyword INTEREST_KEYWORDS .INTEREST_PROFIT_DIVIDEND true)
        (creditIdxsOf store0) s4 u4 with
    | (s5, u5, ints) =>
    match runPass (updKeyword REVERSAL_KEYWORDS .REVERSAL true) (creditIdxsOf store0) s5 u5 with
    | (s6, u6, revs) =>
    match runPass updGenuine (creditIdxsOf store0) s6 u6 with
    | (s7, u7, gens) =>
    match runPass (updRP rps) (debitIdxsOf store0) s7 u7 with
    | (s8, u8, rpD) =>
    match runPass (updUnverified ck missing) (debitIdxsOf store0) s8 u8 with
    | (s9, u9, unvD) =>
    match runPass updStatutory (debitIdxsOf store0) s9 u9 with
    | (s10, u10, stats) =>
    match runPass (updKeyword SALARY_KEYWORDS .SALARY_WAGES false) (debitIdxsOf store0) s10 u10 with
    | (s11, u11, sals) =>
    match runPass (updKeyword UTILITY_KEYWORDS .UTILITIES false) (debitIdxsOf store0) s11 u11 with
    | (s12, u12, utils) =>
    match runPass updBankCharge (debitIdxsOf store0) s12 u12 with
    | (s13, u13, bankcs) =>
    match runPass updSupplier (debitIdxsOf store0) s13 u13 with
    | (s14, u14, sups) =>
    .ok { store := s14, used := u14, matched_transfers := mts,
          unverified_credit_transfers := unvC, unverified_debit_transfers := unvD,
          related_party_credits := rpC, related_party_debits := rpD,
          loan_disbursements := loans, interest_credits := ints, reversals := revs,
          genuine_credits := gens, statutory_payments := stats, salary_wages := sals,
          utilities := utils, bank_charges := bankcs, supplier_payments := sups }

-- ===========================================================================
-- AGGREGATION, SCORING AND REPORT (logic.py lines 458-588)
-- ===========================================================================

def csum (l : List Txn) : ℚ := (l.map (fun t => t.credit)).sum

def dsum (l : List Txn) : ℚ := (l.map (fun t => t.debit)).sum

def msum (l : List MatchedTransfer) : ℚ := (l.map (fun mt => mt.amount)).sum

/-- `total_credits` (logic.py line 459). -/
def totalCreditsOf (store : List Txn) : ℚ := csum (store.filter (fun t => 0 < t.credit))

/-- `total_debits` (logic.py line 460). -/
def totalDebitsOf (store : List Txn) : ℚ := dsum (store.filter (fun t => 0 < t.debit))

structure ReportInfo where
  company_name : Str
  generated_at : Str
  total_months : Nat
  accounts_not_provided : List Str
deriving DecidableEq, Repr

structure ExclusionBreakdown where
  related_party_credits : ℚ
  inter_account_credits : ℚ
  loan_disbursement : ℚ
deriving DecidableEq, Repr

/-- The `consolidated` block of the report (gross, business turnover and
exclusions, flattened). -/
structure Consolidated where
  total_credits : ℚ
  total_debits : ℚ
  net_credits : ℚ
  net_debits : ℚ
  exclusions_credits : ℚ
  exclusions_debits : ℚ
  breakdown : ExclusionBreakdown
deriving DecidableEq, Repr

structure Check where
  id : Nat
  name : Str
  status : Str
  points : Nat
deriving DecidableEq, Repr

structure IntegrityScore where
  score : Nat
  level : Str
  checks : List Check
deriving DecidableEq, Repr

structure RPDetail where
  date : Str
  party : Str
  amount : ℚ
  type : Str
deriving DecidableEq, Repr

structure RPSummary where
  total_credits : ℚ
  total_debits : ℚ
  details : List RPDetail
deriving DecidableEq, Repr

structure MonthlyOut where
  month : Str
  month_name : Str
  transaction_count : Nat
  opening : ℚ
  closing : ℚ
  credits : ℚ
  debits : ℚ
  volatility_level : Str
deriving DecidableEq, Repr

structure AccountOut where
  account_id : Str
  bank_name : Str
  account_number : Str
  monthly_summary : List MonthlyOut
deriving DecidableEq, Repr

structure Report where
  report_info : ReportInfo
  consolidated : Consolidated
  integrity_score : IntegrityScore
  related_party_transactions : RPSummary
  accounts : List AccountOut
deriving DecidableEq, Repr

/-- Per-account monthly rows (logic.py lines 495-515), also collecting
`all_highs`/`all_lows`.  A month label that fails to parse aborts the run,
as `strptime` does. -/
def buildMonthly : List MonthRow → Except Err (List MonthlyOut × List ℚ × List ℚ)
  | [] => .ok ([], [], [])
  | m :: rest =>
    match parseMonth m.month with
    | none => .error .badDate
    | some ym => do
      let (outs, hs, ls) ← buildMonthly rest
      .ok ({ month := m.month
             month_name := monthLabel ym.1 ym.2
             transaction_count := m.transaction_count.getD 0
             opening := roundTo2 (m.ending_balance.getD 0 - m.net_change.getD 0)
             closing := m.ending_balance.getD 0
             credits := m.total_credit.getD 0
             debits := m.total_debit.getD 0
             volatility_level := (calculate_volatility (m.highest_balance.getD 0)
               (m.lowest_balance.getD 0)).2 } :: outs,
           m.highest_balance.getD 0 :: hs, m.lowest_balance.getD 0 :: ls)

/-- The account-summary loop (logic.py lines 486-522). -/
def buildAccounts (account_info : List (Str × AccountInfo)) (uploaded : List (Str × RawAccount)) :
    List Str → Except Err (List AccountOut × List ℚ × List ℚ)
  | [] => .ok ([], [], [])
  | k :: ks =>
    match dget uploaded k with
    | none => buildAccounts account_info uploaded ks
    | some acc => do
      let (monthly, hs, ls) ← buildMonthly acc.monthly_summary
      let (rest, hs', ls') ← buildAccounts account_info uploaded ks
      let info := (dget account_info k).getD { bank_name := [], account_number := [] }
      .ok ({ account_id := k, bank_name := info.bank_name,
             account_number := info.account_number, monthly_summary := monthly } :: rest,
           hs ++ hs', ls ++ ls')

def listMax (l : List ℚ) : ℚ :=
  match l with
  | [] => 0
  | h :: t => t.foldl max h

def listMin (l : List ℚ) : ℚ :=
  match l with
  | [] => 0
  | h :: t => t.foldl min h

/-- `round_figure_total` over the genuine-sales credits (logic.py lines 530-532). -/
def roundFigureTotal (genuine : List Txn) : ℚ :=
  csum (genuine.filter (fun t => is_round_figure t.credit))

/-- `round_figure_pct` (logic.py line 533). -/
def roundFigurePct (rf_total total_credits : ℚ) : ℚ :=
  if 0 < total_credits then rf_total / total_credits * 100 else 0

/-- `expected_months` (logic.py line 537): sorted distinct `YYYY-MM` prefixes. -/
def expectedMonths (store : List Txn) : List Str :=
  ssort strLt (dedupKeepFirst (store.map (fun t => t.date.take 7)))

/-- `num_months` (logic.py line 538): `len(expected_months) or 1`. -/
def numMonths (store : List Txn) : Nat :=
  if (expectedMonths store).length = 0 then 1 else (expectedMonths store).length

/-- Distinct months with a statutory payment of the given type
(`statutory_by_type`, logic.py lines 415, 540-542). -/
def statMonthsFor (statType : Str) (stats : List Txn) : List Str :=
  dedupKeepFirst
    ((stats.filter (fun t => check_statutory t.description == some statType)).map
      (fun t => t.date.take 7))

/-- The integrity check list (logic.py lines 545-550). -/
def buildChecks (overall_level : Str) (round_figure_pct : ℚ) (epf_month_count : Nat)
    (num_months : Nat) (missing_accounts : List (Str × Nat)) : List Check :=
  [{ id := 1
     name := "Volatility Level".data
     status := if overall_level = "HIGH".data ∨ overall_level = "EXTREME".data
               then "FAIL".data else "PASS".data
     points := if overall_level = "HIGH".data ∨ overall_level = "EXTREME".data then 0 else 2 },
   { id := 2
     name := "Round Figure %".data
     status := if round_figure_pct ≤ ROUND_FIGURE_WARNING_PCT then "PASS".data else "FAIL".data
     points := if round_figure_pct ≤ ROUND_FIGURE_WARNING_PCT then 2 else 0 },
   { id := 3
     name := "EPF Payment".data
     status := if max 4 (num_months - 2) ≤ epf_month_count then "PASS".data else "FAIL".data
     points := if max 4 (num_months - 2) ≤ epf_month_count then 1 else 0 },
   { id := 4
     name := "Data Completeness".data
     status := if missing_accounts = [] then "PASS".data else "FAIL".data
     points := 0 }]

def rpDetailOf (t : Txn) : RPDetail :=
  { date := t.date
    party := t.related_party_name
    amount := if 0 < t.credit then t.credit else t.debit
    type := if 0 < t.credit then "CREDIT".data else "DEBIT".data }

/-- The related-party detail list, credits then debits, stably sorted by date
(logic.py lines 582-583). -/
def rpDetails (rpC rpD : List Txn) : List RPDetail :=
  (ssort (fun a b => strLt a.date b.date) (rpC ++ rpD)).map rpDetailOf

def natToDec (n : Nat) : Str := Nat.toDigits 10 n

/-- `accounts_not_provided` (logic.py line 560). -/
def accountsNotProvided (ma : List (Str × Nat)) : List Str :=
  ma.map (fun p => p.1 ++ " (".data ++ natToDec p.2 ++ " txns)".data)

def EPF_KEY : Str := "EPF/KWSP".data

/-- The aggregation and report assembly of `process_analysis` (logic.py lines
458-586), as a function of the normalized store, the categorization result and
the account summaries; `generated_at` is left empty here. -/
def assembleReport (company_name : Str) (store0 : List Txn) (res : CatResult)
    (acc3 : List AccountOut × List ℚ × List ℚ) : Report :=
  let missing_accounts := missingAccountsOf store0
  let total_credits := totalCreditsOf store0
  let total_debits := totalDebitsOf store0
  let matched_credit_amount := msum res.matched_transfers
  let unverified_credit_amount := csum res.unverified_credit_transfers
  let rp_credit_amount := csum res.related_party_credits
  let loan_disb_amount := csum res.loan_disbursements
  let interest_amount := csum res.interest_credits
  let reversal_amount := csum res.reversals
  let total_credit_exclusions := matched_credit_amount + unverified_credit_amount +
    rp_credit_amount + loan_disb_amount + interest_amount + reversal_amount
  let matched_debit_amount := matched_credit_amount
  let unverified_debit_amount := dsum res.unverified_debit_transfers
  let rp_debit_amount := dsum res.related_party_debits
  let total_debit_exclusions := matched_debit_amount + unverified_debit_amount + rp_debit_amount
  let overall := if acc3.2.1 ≠ [] ∧ acc3.2.2 ≠ [] then
      calculate_volatility (listMax acc3.2.1) (listMin acc3.2.2)
    else (0, "LOW".data)
  let round_figure_pct := roundFigurePct (roundFigureTotal res.genuine_credits) total_credits
  let num_months := numMonths store0
  let epf_count := (statMonthsFor EPF_KEY res.statutory_payments).length
  let checks := buildChecks overall.2 round_figure_pct epf_count num_months missing_accounts
  let score := (checks.map (fun c => c.points)).sum
  { report_info := {
      company_name := company_name
      generated_at := []
      total_months := num_months
      accounts_not_provided := accountsNotProvided missing_accounts }
    consolidated := {
      total_credits := total_credits
      total_debits := total_debits
      net_credits := total_credits - total_credit_exclusions
      net_debits := total_debits - total_debit_exclusions
      exclusions_credits := total_credit_exclusions
      exclusions_debits := total_debit_exclusions
      breakdown := {
        related_party_credits := rp_credit_amount
        inter_account_credits := matched_credit_amount + unverified_credit_amount
        loan_disbursement := loan_disb_amount } }
    integrity_score := { score := score, level := overall.2, checks := checks }
    related_party_transactions := {
      total_credits := rp_credit_amount
      total_debits := rp_debit_amount
      details := rpDetails res.related_party_credits res.related_party_debits }
    accounts := acc3.1 }

/-- Everything in `process_analysis` except stamping the generation timestamp
(logic.py lines 162-588 with `generated_at` left empty). -/
def analysisCore (company_name : Str) (ck : List Str) (rps : List RelatedParty)
    (account_info : List (Str × AccountInfo)) (uploaded : List (Str × RawAccount)) :
    Except Err Report := do
  let rp_patterns := generate_related_party_patterns rps
  let store0 ← combine account_info uploaded
  let missing_codes := missingBankCodesOf (missingAccountsOf store0)
  let res ← categorize ck rp_patterns missing_codes store0
  let acc3 ← buildAccounts account_info uploaded (ssort strLt (account_info.map Prod.fst))
  .ok (assembleReport company_name store0 res acc3)

def stampReport (now : Str) (r : Report) : Report :=
  { r with report_info := { r.report_info with generated_at := now } }

/-- `process_analysis` (logic.py lines 162-588).  `now` is the
`datetime.now(timezone.utc).strftime(...)` reading, an input to the model. -/
def process_analysis (company_name : Str) (company_keywords : List Str)
    (related_parties : List RelatedParty) (account_info : List (Str × AccountInfo))
    (uploaded_data : List (Str × RawAccount)) (now : Str) : Except Err Report :=
  (analysisCore company_name company_keywords related_parties account_info uploaded_data).map
    (stampReport now)

-- ===========================================================================
-- Specification-side definitions and concrete test fixtures
-- ===========================================================================

/-- The level table as the spec states it: LOW up to 50, MODERATE up to 100,
HIGH up to 200, EXTREME beyond (on the computed percentage). -/
def levelOf (pct : ℚ) : Str :=
  if pct ≤ 50 then "LOW".data
  else if pct ≤ 100 then "MODERATE".data
  else if pct ≤ 200 then "HIGH".data
  else "EXTREME".data

/-- The significant words of a related-party name: uppercased, stop words
removed, words of length at most 2 removed. -/
def significantWords (name : Str) : List Str :=
  (wordsS (upperS name)).filter (fun w => !RP_STOP_WORDS.contains w && 2 < w.length)

/-- The pattern list for one related party as the spec words it. -/
def specPatterns (name : Str) : List Str :=
  [upperS name]
    ++ (if 2 ≤ (significantWords name).length then [joinFirstTwo (significantWords name)] else [])
    ++ (if 1 ≤ (significantWords name).length then [(significantWords name).headD []] else [])

-- Fixture for the C8 scenario: related party "ABC Sdn Bhd", debit described
-- "TRANSFER TO ABC SDN BHD LOAN REPAY".

def c8party : RelatedParty := { name := "ABC Sdn Bhd".data, relationship := "Sister Company".data }

def c8desc : Str := "TRANSFER TO ABC SDN BHD LOAN REPAY".data

def c8info : List (Str × AccountInfo) :=
  [("ACC1".data, { bank_name := "CIMB".data, account_number := "111".data })]

def c8up : List (Str × RawAccount) :=
  [("ACC1".data,
    { transactions := [{ date := some ("2024-01-15".data), description := some c8desc,
                         credit := none, debit := some 100, balance := none }],
      monthly_summary := [] })]

def c8store : List Txn := ((combine c8info c8up).toOption).getD []

def c8rps : List RpPattern := generate_related_party_patterns [c8party]

def c8missing : List Str := missingBankCodesOf (missingAccountsOf c8store)

def isOkE (e : Except Err α) : Bool :=
  match e with
  | .ok _ => true
  | .error _ => false

/-- A raw record that makes the run fail: it is kept (some defaulted amount is
non-zero) and lacks its `date` or its `description`. -/
def badRecord (r : RawTxn) : Prop :=
  ¬(r.credit.getD 0 = 0 ∧ r.debit.getD 0 = 0) ∧ (r.date = none ∨ r.description = none)

-- Fixture for the C9 counterexample: a record lacking both `date` and
-- `description` whose credit and debit are both zero (missing/defaulted).

def c9zrec : RawTxn :=
  { date := none, description := none, credit := none, debit := some 0, balance := none }

def c9zinfo : List (Str × AccountInfo) :=
  [("ACC1".data, { bank_name := "CIMB".data, account_number := "111".data })]

def c9zup : List (Str × RawAccount) :=
  [("ACC1".data, { transactions := [c9zrec], monthly_summary := [] })]

-- Fixture for the C9 witness: a kept record (credit 5) lacking its date.

def c9wrec : RawTxn :=
  { date := none, description := some ("SOME SALE".data), credit := some 5, debit := none,
    balance := none }

def c9wacc : RawAccount := { transactions := [c9wrec], monthly_summary := [] }

def c9winfo : List (Str × AccountInfo) :=
  [("ACC1".data, { bank_name := "CIMB".data, account_number := "111".data })]

def c9wup : List (Str × RawAccount) := [("ACC1".data, c9wacc)]

def defaultCheck : Check := { id := 0, name := [], status := [], points := 0 }

def emptyReport : Report :=
  { report_info := { company_name := [], generated_at := [], total_months := 0,
                     accounts_not_provided := [] }
    consolidated := { total_credits := 0, total_debits := 0, net_credits := 0, net_debits := 0,
                      exclusions_credits := 0, exclusions_debits := 0,
                      breakdown := { related_party_credits := 0, inter_account_credits := 0,
                                     loan_disbursement := 0 } }
    integrity_score := { score := 0, level := [], checks := [] }
    related_party_transactions := { total_credits := 0, total_debits := 0, details := [] }
    accounts := [] }

/-- Concrete run used to witness the run-level scoring facts. -/
def c10r : Report :=
  ((analysisCore ("CO".data) [] [c8party] c8info c8up).toOption).getD emptyReport

/-- The fields of a transaction that no categorization pass modifies. -/
structure Frozen where
  idx : Nat
  account_id : Str
  date : Str
  description : Str
  debit : ℚ
  credit : ℚ
  balance : ℚ
  sorted_idx : Nat
deriving DecidableEq, Repr

def frozen (t : Txn) : Frozen :=
  { idx := t.idx, account_id := t.account_id, date := t.date, description := t.description,
    debit := t.debit, credit := t.credit, balance := t.balance, sorted_idx := t.sorted_idx }

/-- The category-exclusion table of the spec (§4.5): precisely the
non-operating/internal categories are excluded from turnover. -/
def excludedCat (c : Category) : Bool :=
  match c with
  | .INTER_ACCOUNT_TRANSFER => true
  | .INTER_ACCOUNT_TRANSFER_UNVERIFIED => true
  | .RELATED_PARTY => true
  | .LOAN_DISBURSEMENT => true
  | .INTEREST_PROFIT_DIVIDEND => true
  | .REVERSAL => true
  | .GENUINE_SALES_COLLECTIONS => false
  | .STATUTORY_PAYMENT => false
  | .SALARY_WAGES => false
  | .UTILITIES => false
  | .BANK_CHARGES => false
  | .SUPPLIER_VENDOR_PAYMENTS => false

/-- A well-behaved cascade rule: it never touches the frozen fields, it always
sets a category with the matching exclusion flag, and whether it fires depends
only on the frozen fields. -/
structure UpdOK (upd : Txn → Option Txn) : Prop where
  pres : ∀ t t', upd t = some t' → frozen t' = frozen t
  consistent : ∀ t t', upd t = some t' →
    ∃ c, t'.category = some c ∧ t'.exclude_from_turnover = excludedCat c
  dep : ∀ t t₂, frozen t = frozen t₂ → (upd t).isSome = (upd t₂).isSome

/-- The compatibility test of the matched-transfer inner loop, stated on a
credit/debit pair (logic.py lines 257-271). -/
def compatiblePair (ck : List Str) (c d : Txn) : Prop :=
  ¬(d.account_id = c.account_id) ∧ |c.credit - d.debit| ≤ 1 ∧
  (∃ cd dd, parseDate c.date = some cd ∧ parseDate d.date = some dd ∧
    (dayDiff cd dd).natAbs ≤ 1) ∧
  ((has_inter_account_marker (upperS c.description)
      || has_inter_account_marker (upperS d.description)
      || has_company_name (upperS c.description) ck
      || has_company_name (upperS d.description) ck) = true ∨ 50000 ≤ c.credit)

/-- All matching keys consumed by a list of matched-transfer pairs. -/
def pairIdxs (ms : List MatchedTransfer) : List Nat :=
  ms.flatMap (fun mt => [mt.credit_idx, mt.debit_idx])

def creditAt (store0 : List Txn) (i : Nat) : ℚ := (store0.getD i default).credit

def debitAt (store0 : List Txn) (i : Nat) : ℚ := (store0.getD i default).debit

/-- Total original credit amount of a set of consumed keys. -/
def usedCredit (store0 : List Txn) (used : List Nat) : ℚ := (used.map (creditAt store0)).sum

def usedDebit (store0 : List Txn) (used : List Nat) : ℚ := (used.map (debitAt store0)).sum

def pairCredit (store0 : List Txn) (ms : List MatchedTransfer) : ℚ :=
  (ms.map (fun mt => creditAt store0 mt.credit_idx + creditAt store0 mt.debit_idx)).sum

def pairDebit (store0 : List Txn) (ms : List MatchedTransfer) : ℚ :=
  (ms.map (fun mt => debitAt store0 mt.credit_idx + debitAt store0 mt.debit_idx)).sum

/-- The matched debits' own amounts (as opposed to the credit amounts the code
books against the debit side). -/
def matchedDebitOwn (store0 : List Txn) (ms : List MatchedTransfer) : ℚ :=
  (ms.map (fun mt => (store0.getD mt.debit_idx default).debit)).sum

/-- An empty categorization result, used only as a `getD` default for concrete
fixtures. -/
def emptyCatResult : CatResult :=
  { store := [], used := [], matched_transfers := [], unverified_credit_transfers := [],
    unverified_debit_transfers := [], related_party_credits := [], related_party_debits := [],
    loan_disbursements := [], interest_credits := [], reversals := [], genuine_credits := [],
    statutory_payments := [], salary_wages := [], utilities := [], bank_charges := [],
    supplier_payments := [] }

/-- Concrete categorization result of the C8 fixture run. -/
def c1res : CatResult := ((categorize [] c8rps c8missing c8store).toOption).getD emptyCatResult

/-- C3 fixture: a related party whose pattern occurs in a debit description
that also satisfies the unverified-transfer conditions (missing bank code +
inter-account marker). -/
def c3party : RelatedParty := { name := "Zeta Corp".data, relationship := "Subsidiary".data }

def c3rec : RawTxn :=
  { date := some "2024-02-01".data, description := some "MBB INTERBANK ZETA CORP PAYMENT".data,
    credit := none, debit := some 100, balance := none }

def c3info : List (Str × AccountInfo) :=
  [("ACC1".data, { bank_name := "Maybank".data, account_number := "111".data })]

def c3up : List (Str × RawAccount) :=
  [("ACC1".data, { transactions := [c3rec], monthly_summary := [] })]

def c3store : List Txn := ((combine c3info c3up).toOption).getD []

def c3rps : List RpPattern := generate_related_party_patterns [c3party]

def c3missing : List Str := missingBankCodesOf (missingAccountsOf c3store)

def c3res : CatResult := ((categorize [] c3rps c3missing c3store).toOption).getD emptyCatResult

/-- C4 fixture: a matched transfer whose credit (50000) and debit (49999)
differ by exactly the 1-unit tolerance, plus a genuine round-figure credit. -/
def c4acc1 : RawAccount :=
  { transactions :=
      [{ date := some "2024-01-15".data, description := some "TRANSFER OUT".data,
         credit := none, debit := some 49999, balance := none }],
    monthly_summary := [] }

def c4acc2 : RawAccount :=
  { transactions :=
      [{ date := some "2024-01-15".data, description := some "TRANSFER IN".data,
         credit := some 50000, debit := none, balance := none },
       { date := some "2024-01-16".data, description := some "SALES COLLECTION".data,
         credit := some 12000, debit := none, balance := none }],
    monthly_summary := [] }

def c4info : List (Str × AccountInfo) :=
  [("ACC1".data, { bank_name := "BankA".data, account_number := "1".data }),
   ("ACC2".data, { bank_name := "BankB".data, account_number := "2".data })]

def c4up : List (Str × RawAccount) := [("ACC1".data, c4acc1), ("ACC2".data, c4acc2)]

def c4store : List Txn := ((combine c4info c4up).toOption).getD []

def c4missing : List Str := missingBankCodesOf (missingAccountsOf c4store)

def c4res : CatResult := ((categorize [] [] c4missing c4store).toOption).getD emptyCatResult

/-- C5 fixtures: the same two accounts listed in two different orders. -/
def c5accA : RawAccount :=
  { transactions :=
      [{ date := some "2024-03-01".data, description := some "SALES".data,
         credit := some 100, debit := none, balance := some 100 }],
    monthly_summary := [] }

def c5accB : RawAccount :=
  { transactions :=
      [{ date := some "2024-03-02".data, description := some "RENT".data,
         credit := none, debit := some 50, balance := some 50 }],
    monthly_summary := [] }

def c5info : List (Str × AccountInfo) :=
  [("A1".data, { bank_name := "X".data, account_number := "1".data }),
   ("B1".data, { bank_name := "Y".data, account_number := "2".data })]

def c5info2 : List (Str × AccountInfo) :=
  [("B1".data, { bank_name := "Y".data, account_number := "2".data }),
   ("A1".data, { bank_name := "X".data, account_number := "1".data })]

def c5up : List (Str × RawAccount) := [("A1".data, c5accA), ("B1".data, c5accB)]

def c5up2 : List (Str × RawAccount) := [("B1".data, c5accB), ("A1".data, c5accA)]

/-- Blank out the generation timestamp of a report (to compare runs taken at
different times). -/
def scrubTime (r : Report) : Report :=
  { r with report_info := { r.report_info with generated_at := [] } }

/-- C6: `calculate_volatility` returns `(0.0, LOW)` when `h = l` or when
`(h+l)/2 = 0`, and otherwise `((h-l)/((h+l)/2)*100` rounded to two decimals
together with the LOW/MODERATE/HIGH/EXTREME level of that percentage; in
particular `calculate_volatility h h = (0, LOW)` for every `h` and
`calculate_volatility 0 0 = (0, LOW)`, and the zero-denominator cases are
total (they return the guard value rather than failing). -/
theorem claim_C6 :
    (∀ high low : ℚ,
      calculate_volatility high low =
        if high = low ∨ (high + low) / 2 = 0 then (0, "LOW".data)
        else (roundTo2 ((high - low) / ((high + low) / 2) * 100),
              levelOf ((high - low) / ((high + low) / 2) * 100)))
    ∧ (∀ h : ℚ, calculate_volatility h h = (0, "LOW".data))
    ∧ calculate_volatility 0 0 = (0, "LOW".data) := by
  have key : ∀ high low : ℚ,
      calculate_volatility high low =
        if high = low ∨ (high + low) / 2 = 0 then (0, "LOW".data)
        else (roundTo2 ((high - low) / ((high + low) / 2) * 100),
              levelOf ((high - low) / ((high + low) / 2) * 100)) := by
    intro high low
    by_cases h1 : high = low
    · simp [calculate_volatility, h1]
    · by_cases h2 : (high + low) / 2 = 0
      · simp [calculate_volatility, h1, h2]
      · rw [if_neg (by push_neg; exact ⟨h1, h2⟩)]
        unfold calculate_volatility levelOf
        rw [if_neg h1, if_neg h2]
        split_ifs <;> rfl
  exact ⟨key, fun h => by rw [key h h]; simp, by rw [key 0 0]; simp⟩

-- ===========================================================================
-- CLAIM C7: round-figure detection
-- ===========================================================================

theorem is_round_figure_iff (amount : ℚ) :
    is_round_figure amount = true ↔ 10000 ≤ amount ∧ ∃ k : ℤ, amount = 1000 * k := by
  unfold is_round_figure ROUND_FIGURE_THRESHOLD
  rw [Bool.and_eq_true, decide_eq_true_eq, beq_iff_eq]
  constructor
  · rintro ⟨hle, hden⟩
    refine ⟨hle, (amount / 1000).num, ?_⟩
    have h := (Rat.den_eq_one_iff (amount / 1000)).mp hden
    have : (1000 : ℚ) ≠ 0 := by norm_num
    field_simp at h ⊢
    linarith [h]
  · rintro ⟨hle, k, rfl⟩
    refine ⟨hle, ?_⟩
    have : (1000 : ℚ) * k / 1000 = (k : ℚ) := by field_simp
    rw [this]
    exact Rat.den_intCast k

-- ===========================================================================
-- CLAIM C8: related-party patterns and matching
-- ===========================================================================

theorem check_related_party_eq_find (desc : Str) (rps : List RpPattern) :
    check_related_party desc rps =
      (rps.find? (fun rp => rp.patterns.any (fun p => containsS (upperS desc) p))).map
        (fun rp => { name := rp.name, relationship := rp.relationship,
                     purpose_note := purposeNote (upperS desc) }) := by
  induction rps with
  | nil => rfl
  | cons rp rest ih =>
    by_cases h : rp.patterns.any (fun p => containsS (upperS desc) p)
    · simp [check_related_party, h, List.find?]
    · simp [check_related_party, h, List.find?, ih]

/-- C8: the pattern builder produces, in order, the full uppercased name, then
(if two significant words remain) the first two significant words joined by a
space, then (if one remains) the first significant word; matching scans the
parties in list order and succeeds on the first party one of whose patterns is
a substring of the uppercased description; a matched description containing
none of the context keywords gets an empty purpose note; and the declared
scenario — party "ABC Sdn Bhd", debit "TRANSFER TO ABC SDN BHD LOAN REPAY" —
matches via the full-name pattern, is categorized RELATED_PARTY, and gets a
purpose note containing "LOAN". -/
theorem claim_C8 :
    (∀ rps : List RelatedParty,
      generate_related_party_patterns rps = rps.map (fun rp =>
        { name := rp.name, relationship := rp.relationship, patterns := specPatterns rp.name }))
    ∧ (∀ desc rps, check_related_party desc rps =
        (rps.find? (fun rp => rp.patterns.any (fun p => containsS (upperS desc) p))).map
          (fun rp => { name := rp.name, relationship := rp.relationship,
                       purpose_note := purposeNote (upperS desc) }))
    ∧ (∀ du : Str, (∀ kw ∈ PURPOSE_KEYWORDS, findSub du kw = none) → purposeNote du = [])
    ∧ (containsS (upperS c8desc) (upperS c8party.name) = true
       ∧ (c8rps.headD { name := [], relationship := [], patterns := [] }).patterns.headD []
           = upperS c8party.name
       ∧ check_related_party c8desc c8rps =
           some { name := c8party.name, relationship := c8party.relationship,
                  purpose_note := "LOAN REPAY".data }
       ∧ containsS ("LOAN REPAY".data) ("LOAN".data) = true
       ∧ (categorize [] c8rps c8missing c8store).map
           (fun res => res.store.map (fun t => (t.category, t.purpose_note, t.exclude_from_turnover)))
         = .ok [(some Category.RELATED_PARTY, "LOAN REPAY".data, true)]) := by
  refine ⟨fun rps => rfl, check_related_party_eq_find, ?_, ?_, ?_, ?_, ?_, ?_⟩
  · intro du h
    have h1 := h ("STATUTORY".data) (by simp [PURPOSE_KEYWORDS])
    have h2 := h ("SALARY".data) (by simp [PURPOSE_KEYWORDS])
    have h3 := h ("LOAN".data) (by simp [PURPOSE_KEYWORDS])
    have h4 := h ("PAYMENT".data) (by simp [PURPOSE_KEYWORDS])
    have h5 := h ("ADVANCE".data) (by simp [PURPOSE_KEYWORDS])
    have h6 := h ("INTERBANK".data) (by simp [PURPOSE_KEYWORDS])
    simp [purposeNote, PURPOSE_KEYWORDS, List.findSome?, h1, h2, h3, h4, h5, h6]
  · with_unfolding_all rfl
  · with_unfolding_all rfl
  · with_unfolding_all rfl
  · with_unfolding_all rfl
  · with_unfolding_all rfl

-- ===========================================================================
-- Stable sort basics
-- ===========================================================================

theorem sinsert_perm (lt : α → α → Bool) (x : α) (l : List α) :
    (sinsert lt x l).Perm (x :: l) := by
  induction l with
  | nil => exact List.Perm.refl _
  | cons y ys ih =>
    unfold sinsert
    by_cases h : lt x y
    · simp only [h, if_true]
      exact List.Perm.refl _
    · simp only [h, if_false, Bool.false_eq_true]
      exact (ih.cons y).trans (List.Perm.swap x y ys)

theorem ssort_aux_perm (lt : α → α → Bool) (l acc : List α) :
    (l.foldl (fun a x => sinsert lt x a) acc).Perm (l ++ acc) := by
  induction l generalizing acc with
  | nil => exact List.Perm.refl _
  | cons x t ih =>
    simp only [List.foldl_cons, List.cons_append]
    exact ((ih (sinsert lt x acc)).trans
      ((List.Perm.append_left t (sinsert_perm lt x acc)).trans List.perm_middle)).trans
      (List.Perm.refl _)

theorem ssort_perm (lt : α → α → Bool) (l : List α) : (ssort lt l).Perm l := by
  have := ssort_aux_perm lt l []
  simpa [ssort] using this

theorem mem_ssort (lt : α → α → Bool) {x : α} {l : List α} : x ∈ ssort lt l ↔ x ∈ l :=
  (ssort_perm lt l).mem_iff

-- ===========================================================================
-- CLAIM C9: missing-field handling in the normalizer
-- ===========================================================================

theorem normalizeTxns_isOk_iff (acc_id : Str) (rts : List RawTxn) (idx : Nat) :
    isOkE (normalizeTxns acc_id rts idx) = true ↔ ∀ r ∈ rts, ¬ badRecord r := by
  induction rts generalizing idx with
  | nil => simp [normalizeTxns, isOkE]
  | cons r rest ih =>
    by_cases hz : r.credit.getD 0 = 0 ∧ r.debit.getD 0 = 0
    · rw [show normalizeTxns acc_id (r :: rest) idx = normalizeTxns acc_id rest idx from by
        simp [normalizeTxns, hz]]
      rw [ih]
      constructor
      · intro h r' hr'
        rcases List.mem_cons.mp hr' with h1 | h1
        · subst h1; exact fun hb => hb.1 hz
        · exact h r' h1
      · intro h r' hr'
        exact h r' (List.mem_cons_of_mem _ hr')
    · rcases hd : r.date with _ | dt
      · have herr : normalizeTxns acc_id (r :: rest) idx = .error .missingField := by
          rcases hds : r.description with _ | ds <;> simp [normalizeTxns, hz, hd, hds]
        rw [herr]
        simp only [isOkE]
        constructor
        · intro h; exact absurd h (by simp)
        · intro hAll
          exact absurd ⟨hz, Or.inl hd⟩ (hAll r (List.mem_cons_self r rest))
      · rcases hds : r.description with _ | ds
        · have herr : normalizeTxns acc_id (r :: rest) idx = .error .missingField := by
            simp [normalizeTxns, hz, hd, hds]
          rw [herr]
          simp only [isOkE]
          constructor
          · intro h; exact absurd h (by simp)
          · intro hAll
            exact absurd ⟨hz, Or.inr hds⟩ (hAll r (List.mem_cons_self r rest))
        · have hnb : ¬ badRecord r := by
            intro hb
            rcases hb.2 with h | h
            · rw [hd] at h; cases h
            · rw [hds] at h; cases h
          have heq : isOkE (normalizeTxns acc_id (r :: rest) idx)
              = isOkE (normalizeTxns acc_id rest (idx + 1)) := by
            rcases hx : normalizeTxns acc_id rest (idx + 1) with e | p <;>
              simp [normalizeTxns, hz, hd, hds, hx, isOkE, Bind.bind, Except.bind]
          rw [heq, ih]
          constructor
          · intro h r' hr'
            rcases List.mem_cons.mp hr' with h1 | h1
            · subst h1; exact hnb
            · exact h r' h1
          · intro h r' hr'
            exact h r' (List.mem_cons_of_mem _ hr')

theorem normalizeTxns_err (acc_id : Str) (rts : List RawTxn) :
    ∀ (idx : Nat) (e : Err), normalizeTxns acc_id rts idx = .error e → e = .missingField := by
  induction rts with
  | nil => intro idx e h; simp [normalizeTxns] at h
  | cons r rest ih =>
    intro idx e h
    by_cases hz : r.credit.getD 0 = 0 ∧ r.debit.getD 0 = 0
    · rw [show normalizeTxns acc_id (r :: rest) idx = normalizeTxns acc_id rest idx from by
        simp [normalizeTxns, hz]] at h
      exact ih idx e h
    · rcases hd : r.date with _ | dt
      · rcases hds : r.description with _ | ds <;>
          · rw [show normalizeTxns acc_id (r :: rest) idx = .error .missingField from by
              simp [normalizeTxns, hz, hd, hds]] at h
            exact (Except.error.inj h).symm
      · rcases hds : r.description with _ | ds
        · rw [show normalizeTxns acc_id (r :: rest) idx = .error .missingField from by
            simp [normalizeTxns, hz, hd, hds]] at h
          exact (Except.error.inj h).symm
        · rcases hx : normalizeTxns acc_id rest (idx + 1) with e' | p
          · have : e' = .missingField := ih (idx + 1) e' hx
            subst this
            rw [show normalizeTxns acc_id (r :: rest) idx = .error .missingField from by
              simp [normalizeTxns, hz, hd, hds, hx, Bind.bind, Except.bind]] at h
            exact (Except.error.inj h).symm
          · rw [show normalizeTxns acc_id (r :: rest) idx
                = .ok ({ idx := idx, account_id := acc_id, date := dt, description := ds,
                         debit := r.debit.getD 0, credit := r.credit.getD 0,
                         balance := r.balance.getD 0, category := none,
                         exclude_from_turnover := false, is_related_party := false,
                         related_party_name := [], related_party_relationship := [],
                         purpose_note := [], sorted_idx := 0 } :: p.1, p.2) from by
              simp [normalizeTxns, hz, hd, hds, hx, Bind.bind, Except.bind]] at h
            cases h

theorem normalizeTxns_error_of_bad (acc_id : Str) (rts : List RawTxn) (idx : Nat)
    (h : ∃ r ∈ rts, badRecord r) :
    normalizeTxns acc_id rts idx = .error .missingField := by
  rcases hx : normalizeTxns acc_id rts idx with e | p
  · rw [normalizeTxns_err acc_id rts idx e hx]
  · exfalso
    rcases h with ⟨r, hr, hb⟩
    exact (normalizeTxns_isOk_iff acc_id rts idx).mp (by rw [hx]; rfl) r hr hb

theorem combineGo_isOk_iff (ks : List Str) (up : List (Str × RawAccount)) (idx : Nat) :
    isOkE (combineGo ks up idx) = true ↔
      ∀ k ∈ ks, ∀ acc, dget up k = some acc → ∀ r ∈ acc.transactions, ¬ badRecord r := by
  induction ks generalizing idx with
  | nil => simp [combineGo, isOkE]
  | cons k t ih =>
    rcases hk : dget up k with _ | acc
    · rw [show combineGo (k :: t) up idx = combineGo t up idx from by simp [combineGo, hk]]
      rw [ih]
      constructor
      · intro h k' hk' acc' hacc' r hr
        rcases List.mem_cons.mp hk' with h1 | h1
        · subst h1; rw [hk] at hacc'; cases hacc'
        · exact h k' h1 acc' hacc' r hr
      · intro h k' hk'
        exact h k' (List.mem_cons_of_mem _ hk')
    · rcases hn : normalizeTxns k acc.transactions idx with e | p
      · have herr : combineGo (k :: t) up idx = .error e := by
          simp [combineGo, hk, hn, Bind.bind, Except.bind]
        rw [herr]
        simp only [isOkE]
        constructor
        · intro h; exact absurd h (by simp)
        · intro hAll
          have hok := (normalizeTxns_isOk_iff k acc.transactions idx).mpr
            (hAll k (List.mem_cons_self k t) acc hk)
          rw [hn] at hok
          exact absurd hok (by simp [isOkE])
      · have heq : isOkE (combineGo (k :: t) up idx) = isOkE (combineGo t up p.2) := by
          rcases hc : combineGo t up p.2 with e2 | ts2 <;>
            simp [combineGo, hk, hn, hc, isOkE, Bind.bind, Except.bind]
        rw [heq, ih]
        constructor
        · intro h2 k2 hk2 acc2 hacc2 r hr
          rcases List.mem_cons.mp hk2 with h1 | h1
          · subst h1
            have hae : acc = acc2 := Option.some.inj (hk.symm.trans hacc2)
            subst hae
            exact (normalizeTxns_isOk_iff _ _ idx).mp (by rw [hn]; rfl) r hr
          · exact h2 k2 h1 acc2 hacc2 r hr
        · intro h2 k2 hk2
          exact h2 k2 (List.mem_cons_of_mem _ hk2)

theorem combineGo_error_of_bad (up : List (Str × RawAccount)) (k : Str) (acc : RawAccount)
    (hacc : dget up k = some acc) (hbad : ∃ r ∈ acc.transactions, badRecord r) :
    ∀ (ks : List Str) (idx : Nat), k ∈ ks → combineGo ks up idx = .error .missingField := by
  intro ks
  induction ks with
  | nil => intro idx hk; cases hk
  | cons k' t ih =>
    intro idx hk
    rcases List.mem_cons.mp hk with h1 | h1
    · subst h1
      simp [combineGo, hacc, normalizeTxns_error_of_bad _ acc.transactions idx hbad,
        Bind.bind, Except.bind]
    · rcases hk2 : dget up k' with _ | acc'
      · rw [show combineGo (k' :: t) up idx = combineGo t up idx from by simp [combineGo, hk2]]
        exact ih idx h1
      · rcases hn : normalizeTxns k' acc'.transactions idx with e | p
        · have he := normalizeTxns_err k' acc'.transactions idx e hn
          subst he
          simp [combineGo, hk2, hn, Bind.bind, Except.bind]
        · have hrec := ih p.2 h1
          simp [combineGo, hk2, hn, hrec, Bind.bind, Except.bind]

theorem combine_isOk_eq (info : List (Str × AccountInfo)) (up : List (Str × RawAccount)) :
    isOkE (combine info up)
      = isOkE (combineGo (ssort strLt (info.map Prod.fst)) up 0) := by
  rcases hx : combineGo (ssort strLt (info.map Prod.fst)) up 0 with e | ts <;>
    simp [combine, hx, isOkE, Bind.bind, Except.bind]

/-- C9 (amended): a raw record that is kept (non-zero defaulted credit or
debit) but lacks its `date` or `description` aborts the whole run with the
missing-field error; the run succeeds exactly when no kept record of a
processed account lacks those fields; a record whose credit, debit and balance
are all absent is treated as zero/zero and silently discarded before the
required fields are ever read; and a kept record's missing amount fields are
defaulted to zero rather than raising. -/
theorem claim_C9_amended :
    (∀ (cn : Str) (ck : List Str) (rps : List RelatedParty) (info : List (Str × AccountInfo))
       (up : List (Str × RawAccount)) (now : Str) (k : Str) (acc : RawAccount) (r : RawTxn),
      k ∈ info.map Prod.fst → dget up k = some acc → r ∈ acc.transactions →
      ¬(r.credit.getD 0 = 0 ∧ r.debit.getD 0 = 0) → (r.date = none ∨ r.description = none) →
      process_analysis cn ck rps info up now = .error .missingField)
    ∧ (∀ (info : List (Str × AccountInfo)) (up : List (Str × RawAccount)),
        isOkE (combine info up) = true ↔
          ∀ k ∈ info.map Prod.fst, ∀ acc, dget up k = some acc →
            ∀ r ∈ acc.transactions, ¬ badRecord r)
    ∧ (∀ (acc_id : Str) (dt ds : Option Str) (rest : List RawTxn) (idx : Nat),
        normalizeTxns acc_id
          ({ date := dt, description := ds, credit := none, debit := none, balance := none }
            :: rest) idx = normalizeTxns acc_id rest idx)
    ∧ (∀ (acc_id dt ds : Str) (cr db bal : Option ℚ) (rest : List RawTxn) (idx : Nat),
        ¬(cr.getD 0 = 0 ∧ db.getD 0 = 0) →
        normalizeTxns acc_id
          ({ date := some dt, description := some ds, credit := cr, debit := db, balance := bal }
            :: rest) idx
          = (normalizeTxns acc_id rest (idx + 1)).map (fun p =>
              ({ idx := idx, account_id := acc_id, date := dt, description := ds,
                 debit := db.getD 0, credit := cr.getD 0, balance := bal.getD 0,
                 category := none, exclude_from_turnover := false, is_related_party := false,
                 related_party_name := [], related_party_relationship := [],
                 purpose_note := [], sorted_idx := 0 } :: p.1, p.2))) := by
  refine ⟨?_, ?_, ?_, ?_⟩
  · intro cn ck rps info up now k acc r hk hacc hr hnz hmiss
    have hbad : ∃ r' ∈ acc.transactions, badRecord r' := ⟨r, hr, hnz, hmiss⟩
    have hgo := combineGo_error_of_bad up k acc hacc hbad
      (ssort strLt (info.map Prod.fst)) 0 ((mem_ssort strLt).mpr hk)
    have hcomb : combine info up = .error .missingField := by
      simp [combine, hgo, Bind.bind, Except.bind]
    simp [process_analysis, analysisCore, hcomb, Bind.bind, Except.bind, Except.map]
  · intro info up
    rw [combine_isOk_eq, combineGo_isOk_iff]
    constructor
    · intro h k hk acc hacc r hr
      exact h k ((mem_ssort strLt).mpr hk) acc hacc r hr
    · intro h k hk acc hacc r hr
      exact h k ((mem_ssort strLt).mp hk) acc hacc r hr
  · intro acc_id dt ds rest idx
    simp [normalizeTxns]
  · intro acc_id dt ds cr db bal rest idx hnz
    rcases hx : normalizeTxns acc_id rest (idx + 1) with e | p <;>
      simp [normalizeTxns, hnz, hx, Bind.bind, Except.bind, Except.map]

/-- C9 counterexample: a record lacking both required fields whose credit and
debit are (defaulted) zero does not abort the run — the zero/zero discard
happens before `date`/`description` are read, so the claim's "every such
record including ones whose credit and debit are both zero" fails. -/
theorem claim_C9_counterexample :
    (c9zrec.date = none ∧ c9zrec.description = none)
    ∧ isOkE (process_analysis ("CO".data) [] [] c9zinfo c9zup ("TS".data)) = true := by
  exact ⟨⟨rfl, rfl⟩, by with_unfolding_all rfl⟩

/-- Witness for C9 (amended): a concrete kept record (credit 5) lacking its
date makes the whole run fail with the missing-field error. -/
theorem claim_C9_witness :
    process_analysis ("CO".data) [] [] c9winfo c9wup ("TS".data) = .error .missingField := by
  refine claim_C9_amended.1 ("CO".data) [] [] c9winfo c9wup ("TS".data) ("ACC1".data)
    c9wacc c9wrec (by simp [c9winfo]) (by with_unfolding_all rfl) (by simp [c9wacc])
    (fun h => ?_) (Or.inl rfl)
  have h5 : (Option.getD (some (5 : ℚ)) 0) = 5 := rfl
  rw [show c9wrec.credit = some (5 : ℚ) from rfl, h5] at h
  exact absurd h.1 (by norm_num)

-- ===========================================================================
-- CLAIM C10: integrity scoring
-- ===========================================================================

theorem analysisCore_ok_shape (cn : Str) (ck : List Str) (rps : List RelatedParty)
    (info : List (Str × AccountInfo)) (up : List (Str × RawAccount)) (r : Report)
    (h : analysisCore cn ck rps info up = .ok r) :
    ∃ store0 res acc3, combine info up = .ok store0
      ∧ categorize ck (generate_related_party_patterns rps)
          (missingBankCodesOf (missingAccountsOf store0)) store0 = .ok res
      ∧ buildAccounts info up (ssort strLt (info.map Prod.fst)) = .ok acc3
      ∧ r = assembleReport cn store0 res acc3 := by
  rcases hc : combine info up with e | store0
  · rw [show analysisCore cn ck rps info up = .error e from by
      simp [analysisCore, hc, Bind.bind, Except.bind]] at h
    cases h
  · rcases hcat : categorize ck (generate_related_party_patterns rps)
        (missingBankCodesOf (missingAccountsOf store0)) store0 with e | res
    · rw [show analysisCore cn ck rps info up = .error e from by
        simp [analysisCore, hc, hcat, Bind.bind, Except.bind]] at h
      cases h
    · rcases hacc : buildAccounts info up (ssort strLt (info.map Prod.fst)) with e | acc3
      · rw [show analysisCore cn ck rps info up = .error e from by
          simp [analysisCore, hc, hcat, hacc, Bind.bind, Except.bind]] at h
        cases h
      · rw [show analysisCore cn ck rps info up = .ok (assembleReport cn store0 res acc3) from by
          simp [analysisCore, hc, hcat, hacc, Bind.bind, Except.bind]] at h
        have hr : r = assembleReport cn store0 res acc3 := (Except.ok.inj h).symm
        exact ⟨store0, res, acc3, rfl, hcat, rfl, hr⟩

/-- C10: the integrity score is the sum of the points of the four fixed
checks; the volatility and round-figure checks are each worth 2 points on
PASS, the EPF check 1 point on PASS, and the data-completeness check always
awards 0 points whether it passes or fails — so the score never exceeds 5 and
the missing-bank detection never changes it. -/
theorem claim_C10 :
    (∀ (level : Str) (pct : ℚ) (epf months : Nat) (ma : List (Str × Nat)),
      (buildChecks level pct epf months ma).length = 4
      ∧ ((buildChecks level pct epf months ma).getD 0 defaultCheck).points
          = (if ((buildChecks level pct epf months ma).getD 0 defaultCheck).status
               = "PASS".data then 2 else 0)
      ∧ ((buildChecks level pct epf months ma).getD 1 defaultCheck).points
          = (if ((buildChecks level pct epf months ma).getD 1 defaultCheck).status
               = "PASS".data then 2 else 0)
      ∧ ((buildChecks level pct epf months ma).getD 2 defaultCheck).points
          = (if ((buildChecks level pct epf months ma).getD 2 defaultCheck).status
               = "PASS".data then 1 else 0)
      ∧ ((buildChecks level pct epf months ma).getD 3 defaultCheck).points = 0
      ∧ ((buildChecks level pct epf months ma).map Check.points).sum ≤ 5)
    ∧ (∀ (level : Str) (pct : ℚ) (epf months : Nat) (ma ma' : List (Str × Nat)),
        (buildChecks level pct epf months ma).map Check.points
          = (buildChecks level pct epf months ma').map Check.points)
    ∧ (∀ (cn : Str) (ck : List Str) (rps : List RelatedParty)
         (info : List (Str × AccountInfo)) (up : List (Str × RawAccount)) (r : Report),
        analysisCore cn ck rps info up = .ok r →
        r.integrity_score.score = (r.integrity_score.checks.map Check.points).sum
          ∧ r.integrity_score.score ≤ 5) := by
  have hA : ∀ (level : Str) (pct : ℚ) (epf months : Nat) (ma : List (Str × Nat)),
      ((buildChecks level pct epf months ma).map Check.points).sum ≤ 5 := by
    intro level pct epf months ma
    unfold buildChecks
    split_ifs <;> simp
  refine ⟨?_, ?_, ?_⟩
  · intro level pct epf months ma
    refine ⟨rfl, ?_, ?_, ?_, rfl, hA level pct epf months ma⟩
    · by_cases h1 : level = "HIGH".data ∨ level = "EXTREME".data <;>
        (simp [buildChecks, h1]; try decide)
    · by_cases h2 : pct ≤ ROUND_FIGURE_WARNING_PCT <;>
        (simp [buildChecks, h2]; try decide)
    · by_cases h3 : max 4 (months - 2) ≤ epf <;>
        (simp [buildChecks, h3]; try decide)
  · intro level pct epf months ma ma'
    unfold buildChecks
    split_ifs <;> rfl
  · intro cn ck rps info up r h
    rcases analysisCore_ok_shape cn ck rps info up r h with ⟨store0, res, acc3, _, _, _, hr⟩
    subst hr
    constructor
    · rfl
    · exact hA _ _ _ _ _

/-- Witness for C10's run-level part: a concrete successful run whose
integrity score is the sum of its checks' points and at most 5. -/
theorem claim_C10_witness :
    c10r.integrity_score.score = (c10r.integrity_score.checks.map Check.points).sum
      ∧ c10r.integrity_score.score ≤ 5 :=
  claim_C10.2.2 ("CO".data) [] [c8party] c8info c8up c10r (by with_unfolding_all rfl)

-- ===========================================================================
-- List access helpers
-- ===========================================================================

theorem getD_set_self (l : List α) (i : Nat) (a d : α) (h : i < l.length) :
    (l.set i a).getD i d = a := by
  induction l generalizing i with
  | nil => cases h
  | cons x t ih =>
    cases i with
    | zero => rfl
    | succ n => exact ih n (Nat.lt_of_succ_lt_succ h)

theorem getD_set_ne (l : List α) {i j : Nat} (a d : α) (h : i ≠ j) :
    (l.set i a).getD j d = l.getD j d := by
  induction l generalizing i j with
  | nil => rfl
  | cons x t ih =>
    cases i with
    | zero =>
      cases j with
      | zero => exact absurd rfl h
      | succ m => rfl
    | succ n =>
      cases j with
      | zero => rfl
      | succ m => exact ih (fun he => h (congrArg Nat.succ he))

theorem getD_of_mem {l : List α} {t : α} (h : t ∈ l) (d : α) :
    ∃ i, i < l.length ∧ l.getD i d = t := by
  induction l with
  | nil => cases h
  | cons x xs ih =>
    rcases List.mem_cons.mp h with h1 | h1
    · exact ⟨0, Nat.succ_pos _, h1.symm⟩
    · rcases ih h1 with ⟨i, hi, he⟩
      exact ⟨i + 1, Nat.succ_lt_succ hi, he⟩

theorem mem_of_getD {l : List α} {i : Nat} (h : i < l.length) (d : α) : l.getD i d ∈ l := by
  induction l generalizing i with
  | nil => cases h
  | cons x t ih =>
    cases i with
    | zero => exact List.mem_cons_self x t
    | succ n => exact List.mem_cons_of_mem x (ih (Nat.lt_of_succ_lt_succ h))

-- ===========================================================================
-- Generic single-pass characterization
-- ===========================================================================

theorem runPass_length (upd : Txn → Option Txn) (idxs : List Nat) (store : List Txn)
    (used : List Nat) : (runPass upd idxs store used).1.length = store.length := by
  induction idxs generalizing store used with
  | nil => rfl
  | cons i rest ih =>
    unfold runPass
    by_cases hu : i ∈ used
    · simp only [hu, if_true]
      exact ih store used
    · simp only [hu, if_false]
      rcases hx : upd (store.getD i default) with _ | t'

      · exact ih store used
      · simp only []
        rw [ih (store.set i t') (i :: used)]
        exact List.length_set store i t'

theorem runPass_getD (upd : Txn → Option Txn) (idxs : List Nat) (store : List Txn)
    (used : List Nat) (nd : idxs.Nodup) (hb : ∀ i ∈ idxs, i < store.length) (j : Nat) :
    (runPass upd idxs store used).1.getD j default =
      if j ∈ idxs ∧ j ∉ used ∧ (upd (store.getD j default)).isSome = true
      then (upd (store.getD j default)).getD default
      else store.getD j default := by
  induction idxs generalizing store used with
  | nil =>
    rw [if_neg (fun hc => List.not_mem_nil j hc.1)]
    rfl
  | cons i rest ih =>
    have ndr : rest.Nodup := (List.nodup_cons.mp nd).2
    have hir : i ∉ rest := (List.nodup_cons.mp nd).1
    have hbr : ∀ x ∈ rest, x < store.length := fun x hx => hb x (List.mem_cons_of_mem _ hx)
    unfold runPass
    by_cases hu : i ∈ used
    · simp only [hu, if_true]
      rw [ih store used ndr hbr]
      by_cases hj : j = i
      · subst hj
        rw [if_neg (fun hc => hc.2.1 hu), if_neg (fun hc => hc.2.1 hu)]
      · by_cases hjr : j ∈ rest ∧ j ∉ used ∧ (upd (store.getD j default)).isSome = true
        · rw [if_pos hjr, if_pos ⟨List.mem_cons_of_mem _ hjr.1, hjr.2⟩]
        · rw [if_neg hjr,
            if_neg (fun hc => hjr ⟨(List.mem_cons.mp hc.1).resolve_left hj, hc.2⟩)]
    · simp only [hu, if_false]
      rcases hx : upd (store.getD i default) with _ | t'
      · rw [ih store used ndr hbr]
        by_cases hj : j = i
        · subst hj
          rw [if_neg (fun hc => hir hc.1),
            if_neg (fun hc => by rw [hx] at hc; exact Bool.false_ne_true hc.2.2)]
        · by_cases hjr : j ∈ rest ∧ j ∉ used ∧ (upd (store.getD j default)).isSome = true
          · rw [if_pos hjr, if_pos ⟨List.mem_cons_of_mem _ hjr.1, hjr.2⟩]
          · rw [if_neg hjr,
              if_neg (fun hc => hjr ⟨(List.mem_cons.mp hc.1).resolve_left hj, hc.2⟩)]
      · simp only []
        rw [ih (store.set i t') (i :: used) ndr
          (fun x hx => by rw [List.length_set]; exact hbr x hx)]
        by_cases hj : j = i
        · subst hj
          rw [if_neg (fun hc => hir hc.1)]
          rw [getD_set_self store j t' default (hb j (List.mem_cons_self j rest))]
          rw [if_pos ⟨List.mem_cons_self j rest, hu, by rw [hx]; rfl⟩, hx]
          rfl
        · have hset : (store.set i t').getD j default = store.getD j default :=
            getD_set_ne store t' default (fun he => hj he.symm)
          rw [hset]
          by_cases hjr : j ∈ rest ∧ j ∉ used ∧ (upd (store.getD j default)).isSome = true
          · rw [if_pos ⟨hjr.1,
              fun hm => (List.mem_cons.mp hm).elim (fun he => hj he) hjr.2.1, hjr.2.2⟩,
              if_pos ⟨List.mem_cons_of_mem _ hjr.1, hjr.2⟩]
          · rw [if_neg (fun hc => hjr ⟨hc.1,
              fun hm => hc.2.1 (List.mem_cons_of_mem _ hm), hc.2.2⟩),
              if_neg (fun hc => hjr ⟨(List.mem_cons.mp hc.1).resolve_left hj, hc.2⟩)]

theorem runPass_mem_used (upd : Txn → Option Txn) (idxs : List Nat) (store : List Txn)
    (used : List Nat) (nd : idxs.Nodup) (j : Nat) :
    j ∈ (runPass upd idxs store used).2.1 ↔
      j ∈ used ∨ (j ∈ idxs ∧ j ∉ used ∧ (upd (store.getD j default)).isSome = true) := by
  induction idxs generalizing store used with
  | nil =>
    simp [runPass]
  | cons i rest ih =>
    have ndr : rest.Nodup := (List.nodup_cons.mp nd).2
    have hir : i ∉ rest := (List.nodup_cons.mp nd).1
    unfold runPass
    by_cases hu : i ∈ used
    · simp only [hu, if_true]
      rw [ih store used ndr]
      constructor
      · rintro (h | ⟨h1, h2, h3⟩)
        · exact Or.inl h
        · exact Or.inr ⟨List.mem_cons_of_mem _ h1, h2, h3⟩
      · rintro (h | ⟨h1, h2, h3⟩)
        · exact Or.inl h
        · rcases List.mem_cons.mp h1 with he | he
          · subst he; exact absurd hu h2
          · exact Or.inr ⟨he, h2, h3⟩
    · simp only [hu, if_false]
      rcases hx : upd (store.getD i default) with _ | t'
      · rw [ih store used ndr]
        constructor
        · rintro (h | ⟨h1, h2, h3⟩)
          · exact Or.inl h
          · exact Or.inr ⟨List.mem_cons_of_mem _ h1, h2, h3⟩
        · rintro (h | ⟨h1, h2, h3⟩)
          · exact Or.inl h
          · rcases List.mem_cons.mp h1 with he | he
            · subst he; rw [hx] at h3; exact absurd h3 (by simp)
            · exact Or.inr ⟨he, h2, h3⟩
      · simp only []
        rw [ih (store.set i t') (i :: used) ndr]
        by_cases hj : j = i
        · subst hj
          constructor
          · intro _
            exact Or.inr ⟨List.mem_cons_self j rest, hu, by rw [hx]; rfl⟩
          · intro _
            exact Or.inl (List.mem_cons_self j used)
        · have hset : (store.set i t').getD j default = store.getD j default :=
            getD_set_ne store t' default (fun he => hj he.symm)
          rw [hset]
          constructor
          · rintro (h | ⟨h1, h2, h3⟩)
            · rcases List.mem_cons.mp h with he | he
              · exact absurd he hj
              · exact Or.inl he
            · exact Or.inr ⟨List.mem_cons_of_mem _ h1,
                fun hm => h2 (List.mem_cons_of_mem _ hm), h3⟩
          · rintro (h | ⟨h1, h2, h3⟩)
            · exact Or.inl (List.mem_cons_of_mem _ h)
            · rcases List.mem_cons.mp h1 with he | he
              · exact absurd he hj
              · exact Or.inr ⟨he, fun hm => (List.mem_cons.mp hm).elim hj h2, h3⟩

theorem runPass_hits (upd : Txn → Option Txn) (idxs : List Nat) (store : List Txn)
    (used : List Nat) (nd : idxs.Nodup) :
    (runPass upd idxs store used).2.2
      = idxs.filterMap (fun i => if i ∈ used then none else upd (store.getD i default)) := by
  induction idxs generalizing store used with
  | nil => rfl
  | cons i rest ih =>
    have ndr : rest.Nodup := (List.nodup_cons.mp nd).2
    have hir : i ∉ rest := (List.nodup_cons.mp nd).1
    unfold runPass
    by_cases hu : i ∈ used
    · simp only [hu, if_true]
      rw [ih store used ndr, List.filterMap_cons, if_pos hu]
    · simp only [hu, if_false]
      rcases hx : upd (store.getD i default) with _ | t'
      · rw [ih store used ndr, List.filterMap_cons, if_neg hu, hx]
      · simp only []
        rw [ih (store.set i t') (i :: used) ndr, List.filterMap_cons, if_neg hu, hx]
        congr 1
        apply List.filterMap_congr
        intro x hx2
        have hxi : x ≠ i := fun he => hir (he ▸ hx2)
        rw [getD_set_ne store t' default (fun he => hxi he.symm)]
        by_cases hxu : x ∈ used
        · rw [if_pos hxu, if_pos (List.mem_cons_of_mem _ hxu)]
        · rw [if_neg hxu, if_neg (fun hm => (List.mem_cons.mp hm).elim hxi hxu)]

-- ===========================================================================
-- The cascade rules are well-behaved
-- ===========================================================================

theorem updOK_unverified (ck missing : List Str) : UpdOK (updUnverified ck missing) := by
  refine ⟨?_, ?_, ?_⟩
  · intro t t' h
    unfold updUnverified at h
    split at h
    · split at h
      · injection h with h2
        subst h2
        rfl
      · cases h
    · cases h
  · intro t t' h
    unfold updUnverified at h
    split at h
    · split at h
      · injection h with h2
        subst h2
        exact ⟨Category.INTER_ACCOUNT_TRANSFER_UNVERIFIED, rfl, rfl⟩
      · cases h
    · cases h
  · intro t t2 hf
    have hd : t.description = t2.description := congrArg Frozen.description hf
    unfold updUnverified
    rw [hd]
    cases get_missing_bank_code (upperS t2.description) missing
    · rfl
    · by_cases hc : (has_inter_account_marker (upperS t2.description)
          || has_company_name (upperS t2.description) ck) = true
      · rw [if_pos hc, if_pos hc]
        rfl
      · rw [if_neg hc, if_neg hc]

theorem updOK_rp (rps : List RpPattern) : UpdOK (updRP rps) := by
  refine ⟨?_, ?_, ?_⟩
  · intro t t' h
    unfold updRP at h
    split at h
    · injection h with h2
      subst h2
      rfl
    · cases h
  · intro t t' h
    unfold updRP at h
    split at h
    · injection h with h2
      subst h2
      exact ⟨Category.RELATED_PARTY, rfl, rfl⟩
    · cases h
  · intro t t2 hf
    have hd : t.description = t2.description := congrArg Frozen.description hf
    unfold updRP
    rw [hd]
    cases check_related_party t2.description rps <;> rfl

theorem updOK_keyword (kws : List Str) (c : Category) (excl : Bool)
    (he : excl = excludedCat c) : UpdOK (updKeyword kws c excl) := by
  refine ⟨?_, ?_, ?_⟩
  · intro t t' h
    unfold updKeyword at h
    split at h
    · injection h with h2
      subst h2
      rfl
    · cases h
  · intro t t' h
    unfold updKeyword at h
    split at h
    · injection h with h2
      subst h2
      exact ⟨c, rfl, he⟩
    · cases h
  · intro t t2 hf
    have hd : t.description = t2.description := congrArg Frozen.description hf
    unfold updKeyword
    rw [hd]
    by_cases hc : (kws.any (fun kw => containsS (upperS t2.description) kw)) = true
    · rw [if_pos hc, if_pos hc]
      rfl
    · rw [if_neg hc, if_neg hc]

theorem updOK_statutory : UpdOK updStatutory := by
  refine ⟨?_, ?_, ?_⟩
  · intro t t' h
    unfold updStatutory at h
    split at h
    · injection h with h2
      subst h2
      rfl
    · cases h
  · intro t t' h
    unfold updStatutory at h
    split at h
    · injection h with h2
      subst h2
      exact ⟨Category.STATUTORY_PAYMENT, rfl, rfl⟩
    · cases h
  · intro t t2 hf
    have hd : t.description = t2.description := congrArg Frozen.description hf
    unfold updStatutory
    rw [hd]
    cases check_statutory t2.description <;> rfl

theorem updOK_bankCharge : UpdOK updBankCharge := by
  refine ⟨?_, ?_, ?_⟩
  · intro t t' h
    unfold updBankCharge at h
    split at h
    · injection h with h2
      subst h2
      rfl
    · cases h
  · intro t t' h
    unfold updBankCharge at h
    split at h
    · injection h with h2
      subst h2
      exact ⟨Category.BANK_CHARGES, rfl, rfl⟩
    · cases h
  · intro t t2 hf
    have hd : t.description = t2.description := congrArg Frozen.description hf
    have hdb : t.debit = t2.debit := congrArg Frozen.debit hf
    unfold updBankCharge
    rw [hd, hdb]
    by_cases hc : (BANK_CHARGE_KEYWORDS.any
        (fun kw => containsS (upperS t2.description) kw)) = true ∧ t2.debit < 1000
    · rw [if_pos hc, if_pos hc]
      rfl
    · rw [if_neg hc, if_neg hc]

theorem updOK_genuine : UpdOK updGenuine :=
  ⟨fun t t' h => by injection h with h2; subst h2; rfl,
   fun t t' h => by
     injection h with h2
     subst h2
     exact ⟨Category.GENUINE_SALES_COLLECTIONS, rfl, rfl⟩,
   fun t t2 _ => rfl⟩

theorem updOK_supplier : UpdOK updSupplier :=
  ⟨fun t t' h => by injection h with h2; subst h2; rfl,
   fun t t' h => by
     injection h with h2
     subst h2
     exact ⟨Category.SUPPLIER_VENDOR_PAYMENTS, rfl, rfl⟩,
   fun t t2 _ => rfl⟩

-- ===========================================================================
-- Matched-transfer pass characterization
-- ===========================================================================

theorem frozen_fields {t t2 : Txn} (h : frozen t = frozen t2) :
    t.idx = t2.idx ∧ t.account_id = t2.account_id ∧ t.date = t2.date
      ∧ t.description = t2.description ∧ t.debit = t2.debit ∧ t.credit = t2.credit
      ∧ t.balance = t2.balance ∧ t.sorted_idx = t2.sorted_idx := by
  refine ⟨?_, ?_, ?_, ?_, ?_, ?_, ?_, ?_⟩
  · exact congrArg Frozen.idx h
  · exact congrArg Frozen.account_id h
  · exact congrArg Frozen.date h
  · exact congrArg Frozen.description h
  · exact congrArg Frozen.debit h
  · exact congrArg Frozen.credit h
  · exact congrArg Frozen.balance h
  · exact congrArg Frozen.sorted_idx h

theorem compatiblePair_congr (ck : List Str) {c c2 d d2 : Txn}
    (hc : frozen c = frozen c2) (hd : frozen d = frozen d2) :
    compatiblePair ck c d ↔ compatiblePair ck c2 d2 := by
  obtain ⟨-, hca, hcd, hcs, -, hcc, -, -⟩ := frozen_fields hc
  obtain ⟨-, hda, hdd, hds, hdb, -, -, -⟩ := frozen_fields hd
  unfold compatiblePair
  rw [hca, hcd, hcs, hcc, hda, hdd, hds, hdb]

theorem findMatch_some (ck : List Str) (c : Txn) (store : List Txn) (used : List Nat)
    (dl : List Nat) (j : Nat) (h : findMatch ck c store used dl = .ok (some j)) :
    j ∈ dl ∧ j ∉ used ∧ compatiblePair ck c (store.getD j default) ∧
    ∃ pre post, dl = pre ++ j :: post ∧
      ∀ x ∈ pre, x ∈ used ∨ ¬ compatiblePair ck c (store.getD x default) := by
  induction dl with
  | nil => cases h
  | cons j0 rest ih =>
    have lift : (j0 ∈ used ∨ ¬ compatiblePair ck c (store.getD j0 default)) →
        findMatch ck c store used rest = .ok (some j) →
        j ∈ j0 :: rest ∧ j ∉ used ∧ compatiblePair ck c (store.getD j default) ∧
        ∃ pre post, j0 :: rest = pre ++ j :: post ∧
          ∀ x ∈ pre, x ∈ used ∨ ¬ compatiblePair ck c (store.getD x default) := by
      intro hreason hrec
      obtain ⟨h1, h2, h3, pre, post, heq, hpre⟩ := ih hrec
      refine ⟨List.mem_cons_of_mem _ h1, h2, h3, j0 :: pre, post, by rw [heq]; rfl, ?_⟩
      intro x hx
      rcases List.mem_cons.mp hx with he | he
      · subst he; exact hreason
      · exact hpre x he
    unfold findMatch at h
    by_cases hu : j0 ∈ used
    · rw [if_pos hu] at h
      exact lift (Or.inl hu) h
    · rw [if_neg hu] at h
      by_cases hacc : ((store.getD j0 default).account_id == c.account_id) = true
      · rw [if_pos hacc] at h
        exact lift (Or.inr (fun hcp => hcp.1 (eq_of_beq hacc))) h
      · rw [if_neg hacc] at h
        by_cases hamt : 1 < |c.credit - (store.getD j0 default).debit|
        · rw [if_pos hamt] at h
          exact lift (Or.inr (fun hcp => absurd hcp.2.1 (not_le.mpr hamt))) h
        · rw [if_neg hamt] at h
          rcases hcp : parseDate c.date with _ | cd
          · rw [hcp] at h; cases h
          · rw [hcp] at h
            dsimp only at h
            rcases hdp : parseDate (store.getD j0 default).date with _ | dd
            · rw [hdp] at h; cases h
            · rw [hdp] at h
              dsimp only at h
              by_cases hday : 1 < (dayDiff cd dd).natAbs
              · rw [if_pos hday] at h
                refine lift (Or.inr (fun hcpair => ?_)) h
                obtain ⟨-, -, ⟨cd2, dd2, hc2, hd2, hdiff⟩, -⟩ := hcpair
                rw [hcp] at hc2
                rw [hdp] at hd2
                rw [← Option.some.inj hc2, ← Option.some.inj hd2] at hdiff
                exact absurd hdiff (not_le.mpr hday)
              · rw [if_neg hday] at h
                by_cases hmk : ((has_inter_account_marker (upperS c.description)
                    || has_inter_account_marker (upperS (store.getD j0 default).description)
                    || has_company_name (upperS c.description) ck
                    || has_company_name (upperS (store.getD j0 default).description) ck)
                    || decide (50000 ≤ c.credit)) = true
                · rw [if_pos hmk] at h
                  have hj : j = j0 := (Option.some.inj (Except.ok.inj h)).symm
                  subst hj
                  refine ⟨List.mem_cons_self j rest, hu, ?_, [], rest, rfl, by intro x hx; cases hx⟩
                  refine ⟨fun he => hacc (beq_iff_eq.mpr he), not_lt.mp hamt,
                    ⟨cd, dd, hcp, hdp, not_lt.mp hday⟩, ?_⟩
                  rcases Bool.or_eq_true_iff.mp hmk with hm | hm
                  · exact Or.inl hm
                  · exact Or.inr (of_decide_eq_true hm)
                · rw [if_neg hmk] at h
                  refine lift (Or.inr (fun hcpair => ?_)) h
                  obtain ⟨-, -, -, hor⟩ := hcpair
                  rcases hor with hm | hm
                  · exact hmk (Bool.or_eq_true_iff.mpr (Or.inl hm))
                  · exact hmk (Bool.or_eq_true_iff.mpr (Or.inr (decide_eq_true hm)))

theorem getD_set_frozen (l : List Txn) (i : Nat) (t : Txn) (x : Nat)
    (hf : frozen t = frozen (l.getD i default)) :
    frozen ((l.set i t).getD x default) = frozen (l.getD x default) := by
  induction l generalizing i x with
  | nil => rfl
  | cons y ys ih =>
    cases i with
    | zero =>
      cases x with
      | zero => exact hf
      | succ m => rfl
    | succ n =>
      cases x with
      | zero => rfl
      | succ m => exact ih n m hf

theorem matchPass_length (ck : List Str) (dIdxs : List Nat) :
    ∀ (cl : List Nat) (store : List Txn) (used : List Nat) (mts : List MatchedTransfer)
      (s' : List Txn) (u' : List Nat) (m' : List MatchedTransfer),
      matchPass ck dIdxs cl store used mts = .ok (s', u', m') →
      s'.length = store.length := by
  intro cl
  induction cl with
  | nil =>
    intro store used mts s' u' m' h
    unfold matchPass at h
    cases h
    rfl
  | cons i rest ih =>
    intro store used mts s' u' m' h
    unfold matchPass at h
    by_cases hu : i ∈ used
    · rw [if_pos hu] at h
      exact ih store used mts s' u' m' h
    · rw [if_neg hu] at h
      rcases hf : findMatch ck (store.getD i default) store used dIdxs with e | jo
      · rw [hf] at h
        cases h
      · rw [hf] at h
        dsimp only at h
        rcases jo with _ | j
        · exact ih store used mts s' u' m' h
        · rw [ih _ _ _ _ _ _ h, List.length_set, List.length_set]

theorem matchPass_frozen (ck : List Str) (dIdxs : List Nat) :
    ∀ (cl : List Nat) (store : List Txn) (used : List Nat) (mts : List MatchedTransfer)
      (s' : List Txn) (u' : List Nat) (m' : List MatchedTransfer),
      matchPass ck dIdxs cl store used mts = .ok (s', u', m') →
      ∀ x, frozen (s'.getD x default) = frozen (store.getD x default) := by
  intro cl
  induction cl with
  | nil =>
    intro store used mts s' u' m' h x
    unfold matchPass at h
    cases h
    rfl
  | cons i rest ih =>
    intro store used mts s' u' m' h x
    unfold matchPass at h
    by_cases hu : i ∈ used
    · rw [if_pos hu] at h
      exact ih store used mts s' u' m' h x
    · rw [if_neg hu] at h
      rcases hf : findMatch ck (store.getD i default) store used dIdxs with e | jo
      · rw [hf] at h
        cases h
      · rw [hf] at h
        dsimp only at h
        rcases jo with _ | j
        · exact ih store used mts s' u' m' h x
        · rw [ih _ _ _ _ _ _ h x]
          have h1 : ∀ y, frozen ((store.set i (setCat Category.INTER_ACCOUNT_TRANSFER true
              (store.getD i default))).getD y default) = frozen (store.getD y default) :=
            fun y => getD_set_frozen store i _ y rfl
          have h2 := getD_set_frozen
            (store.set i (setCat Category.INTER_ACCOUNT_TRANSFER true (store.getD i default))) j
            (setCat Category.INTER_ACCOUNT_TRANSFER true (store.getD j default)) x ((h1 j).symm)
          rw [h2, h1 x]

theorem matchPass_untouched (ck : List Str) (dIdxs : List Nat) :
    ∀ (cl : List Nat) (store : List Txn) (used : List Nat) (mts : List MatchedTransfer)
      (s' : List Txn) (u' : List Nat) (m' : List MatchedTransfer),
      matchPass ck dIdxs cl store used mts = .ok (s', u', m') →
      ∀ x ∈ used, s'.getD x default = store.getD x default := by
  intro cl
  induction cl with
  | nil =>
    intro store used mts s' u' m' h x hx
    unfold matchPass at h
    cases h
    rfl
  | cons i rest ih =>
    intro store used mts s' u' m' h x hx
    unfold matchPass at h
    by_cases hu : i ∈ used
    · rw [if_pos hu] at h
      exact ih store used mts s' u' m' h x hx
    · rw [if_neg hu] at h
      rcases hf : findMatch ck (store.getD i default) store used dIdxs with e | jo
      · rw [hf] at h
        cases h
      · rw [hf] at h
        dsimp only at h
        rcases jo with _ | j
        · exact ih store used mts s' u' m' h x hx
        · have hxj : x ∈ j :: i :: used :=
            List.mem_cons_of_mem j (List.mem_cons_of_mem i hx)
          rw [ih _ _ _ _ _ _ h x hxj]
          have hxi : x ≠ i := fun he => hu (he ▸ hx)
          have hxne : x ≠ j := fun he => (findMatch_some ck _ store used dIdxs j hf).2.1 (he ▸ hx)
          rw [getD_set_ne _ _ default (fun he => hxne he.symm),
            getD_set_ne _ _ default (fun he => hxi he.symm)]

theorem mem_pairIdxs_cons {x : Nat} {mt : MatchedTransfer} {ms : List MatchedTransfer} :
    x ∈ pairIdxs (mt :: ms) ↔ x = mt.credit_idx ∨ x = mt.debit_idx ∨ x ∈ pairIdxs ms := by
  simp [pairIdxs]

theorem pairIdxs_cons (mt : MatchedTransfer) (ms : List MatchedTransfer) :
    pairIdxs (mt :: ms) = mt.credit_idx :: mt.debit_idx :: pairIdxs ms := by
  simp [pairIdxs]

theorem matchPass_spec (ck : List Str) (dIdxs : List Nat) :
    ∀ (cl : List Nat) (store : List Txn) (used : List Nat) (mts : List MatchedTransfer)
      (s' : List Txn) (u' : List Nat) (m' : List MatchedTransfer),
      (∀ x ∈ cl, x < store.length) → (∀ x ∈ dIdxs, x < store.length) →
      matchPass ck dIdxs cl store used mts = .ok (s', u', m') →
      ∃ newms, m' = mts ++ newms
        ∧ (∀ x, x ∈ u' ↔ x ∈ used ∨ x ∈ pairIdxs newms)
        ∧ (∀ x ∈ pairIdxs newms, x ∉ used)
        ∧ (pairIdxs newms).Nodup
        ∧ (∀ mt ∈ newms,
            mt.credit_idx ∈ cl ∧ mt.debit_idx ∈ dIdxs
            ∧ compatiblePair ck (store.getD mt.credit_idx default)
                (store.getD mt.debit_idx default)
            ∧ mt.amount = (store.getD mt.credit_idx default).credit
            ∧ mt.date = (store.getD mt.credit_idx default).date
            ∧ mt.from_account = (store.getD mt.debit_idx default).account_id
            ∧ mt.to_account = (store.getD mt.credit_idx default).account_id
            ∧ mt.credit_description = (store.getD mt.credit_idx default).description
            ∧ mt.debit_description = (store.getD mt.debit_idx default).description
            ∧ (s'.getD mt.credit_idx default).category = some Category.INTER_ACCOUNT_TRANSFER
            ∧ (s'.getD mt.credit_idx default).exclude_from_turnover = true
            ∧ (s'.getD mt.debit_idx default).category = some Category.INTER_ACCOUNT_TRANSFER
            ∧ (s'.getD mt.debit_idx default).exclude_from_turnover = true) := by
  intro cl
  induction cl with
  | nil =>
    intro store used mts s' u' m' hbc hbd h
    unfold matchPass at h
    cases h
    refine ⟨[], by simp, ?_, by simp [pairIdxs], by simp [pairIdxs], by simp⟩
    intro x
    simp [pairIdxs]
  | cons i rest ih =>
    intro store used mts s' u' m' hbc hbd h
    have hbcr : ∀ x ∈ rest, x < store.length := fun x hx => hbc x (List.mem_cons_of_mem _ hx)
    unfold matchPass at h
    by_cases hu : i ∈ used
    · rw [if_pos hu] at h
      obtain ⟨newms, h1, h2, h3, h4, h5⟩ := ih store used mts s' u' m' hbcr hbd h
      exact ⟨newms, h1, h2, h3, h4, fun mt hmt =>
        ⟨List.mem_cons_of_mem _ (h5 mt hmt).1, (h5 mt hmt).2⟩⟩
    · rw [if_neg hu] at h
      rcases hf : findMatch ck (store.getD i default) store used dIdxs with e | jo
      · rw [hf] at h
        cases h
      · rw [hf] at h
        dsimp only at h
        rcases jo with _ | j
        · obtain ⟨newms, h1, h2, h3, h4, h5⟩ := ih store used mts s' u' m' hbcr hbd h
          exact ⟨newms, h1, h2, h3, h4, fun mt hmt =>
            ⟨List.mem_cons_of_mem _ (h5 mt hmt).1, (h5 mt hmt).2⟩⟩
        · obtain ⟨hjd, hju, hcompat, -⟩ := findMatch_some ck _ store used dIdxs j hf
          have hij : i ≠ j := by
            intro he
            subst he
            exact hcompat.1 rfl
          have hilen : i < store.length := hbc i (List.mem_cons_self i rest)
          have hjlen : j < store.length := hbd j hjd
          have h1f : ∀ z, frozen ((store.set i (setCat Category.INTER_ACCOUNT_TRANSFER true
              (store.getD i default))).getD z default) = frozen (store.getD z default) :=
            fun z => getD_set_frozen store i _ z rfl
          have hfroz2 : ∀ y, frozen (((store.set i (setCat Category.INTER_ACCOUNT_TRANSFER true
              (store.getD i default))).set j (setCat Category.INTER_ACCOUNT_TRANSFER true
              (store.getD j default))).getD y default) = frozen (store.getD y default) := by
            intro y
            have h2f := getD_set_frozen
              (store.set i (setCat Category.INTER_ACCOUNT_TRANSFER true (store.getD i default)))
              j (setCat Category.INTER_ACCOUNT_TRANSFER true (store.getD j default)) y
              ((h1f j).symm)
            rw [h2f, h1f y]
          obtain ⟨newms, h1, h2, h3, h4, h5⟩ := ih _ _ _ s' u' m'
            (fun x hx => by rw [List.length_set, List.length_set]; exact hbcr x hx)
            (fun x hx => by rw [List.length_set, List.length_set]; exact hbd x hx) h
          have hs2j : ((store.set i (setCat Category.INTER_ACCOUNT_TRANSFER true
              (store.getD i default))).set j (setCat Category.INTER_ACCOUNT_TRANSFER true
              (store.getD j default))).getD j default
              = setCat Category.INTER_ACCOUNT_TRANSFER true (store.getD j default) :=
            getD_set_self _ j _ default (by rw [List.length_set]; exact hjlen)
          have hs2i : ((store.set i (setCat Category.INTER_ACCOUNT_TRANSFER true
              (store.getD i default))).set j (setCat Category.INTER_ACCOUNT_TRANSFER true
              (store.getD j default))).getD i default
              = setCat Category.INTER_ACCOUNT_TRANSFER true (store.getD i default) := by
            rw [getD_set_ne _ _ default (fun he => hij he.symm)]
            exact getD_set_self _ i _ default hilen
          have hsj := matchPass_untouched ck dIdxs rest _ _ _ s' u' m' h j
            (List.mem_cons_self _ _)
          have hsi := matchPass_untouched ck dIdxs rest _ _ _ s' u' m' h i
            (List.mem_cons_of_mem _ (List.mem_cons_self _ _))
          refine ⟨{ date := (store.getD i default).date, amount := (store.getD i default).credit,
                    from_account := (store.getD j default).account_id,
                    to_account := (store.getD i default).account_id,
                    credit_description := (store.getD i default).description,
                    debit_description := (store.getD j default).description,
                    credit_idx := i, debit_idx := j } :: newms, ?_, ?_, ?_, ?_, ?_⟩
          · rw [h1]
            simp
          · intro x
            rw [h2 x, mem_pairIdxs_cons]
            constructor
            · rintro (hx | hx)
              · rcases List.mem_cons.mp hx with he | hx2
                · exact Or.inr (Or.inr (Or.inl he))
                · rcases List.mem_cons.mp hx2 with he | hx3
                  · exact Or.inr (Or.inl he)
                  · exact Or.inl hx3
              · exact Or.inr (Or.inr (Or.inr hx))
            · rintro (hx | hx)
              · exact Or.inl (List.mem_cons_of_mem _ (List.mem_cons_of_mem _ hx))
              · rcases hx with he | he | he
                · exact Or.inl (he ▸ List.mem_cons_of_mem _ (List.mem_cons_self _ _))
                · exact Or.inl (he ▸ List.mem_cons_self _ _)
                · exact Or.inr he
          · intro x hx
            rcases mem_pairIdxs_cons.mp hx with he | he | he
            · exact he ▸ hu
            · exact he ▸ hju
            · intro hxu
              exact h3 x he (List.mem_cons_of_mem _ (List.mem_cons_of_mem _ hxu))
          · have hnotin : ∀ y, y ∈ (j :: i :: used) → y ∉ pairIdxs newms :=
              fun y hy hyp => h3 y hyp hy
            have hnd : (i :: j :: pairIdxs newms).Nodup := by
              rw [List.nodup_cons, List.nodup_cons]
              refine ⟨?_, ?_, h4⟩
              · intro hmem
                rcases List.mem_cons.mp hmem with he | he
                · exact hij he
                · exact hnotin i (List.mem_cons_of_mem _ (List.mem_cons_self _ _)) he
              · exact hnotin j (List.mem_cons_self _ _)
            rw [pairIdxs_cons]
            exact hnd
          · intro mt hmt
            rcases List.mem_cons.mp hmt with he | hmem
            · subst he
              refine ⟨List.mem_cons_self i rest, hjd, hcompat, rfl, rfl, rfl, rfl, rfl, rfl,
                ?_, ?_, ?_, ?_⟩
              · rw [hsi, hs2i]
                rfl
              · rw [hsi, hs2i]
                rfl
              · rw [hsj, hs2j]
                rfl
              · rw [hsj, hs2j]
                rfl
            · obtain ⟨ha1, ha2, ha3, ha4, ha5, ha6, ha7, ha8, ha9, ha10, ha11, ha12, ha13⟩ :=
                h5 mt hmem
              have hfc := frozen_fields (hfroz2 mt.credit_idx)
              have hfd := frozen_fields (hfroz2 mt.debit_idx)
              refine ⟨List.mem_cons_of_mem _ ha1, ha2, ?_, ?_, ?_, ?_, ?_, ?_, ?_,
                ha10, ha11, ha12, ha13⟩
              · exact (compatiblePair_congr ck (hfroz2 mt.credit_idx)
                  (hfroz2 mt.debit_idx)).mp ha3
              · exact ha4.trans hfc.2.2.2.2.2.1
              · exact ha5.trans hfc.2.2.1
              · exact ha6.trans hfd.2.1
              · exact ha7.trans hfc.2.1
              · exact ha8.trans hfc.2.2.2.1
              · exact ha9.trans hfd.2.2.2.1

-- ===========================================================================
-- Properties of the normalized store
-- ===========================================================================

theorem assignSorted_length (l : List Txn) (n : Nat) : (assignSorted l n).length = l.length := by
  induction l generalizing n with
  | nil => rfl
  | cons x xs ih => simpa [assignSorted] using ih (n + 1)

theorem assignSorted_sorted_idx (l : List Txn) (n i : Nat) (h : i < l.length) :
    ((assignSorted l n).getD i default).sorted_idx = n + i := by
  induction l generalizing n i with
  | nil => cases h
  | cons x xs ih =>
    cases i with
    | zero => rfl
    | succ m =>
      have := ih (n + 1) m (Nat.lt_of_succ_lt_succ h)
      simpa [assignSorted, Nat.add_assoc, Nat.add_comm 1 m] using this

theorem assignSorted_mem (t : Txn) (l : List Txn) (n : Nat) (h : t ∈ assignSorted l n) :
    ∃ t0 ∈ l, t.category = t0.category ∧ t.exclude_from_turnover = t0.exclude_from_turnover
      ∧ t.credit = t0.credit ∧ t.debit = t0.debit := by
  induction l generalizing n with
  | nil => cases h
  | cons x xs ih =>
    rcases List.mem_cons.mp h with he | hm
    · exact ⟨x, List.mem_cons_self x xs, by rw [he], by rw [he], by rw [he], by rw [he]⟩
    · obtain ⟨t0, ht0, hp⟩ := ih (n + 1) hm
      exact ⟨t0, List.mem_cons_of_mem _ ht0, hp⟩

theorem normalizeTxns_mem (acc_id : Str) (rts : List RawTxn) :
    ∀ (idx : Nat) (ts : List Txn) (idx2 : Nat), normalizeTxns acc_id rts idx = .ok (ts, idx2) →
      ∀ t ∈ ts, t.category = none ∧ t.exclude_from_turnover = false
        ∧ ¬(t.credit = 0 ∧ t.debit = 0) := by
  induction rts with
  | nil =>
    intro idx ts idx2 h t ht
    unfold normalizeTxns at h
    cases h
    cases ht
  | cons r rest ih =>
    intro idx ts idx2 h t ht
    by_cases hz : r.credit.getD 0 = 0 ∧ r.debit.getD 0 = 0
    · rw [show normalizeTxns acc_id (r :: rest) idx = normalizeTxns acc_id rest idx from by
        simp [normalizeTxns, hz]] at h
      exact ih idx ts idx2 h t ht
    · rcases hd : r.date with _ | dt
      · rcases hds : r.description with _ | ds <;>
          · rw [show normalizeTxns acc_id (r :: rest) idx = .error .missingField from by
              simp [normalizeTxns, hz, hd, hds]] at h
            cases h
      · rcases hds : r.description with _ | ds
        · rw [show normalizeTxns acc_id (r :: rest) idx = .error .missingField from by
            simp [normalizeTxns, hz, hd, hds]] at h
          cases h
        · rcases hx : normalizeTxns acc_id rest (idx + 1) with e | p
          · rw [show normalizeTxns acc_id (r :: rest) idx = .error e from by
              simp [normalizeTxns, hz, hd, hds, hx, Bind.bind, Except.bind]] at h
            cases h
          · rw [show normalizeTxns acc_id (r :: rest) idx
                = .ok ({ idx := idx, account_id := acc_id, date := dt, description := ds,
                         debit := r.debit.getD 0, credit := r.credit.getD 0,
                         balance := r.balance.getD 0, category := none,
                         exclude_from_turnover := false, is_related_party := false,
                         related_party_name := [], related_party_relationship := [],
                         purpose_note := [], sorted_idx := 0 } :: p.1, p.2) from by
              simp [normalizeTxns, hz, hd, hds, hx, Bind.bind, Except.bind]] at h
            have hts : ts =
                { idx := idx, account_id := acc_id, date := dt, description := ds,
                  debit := r.debit.getD 0, credit := r.credit.getD 0,
                  balance := r.balance.getD 0, category := none,
                  exclude_from_turnover := false, is_related_party := false,
                  related_party_name := [], related_party_relationship := [],
                  purpose_note := [], sorted_idx := 0 } :: p.1 :=
              (congrArg Prod.fst (Except.ok.inj h)).symm
            subst hts
            rcases List.mem_cons.mp ht with he | hm
            · subst he
              exact ⟨rfl, rfl, hz⟩
            · exact ih (idx + 1) p.1 p.2 (by rw [hx]) t hm

theorem combineGo_mem (up : List (Str × RawAccount)) :
    ∀ (ks : List Str) (idx : Nat) (ts : List Txn), combineGo ks up idx = .ok ts →
      ∀ t ∈ ts, t.category = none ∧ t.exclude_from_turnover = false
        ∧ ¬(t.credit = 0 ∧ t.debit = 0) := by
  intro ks
  induction ks with
  | nil =>
    intro idx ts h t ht
    unfold combineGo at h
    cases h
    cases ht
  | cons k rest ih =>
    intro idx ts h t ht
    rcases hk : dget up k with _ | acc
    · rw [show combineGo (k :: rest) up idx = combineGo rest up idx from by
        simp [combineGo, hk]] at h
      exact ih idx ts h t ht
    · rcases hn : normalizeTxns k acc.transactions idx with e | p
      · rw [show combineGo (k :: rest) up idx = .error e from by
          simp [combineGo, hk, hn, Bind.bind, Except.bind]] at h
        cases h
      · rcases hc : combineGo rest up p.2 with e2 | ts2
        · rw [show combineGo (k :: rest) up idx = .error e2 from by
            simp [combineGo, hk, hn, hc, Bind.bind, Except.bind]] at h
          cases h
        · rw [show combineGo (k :: rest) up idx = .ok (p.1 ++ ts2) from by
            simp [combineGo, hk, hn, hc, Bind.bind, Except.bind]] at h
          have hts : ts = p.1 ++ ts2 := (Except.ok.inj h).symm
          subst hts
          rcases List.mem_append.mp ht with hm | hm
          · exact normalizeTxns_mem k acc.transactions idx p.1 p.2 (by rw [hn]) t hm
          · exact ih p.2 ts2 (by rw [hc]) t hm

theorem combine_basic (info : List (Str × AccountInfo)) (up : List (Str × RawAccount))
    (s : List Txn) (h : combine info up = .ok s) :
    ∀ t ∈ s, t.category = none ∧ t.exclude_from_turnover = false
      ∧ ¬(t.credit = 0 ∧ t.debit = 0) := by
  intro t ht
  rcases hg : combineGo (ssort strLt (info.map Prod.fst)) up 0 with e | ts
  · rw [show combine info up = .error e from by
      simp [combine, hg, Bind.bind, Except.bind]] at h
    cases h
  · rw [show combine info up = .ok (assignSorted (ssort txnKeyLt ts) 0) from by
      simp [combine, hg, Bind.bind, Except.bind]] at h
    have hs : s = assignSorted (ssort txnKeyLt ts) 0 := (Except.ok.inj h).symm
    subst hs
    obtain ⟨t0, ht0, hcat, hexc, hcr, hdb⟩ := assignSorted_mem t _ 0 ht
    have ht0m : t0 ∈ ts := (ssort_perm txnKeyLt ts).mem_iff.mp ht0
    obtain ⟨h1, h2, h3⟩ := combineGo_mem up _ 0 ts (by rw [hg]) t0 ht0m
    refine ⟨hcat.trans h1, hexc.trans h2, ?_⟩
    rw [hcr, hdb]
    exact h3

theorem combine_sorted_idx (info : List (Str × AccountInfo)) (up : List (Str × RawAccount))
    (s : List Txn) (h : combine info up = .ok s) :
    ∀ i, i < s.length → (s.getD i default).sorted_idx = i := by
  intro i hi
  rcases hg : combineGo (ssort strLt (info.map Prod.fst)) up 0 with e | ts
  · rw [show combine info up = .error e from by
      simp [combine, hg, Bind.bind, Except.bind]] at h
    cases h
  · rw [show combine info up = .ok (assignSorted (ssort txnKeyLt ts) 0) from by
      simp [combine, hg, Bind.bind, Except.bind]] at h
    have hs : s = assignSorted (ssort txnKeyLt ts) 0 := (Except.ok.inj h).symm
    subst hs
    have := assignSorted_sorted_idx (ssort txnKeyLt ts) 0 i
      (by rw [← assignSorted_length (ssort txnKeyLt ts) 0]; exact hi)
    simpa using this

theorem store_mem_getD {s : List Txn} (hpos : ∀ i, i < s.length → (s.getD i default).sorted_idx = i)
    {t : Txn} (ht : t ∈ s) : t.sorted_idx < s.length ∧ s.getD t.sorted_idx default = t := by
  obtain ⟨i, hi, he⟩ := getD_of_mem ht default
  have : t.sorted_idx = i := by rw [← he]; exact hpos i hi
  rw [this, he]
  exact ⟨hi, rfl⟩

theorem store_nodup {s : List Txn} (hpos : ∀ i, i < s.length → (s.getD i default).sorted_idx = i) :
    s.Nodup := by
  rw [List.nodup_iff_injective_get]
  intro a b hab
  have ha := hpos a.1 a.2
  have hb := hpos b.1 b.2
  rw [List.getD_eq_getElem?_getD] at ha hb
  rw [List.getElem?_eq_getElem a.2] at ha
  rw [List.getElem?_eq_getElem b.2] at hb
  simp only [Option.getD_some] at ha hb
  have : a.1 = b.1 := by
    rw [← ha, ← hb]
    show (s.get a).sorted_idx = (s.get b).sorted_idx
    rw [hab]
  exact Fin.ext this

theorem mem_creditIdxs {s : List Txn} (i : Nat) :
    i ∈ creditIdxsOf s ↔ ∃ t ∈ s, 0 < t.credit ∧ t.sorted_idx = i := by
  unfold creditIdxsOf
  rw [List.mem_map]
  constructor
  · rintro ⟨t, htm, hid⟩
    have := (ssort_perm creditKeyLt _).mem_iff.mp htm
    have hf := List.mem_filter.mp this
    exact ⟨t, hf.1, by simpa using hf.2, hid⟩
  · rintro ⟨t, htm, hcr, hid⟩
    refine ⟨t, (ssort_perm creditKeyLt _).mem_iff.mpr ?_, hid⟩
    exact List.mem_filter.mpr ⟨htm, by simpa using hcr⟩

theorem mem_debitIdxs {s : List Txn} (i : Nat) :
    i ∈ debitIdxsOf s ↔ ∃ t ∈ s, 0 < t.debit ∧ t.sorted_idx = i := by
  unfold debitIdxsOf
  rw [List.mem_map]
  constructor
  · rintro ⟨t, htm, hid⟩
    have := (ssort_perm debitKeyLt _).mem_iff.mp htm
    have hf := List.mem_filter.mp this
    exact ⟨t, hf.1, by simpa using hf.2, hid⟩
  · rintro ⟨t, htm, hcr, hid⟩
    refine ⟨t, (ssort_perm debitKeyLt _).mem_iff.mpr ?_, hid⟩
    exact List.mem_filter.mpr ⟨htm, by simpa using hcr⟩

theorem creditIdxs_nodup {s : List Txn}
    (hpos : ∀ i, i < s.length → (s.getD i default).sorted_idx = i) :
    (creditIdxsOf s).Nodup := by
  unfold creditIdxsOf
  refine List.Nodup.map_on ?_ ?_
  · intro x hx y hy hxy
    have hxm : x ∈ s := List.mem_of_mem_filter ((ssort_perm creditKeyLt _).mem_iff.mp hx)
    have hym : y ∈ s := List.mem_of_mem_filter ((ssort_perm creditKeyLt _).mem_iff.mp hy)
    obtain ⟨-, hx2⟩ := store_mem_getD hpos hxm
    obtain ⟨-, hy2⟩ := store_mem_getD hpos hym
    rw [← hx2, ← hy2, hxy]
  · exact (ssort_perm creditKeyLt _).nodup_iff.mpr ((store_nodup hpos).filter _)

theorem debitIdxs_nodup {s : List Txn}
    (hpos : ∀ i, i < s.length → (s.getD i default).sorted_idx = i) :
    (debitIdxsOf s).Nodup := by
  unfold debitIdxsOf
  refine List.Nodup.map_on ?_ ?_
  · intro x hx y hy hxy
    have hxm : x ∈ s := List.mem_of_mem_filter ((ssort_perm debitKeyLt _).mem_iff.mp hx)
    have hym : y ∈ s := List.mem_of_mem_filter ((ssort_perm debitKeyLt _).mem_iff.mp hy)
    obtain ⟨-, hx2⟩ := store_mem_getD hpos hxm
    obtain ⟨-, hy2⟩ := store_mem_getD hpos hym
    rw [← hx2, ← hy2, hxy]
  · exact (ssort_perm debitKeyLt _).nodup_iff.mpr ((store_nodup hpos).filter _)

-- ===========================================================================
-- Consumed-amount bookkeeping
-- ===========================================================================

theorem runPass_usedSums (store0 : List Txn) (upd : Txn → Option Txn) (hOK : UpdOK upd) :
    ∀ (idxs : List Nat) (store : List Txn) (used : List Nat),
      (∀ j, frozen (store.getD j default) = frozen (store0.getD j default)) →
      usedCredit store0 (runPass upd idxs store used).2.1
          = usedCredit store0 used + csum (runPass upd idxs store used).2.2
        ∧ usedDebit store0 (runPass upd idxs store used).2.1
          = usedDebit store0 used + dsum (runPass upd idxs store used).2.2 := by
  intro idxs
  induction idxs with
  | nil =>
    intro store used hfroz
    simp [runPass, csum, dsum]
  | cons i rest ih =>
    intro store used hfroz
    unfold runPass
    by_cases hu : i ∈ used
    · simp only [hu, if_true]
      exact ih store used hfroz
    · simp only [hu, if_false]
      rcases hx : upd (store.getD i default) with _ | t'
      · exact ih store used hfroz
      · simp only []
        have hfroz2 : ∀ j, frozen ((store.set i t').getD j default)
            = frozen (store0.getD j default) := by
          intro j
          rw [getD_set_frozen store i t' j (hOK.pres _ _ hx), hfroz j]
        obtain ⟨ihc, ihd⟩ := ih (store.set i t') (i :: used) hfroz2
        have ht'c : t'.credit = creditAt store0 i := by
          have h1 := frozen_fields (hOK.pres _ _ hx)
          have h2 := frozen_fields (hfroz i)
          exact h1.2.2.2.2.2.1.trans h2.2.2.2.2.2.1
        have ht'd : t'.debit = debitAt store0 i := by
          have h1 := frozen_fields (hOK.pres _ _ hx)
          have h2 := frozen_fields (hfroz i)
          exact h1.2.2.2.2.1.trans h2.2.2.2.2.1
        constructor
        · rw [ihc]
          simp only [usedCredit, csum, List.map_cons, List.sum_cons, ht'c]
          ring
        · rw [ihd]
          simp only [usedDebit, dsum, List.map_cons, List.sum_cons, ht'd]
          ring

theorem runPass_hits_mem (upd : Txn → Option Txn) :
    ∀ (idxs : List Nat) (store : List Txn) (used : List Nat),
      ∀ t' ∈ (runPass upd idxs store used).2.2,
        ∃ i ∈ idxs, i ∉ used ∧ upd (store.getD i default) = some t' := by
  intro idxs
  induction idxs with
  | nil =>
    intro store used t' ht'
    cases ht'
  | cons i rest ih =>
    intro store used t' ht'
    unfold runPass at ht'
    by_cases hu : i ∈ used
    · rw [if_pos hu] at ht'
      obtain ⟨x, hx1, hx2, hx3⟩ := ih store used t' ht'
      exact ⟨x, List.mem_cons_of_mem _ hx1, hx2, hx3⟩
    · rw [if_neg hu] at ht'
      rcases hx : upd (store.getD i default) with _ | t2
      · rw [hx] at ht'
        obtain ⟨x, hx1, hx2, hx3⟩ := ih store used t' ht'
        exact ⟨x, List.mem_cons_of_mem _ hx1, hx2, hx3⟩
      · rw [hx] at ht'
        dsimp only at ht'
        rcases List.mem_cons.mp ht' with he | hm
        · exact ⟨i, List.mem_cons_self i rest, hu, by rw [hx, he]⟩
        · obtain ⟨x, hx1, hx2, hx3⟩ := ih (store.set i t2) (i :: used) t' hm
          have hxi : x ≠ i := fun he2 => hx2 (he2 ▸ List.mem_cons_self i used)
          refine ⟨x, List.mem_cons_of_mem _ hx1,
            fun hm2 => hx2 (List.mem_cons_of_mem _ hm2), ?_⟩
          rw [← hx3, getD_set_ne store t2 default (fun he2 => hxi he2.symm)]

theorem runPass_used_nodup (upd : Txn → Option Txn) :
    ∀ (idxs : List Nat) (store : List Txn) (used : List Nat), used.Nodup →
      (runPass upd idxs store used).2.1.Nodup := by
  intro idxs
  induction idxs with
  | nil =>
    intro store used hnd
    exact hnd
  | cons i rest ih =>
    intro store used hnd
    unfold runPass
    by_cases hu : i ∈ used
    · simp only [hu, if_true]
      exact ih store used hnd
    · simp only [hu, if_false]
      rcases hx : upd (store.getD i default) with _ | t'
      · exact ih store used hnd
      · simp only []
        exact ih (store.set i t') (i :: used) (List.nodup_cons.mpr ⟨hu, hnd⟩)

theorem pairCredit_append_single (store0 : List Txn) (ms : List MatchedTransfer)
    (mt : MatchedTransfer) :
    pairCredit store0 (ms ++ [mt])
      = pairCredit store0 ms + (creditAt store0 mt.credit_idx + creditAt store0 mt.debit_idx) := by
  simp [pairCredit]

theorem pairDebit_append_single (store0 : List Txn) (ms : List MatchedTransfer)
    (mt : MatchedTransfer) :
    pairDebit store0 (ms ++ [mt])
      = pairDebit store0 ms + (debitAt store0 mt.credit_idx + debitAt store0 mt.debit_idx) := by
  simp [pairDebit]

theorem usedCredit_cons (store0 : List Txn) (x : Nat) (used : List Nat) :
    usedCredit store0 (x :: used) = creditAt store0 x + usedCredit store0 used := by
  simp [usedCredit]

theorem usedDebit_cons (store0 : List Txn) (x : Nat) (used : List Nat) :
    usedDebit store0 (x :: used) = debitAt store0 x + usedDebit store0 used := by
  simp [usedDebit]

theorem matchPass_usedSums (store0 : List Txn) (ck : List Str) (dIdxs : List Nat) :
    ∀ (cl : List Nat) (store : List Txn) (used : List Nat) (mts : List MatchedTransfer)
      (s' : List Txn) (u' : List Nat) (m' : List MatchedTransfer),
      matchPass ck dIdxs cl store used mts = .ok (s', u', m') →
      usedCredit store0 u' + pairCredit store0 mts
          = usedCredit store0 used + pairCredit store0 m'
        ∧ usedDebit store0 u' + pairDebit store0 mts
          = usedDebit store0 used + pairDebit store0 m' := by
  intro cl
  induction cl with
  | nil =>
    intro store used mts s' u' m' h
    unfold matchPass at h
    cases h
    exact ⟨rfl, rfl⟩
  | cons i rest ih =>
    intro store used mts s' u' m' h
    unfold matchPass at h
    by_cases hu : i ∈ used
    · rw [if_pos hu] at h
      exact ih store used mts s' u' m' h
    · rw [if_neg hu] at h
      rcases hf : findMatch ck (store.getD i default) store used dIdxs with e | jo
      · rw [hf] at h
        cases h
      · rw [hf] at h
        dsimp only at h
        rcases jo with _ | j
        · exact ih store used mts s' u' m' h
        · obtain ⟨ihc, ihd⟩ := ih _ _ _ s' u' m' h
          rw [pairCredit_append_single, usedCredit_cons, usedCredit_cons] at ihc
          rw [pairDebit_append_single, usedDebit_cons, usedDebit_cons] at ihd
          dsimp only at ihc ihd
          exact ⟨by linarith [ihc], by linarith [ihd]⟩

theorem matchPass_used_nodup (ck : List Str) (dIdxs : List Nat) :
    ∀ (cl : List Nat) (store : List Txn) (used : List Nat) (mts : List MatchedTransfer)
      (s' : List Txn) (u' : List Nat) (m' : List MatchedTransfer),
      matchPass ck dIdxs cl store used mts = .ok (s', u', m') → used.Nodup → u'.Nodup := by
  intro cl
  induction cl with
  | nil =>
    intro store used mts s' u' m' h hnd
    unfold matchPass at h
    cases h
    exact hnd
  | cons i rest ih =>
    intro store used mts s' u' m' h hnd
    unfold matchPass at h
    by_cases hu : i ∈ used
    · rw [if_pos hu] at h
      exact ih store used mts s' u' m' h hnd
    · rw [if_neg hu] at h
      rcases hf : findMatch ck (store.getD i default) store used dIdxs with e | jo
      · rw [hf] at h
        cases h
      · rw [hf] at h
        dsimp only at h
        rcases jo with _ | j
        · exact ih store used mts s' u' m' h hnd
        · obtain ⟨-, hju, hcompat, -⟩ := findMatch_some ck _ store used dIdxs j hf
          have hij : i ≠ j := fun he => hcompat.1 (he ▸ rfl)
          refine ih _ _ _ s' u' m' h ?_
          refine List.nodup_cons.mpr ⟨?_, List.nodup_cons.mpr ⟨hu, hnd⟩⟩
          intro hm
          rcases List.mem_cons.mp hm with he | he
          · exact hij he.symm
          · exact hju he

theorem updUnverified_isSome (ck missing : List Str) (t : Txn) :
    (updUnverified ck missing t).isSome = true ↔
      ((get_missing_bank_code (upperS t.description) missing).isSome = true
        ∧ (has_inter_account_marker (upperS t.description)
            || has_company_name (upperS t.description) ck) = true) := by
  unfold updUnverified
  rcases hg : get_missing_bank_code (upperS t.description) missing with _ | code
  · simp
  · by_cases hc : (has_inter_account_marker (upperS t.description)
        || has_company_name (upperS t.description) ck) = true
    · rw [if_pos hc]
      simp [hc]
    · rw [if_neg hc]
      simp [hc]

theorem updRP_isSome (rps : List RpPattern) (t : Txn) :
    (updRP rps t).isSome = (check_related_party t.description rps).isSome := by
  unfold updRP
  rcases check_related_party t.description rps with _ | m <;> rfl

-- ===========================================================================
-- Pass-chain helpers
-- ===========================================================================

theorem chainStep (upd : Txn → Option Txn) (hOK : UpdOK upd) (idxs : List Nat)
    (store0 store : List Txn) (used : List Nat) (ndI : idxs.Nodup)
    (hbI : ∀ x ∈ idxs, x < store0.length) (hlen : store.length = store0.length)
    (hfroz : ∀ j, frozen (store.getD j default) = frozen (store0.getD j default)) :
    (runPass upd idxs store used).1.length = store0.length
    ∧ (∀ j, frozen ((runPass upd idxs store used).1.getD j default)
        = frozen (store0.getD j default))
    ∧ (∀ x ∈ used, (runPass upd idxs store used).1.getD x default = store.getD x default)
    ∧ (∀ j, j ∉ idxs → (runPass upd idxs store used).1.getD j default = store.getD j default)
    ∧ (∀ x, x ∈ (runPass upd idxs store used).2.1 ↔
        x ∈ used ∨ (x ∈ idxs ∧ x ∉ used ∧ (upd (store.getD x default)).isSome = true)) := by
  have hb2 : ∀ x ∈ idxs, x < store.length := fun x hx => hlen ▸ hbI x hx
  refine ⟨(runPass_length upd idxs store used).trans hlen, ?_, ?_, ?_,
    fun x => runPass_mem_used upd idxs store used ndI x⟩
  · intro j
    rw [runPass_getD upd idxs store used ndI hb2 j]
    by_cases hc : j ∈ idxs ∧ j ∉ used ∧ (upd (store.getD j default)).isSome = true
    · rw [if_pos hc]
      rcases hx : upd (store.getD j default) with _ | t'
      · rw [hx] at hc
        exact absurd hc.2.2 (by simp)
      · exact (hOK.pres _ _ hx).trans (hfroz j)
    · rw [if_neg hc]
      exact hfroz j
  · intro x hx
    rw [runPass_getD upd idxs store used ndI hb2 x, if_neg (fun hc => hc.2.1 hx)]
  · intro j hj
    rw [runPass_getD upd idxs store used ndI hb2 j, if_neg (fun hc => hj hc.1)]

theorem chainQ (upd : Txn → Option Txn) (hOK : UpdOK upd) (idxs : List Nat)
    (store0 store : List Txn) (used : List Nat) (ndI : idxs.Nodup)
    (hbI : ∀ x ∈ idxs, x < store0.length) (hlen : store.length = store0.length)
    (hQ : ∀ j, j ∈ used → ∃ c, (store.getD j default).category = some c
      ∧ (store.getD j default).exclude_from_turnover = excludedCat c) :
    ∀ j, j ∈ (runPass upd idxs store used).2.1 →
      ∃ c, ((runPass upd idxs store used).1.getD j default).category = some c
        ∧ ((runPass upd idxs store used).1.getD j default).exclude_from_turnover
            = excludedCat c := by
  have hb2 : ∀ x ∈ idxs, x < store.length := fun x hx => hlen ▸ hbI x hx
  intro j hj
  rw [runPass_mem_used upd idxs store used ndI j] at hj
  rw [runPass_getD upd idxs store used ndI hb2 j]
  rcases hj with hj | hj
  · rw [if_neg (fun hc => hc.2.1 hj)]
    exact hQ j hj
  · rw [if_pos hj]
    rcases hx : upd (store.getD j default) with _ | t'
    · rw [hx] at hj
      exact absurd hj.2.2 (by simp)
    · exact hOK.consistent _ _ hx

theorem usedCredit_creditIdxs (store0 : List Txn)
    (hpos : ∀ i, i < store0.length → (store0.getD i default).sorted_idx = i) :
    usedCredit store0 (creditIdxsOf store0) = totalCreditsOf store0 := by
  unfold usedCredit creditIdxsOf totalCreditsOf csum
  rw [List.map_map]
  have hcong : (ssort creditKeyLt (store0.filter (fun t => decide (0 < t.credit)))).map
      (creditAt store0 ∘ Txn.sorted_idx)
      = (ssort creditKeyLt (store0.filter (fun t => decide (0 < t.credit)))).map
        (fun t => t.credit) := by
    apply List.map_congr_left
    intro t ht
    have htm : t ∈ store0 :=
      List.mem_of_mem_filter ((ssort_perm creditKeyLt _).mem_iff.mp ht)
    obtain ⟨-, h2⟩ := store_mem_getD hpos htm
    show creditAt store0 t.sorted_idx = t.credit
    rw [creditAt, h2]
  rw [hcong]
  exact List.Perm.sum_eq (List.Perm.map _ (ssort_perm creditKeyLt _))

theorem usedDebit_debitIdxs (store0 : List Txn)
    (hpos : ∀ i, i < store0.length → (store0.getD i default).sorted_idx = i) :
    usedDebit store0 (debitIdxsOf store0) = totalDebitsOf store0 := by
  unfold usedDebit debitIdxsOf totalDebitsOf dsum
  rw [List.map_map]
  have hcong : (ssort debitKeyLt (store0.filter (fun t => decide (0 < t.debit)))).map
      (debitAt store0 ∘ Txn.sorted_idx)
      = (ssort debitKeyLt (store0.filter (fun t => decide (0 < t.debit)))).map
        (fun t => t.debit) := by
    apply List.map_congr_left
    intro t ht
    have htm : t ∈ store0 :=
      List.mem_of_mem_filter ((ssort_perm debitKeyLt _).mem_iff.mp ht)
    obtain ⟨-, h2⟩ := store_mem_getD hpos htm
    show debitAt store0 t.sorted_idx = t.debit
    rw [debitAt, h2]
  rw [hcong]
  exact List.Perm.sum_eq (List.Perm.map _ (ssort_perm debitKeyLt _))

theorem creditAt_debitIdx_zero (store0 : List Txn)
    (hpos : ∀ i, i < store0.length → (store0.getD i default).sorted_idx = i)
    (hsign : ∀ t ∈ store0, 0 ≤ t.credit ∧ 0 ≤ t.debit ∧ (t.credit = 0 ∨ t.debit = 0))
    {i : Nat} (hi : i ∈ debitIdxsOf store0) : creditAt store0 i = 0 := by
  obtain ⟨t, htm, hdb, hidx⟩ := (mem_debitIdxs i).mp hi
  obtain ⟨-, h2⟩ := store_mem_getD hpos htm
  rw [creditAt, ← hidx, h2]
  rcases (hsign t htm).2.2 with hc | hd
  · exact hc
  · rw [hd] at hdb
    exact absurd hdb (lt_irrefl 0)

theorem debitAt_creditIdx_zero (store0 : List Txn)
    (hpos : ∀ i, i < store0.length → (store0.getD i default).sorted_idx = i)
    (hsign : ∀ t ∈ store0, 0 ≤ t.credit ∧ 0 ≤ t.debit ∧ (t.credit = 0 ∨ t.debit = 0))
    {i : Nat} (hi : i ∈ creditIdxsOf store0) : debitAt store0 i = 0 := by
  obtain ⟨t, htm, hcr, hidx⟩ := (mem_creditIdxs i).mp hi
  obtain ⟨-, h2⟩ := store_mem_getD hpos htm
  rw [debitAt, ← hidx, h2]
  rcases (hsign t htm).2.2 with hc | hd
  · rw [hc] at hcr
    exact absurd hcr (lt_irrefl 0)
  · exact hd

theorem usedCredit_debitIdxs_zero (store0 : List Txn)
    (hpos : ∀ i, i < store0.length → (store0.getD i default).sorted_idx = i)
    (hsign : ∀ t ∈ store0, 0 ≤ t.credit ∧ 0 ≤ t.debit ∧ (t.credit = 0 ∨ t.debit = 0)) :
    usedCredit store0 (debitIdxsOf store0) = 0 := by
  unfold usedCredit
  apply List.sum_eq_zero
  intro x hx
  obtain ⟨i, hi, he⟩ := List.mem_map.mp hx
  rw [← he, creditAt_debitIdx_zero store0 hpos hsign hi]

theorem usedDebit_creditIdxs_zero (store0 : List Txn)
    (hpos : ∀ i, i < store0.length → (store0.getD i default).sorted_idx = i)
    (hsign : ∀ t ∈ store0, 0 ≤ t.credit ∧ 0 ≤ t.debit ∧ (t.credit = 0 ∨ t.debit = 0)) :
    usedDebit store0 (creditIdxsOf store0) = 0 := by
  unfold usedDebit
  apply List.sum_eq_zero
  intro x hx
  obtain ⟨i, hi, he⟩ := List.mem_map.mp hx
  rw [← he, debitAt_creditIdx_zero store0 hpos hsign hi]

theorem creditIdxs_bound (store0 : List Txn)
    (hpos : ∀ i, i < store0.length → (store0.getD i default).sorted_idx = i) :
    ∀ x ∈ creditIdxsOf store0, x < store0.length := by
  intro x hx
  obtain ⟨t, htm, -, hidx⟩ := (mem_creditIdxs x).mp hx
  obtain ⟨h1, -⟩ := store_mem_getD hpos htm
  exact hidx ▸ h1

theorem debitIdxs_bound (store0 : List Txn)
    (hpos : ∀ i, i < store0.length → (store0.getD i default).sorted_idx = i) :
    ∀ x ∈ debitIdxsOf store0, x < store0.length := by
  intro x hx
  obtain ⟨t, htm, -, hidx⟩ := (mem_debitIdxs x).mp hx
  obtain ⟨h1, -⟩ := store_mem_getD hpos htm
  exact hidx ▸ h1

theorem creditIdxs_debitIdxs_disjoint (store0 : List Txn)
    (hpos : ∀ i, i < store0.length → (store0.getD i default).sorted_idx = i)
    (hsign : ∀ t ∈ store0, 0 ≤ t.credit ∧ 0 ≤ t.debit ∧ (t.credit = 0 ∨ t.debit = 0)) :
    ∀ x, x ∈ creditIdxsOf store0 → x ∈ debitIdxsOf store0 → False := by
  intro x hc hd
  obtain ⟨t, htm, hcr, hidx⟩ := (mem_creditIdxs x).mp hc
  have := creditAt_debitIdx_zero store0 hpos hsign hd
  obtain ⟨-, h2⟩ := store_mem_getD hpos htm
  rw [creditAt, ← hidx, h2] at this
  rw [this] at hcr
  exact absurd hcr (lt_irrefl 0)

theorem chainStepE (upd : Txn → Option Txn) (hOK : UpdOK upd) (idxs : List Nat)
    (store0 store : List Txn) (used : List Nat) (s' : List Txn) (u' : List Nat)
    (hits : List Txn) (hr : runPass upd idxs store used = (s', u', hits))
    (ndI : idxs.Nodup) (hbI : ∀ x ∈ idxs, x < store0.length)
    (hlen : store.length = store0.length)
    (hfroz : ∀ j, frozen (store.getD j default) = frozen (store0.getD j default)) :
    s'.length = store0.length
    ∧ (∀ j, frozen (s'.getD j default) = frozen (store0.getD j default))
    ∧ (∀ x ∈ used, s'.getD x default = store.getD x default)
    ∧ (∀ j, j ∉ idxs → s'.getD j default = store.getD j default)
    ∧ (∀ x, x ∈ u' ↔
        x ∈ used ∨ (x ∈ idxs ∧ x ∉ used ∧ (upd (store.getD x default)).isSome = true)) := by
  have h := chainStep upd hOK idxs store0 store used ndI hbI hlen hfroz
  rw [hr] at h
  exact h

theorem chainQE (upd : Txn → Option Txn) (hOK : UpdOK upd) (idxs : List Nat)
    (store0 store : List Txn) (used : List Nat) (s' : List Txn) (u' : List Nat)
    (hits : List Txn) (hr : runPass upd idxs store used = (s', u', hits))
    (ndI : idxs.Nodup) (hbI : ∀ x ∈ idxs, x < store0.length)
    (hlen : store.length = store0.length)
    (hQ : ∀ j, j ∈ used → ∃ c, (store.getD j default).category = some c
      ∧ (store.getD j default).exclude_from_turnover = excludedCat c) :
    ∀ j, j ∈ u' → ∃ c, (s'.getD j default).category = some c
      ∧ (s'.getD j default).exclude_from_turnover = excludedCat c := by
  have h := chainQ upd hOK idxs store0 store used ndI hbI hlen hQ
  rw [hr] at h
  exact h

theorem usedSumsE (store0 : List Txn) (upd : Txn → Option Txn) (hOK : UpdOK upd)
    (idxs : List Nat) (store : List Txn) (used : List Nat) (s' : List Txn) (u' : List Nat)
    (hits : List Txn) (hr : runPass upd idxs store used = (s', u', hits))
    (hfroz : ∀ j, frozen (store.getD j default) = frozen (store0.getD j default)) :
    usedCredit store0 u' = usedCredit store0 used + csum hits
    ∧ usedDebit store0 u' = usedDebit store0 used + dsum hits := by
  have h := runPass_usedSums store0 upd hOK idxs store used hfroz
  rw [hr] at h
  exact h

theorem usedNodupE (upd : Txn → Option Txn) (idxs : List Nat) (store : List Txn)
    (used : List Nat) (s' : List Txn) (u' : List Nat) (hits : List Txn)
    (hr : runPass upd idxs store used = (s', u', hits)) (hnd : used.Nodup) : u'.Nodup := by
  have h := runPass_used_nodup upd idxs store used hnd
  rw [hr] at h
  exact h

theorem hitsMemE (upd : Txn → Option Txn) (idxs : List Nat) (store : List Txn)
    (used : List Nat) (s' : List Txn) (u' : List Nat) (hits : List Txn)
    (hr : runPass upd idxs store used = (s', u', hits)) :
    ∀ t' ∈ hits, ∃ i ∈ idxs, i ∉ used ∧ upd (store.getD i default) = some t' := by
  have h := runPass_hits_mem upd idxs store used
  rw [hr] at h
  exact h

theorem getDE (upd : Txn → Option Txn) (idxs : List Nat) (store : List Txn)
    (used : List Nat) (s' : List Txn) (u' : List Nat) (hits : List Txn)
    (hr : runPass upd idxs store used = (s', u', hits)) (nd : idxs.Nodup)
    (hb : ∀ i ∈ idxs, i < store.length) (j : Nat) :
    s'.getD j default =
      if j ∈ idxs ∧ j ∉ used ∧ (upd (store.getD j default)).isSome = true
      then (upd (store.getD j default)).getD default
      else store.getD j default := by
  have h := runPass_getD upd idxs store used nd hb j
  rw [hr] at h
  exact h

theorem hitsCsumZero (store0 : List Txn) (upd : Txn → Option Txn) (hOK : UpdOK upd)
    (idxs : List Nat) (store : List Txn) (used : List Nat) (s' : List Txn)
    (u' : List Nat) (hits : List Txn) (hr : runPass upd idxs store used = (s', u', hits))
    (hfroz : ∀ j, frozen (store.getD j default) = frozen (store0.getD j default))
    (hz : ∀ i ∈ idxs, creditAt store0 i = 0) : csum hits = 0 := by
  unfold csum
  apply List.sum_eq_zero
  intro x hx
  obtain ⟨t, ht, he⟩ := List.mem_map.mp hx
  obtain ⟨i, hi, -, hsome⟩ := hitsMemE upd idxs store used s' u' hits hr t ht
  have h1 := frozen_fields (hOK.pres _ _ hsome)
  have h2 := frozen_fields (hfroz i)
  rw [← he, h1.2.2.2.2.2.1, h2.2.2.2.2.2.1]
  exact hz i hi

theorem hitsDsumZero (store0 : List Txn) (upd : Txn → Option Txn) (hOK : UpdOK upd)
    (idxs : List Nat) (store : List Txn) (used : List Nat) (s' : List Txn)
    (u' : List Nat) (hits : List Txn) (hr : runPass upd idxs store used = (s', u', hits))
    (hfroz : ∀ j, frozen (store.getD j default) = frozen (store0.getD j default))
    (hz : ∀ i ∈ idxs, debitAt store0 i = 0) : dsum hits = 0 := by
  unfold dsum
  apply List.sum_eq_zero
  intro x hx
  obtain ⟨t, ht, he⟩ := List.mem_map.mp hx
  obtain ⟨i, hi, -, hsome⟩ := hitsMemE upd idxs store used s' u' hits hr t ht
  have h1 := frozen_fields (hOK.pres _ _ hsome)
  have h2 := frozen_fields (hfroz i)
  rw [← he, h1.2.2.2.2.1, h2.2.2.2.2.1]
  exact hz i hi

theorem updRP_category (rps : List RpPattern) (t t' : Txn) (h : updRP rps t = some t') :
    t'.category = some Category.RELATED_PARTY := by
  unfold updRP at h
  rcases hc : check_related_party t.description rps with _ | m
  · rw [hc] at h
    cases h
  · rw [hc] at h
    cases Option.some.inj h
    rfl

theorem updUnverified_category (ck missing : List Str) (t t' : Txn)
    (h : updUnverified ck missing t = some t') :
    t'.category = some Category.INTER_ACCOUNT_TRANSFER_UNVERIFIED := by
  unfold updUnverified at h
  rcases hg : get_missing_bank_code (upperS t.description) missing with _ | code
  · rw [hg] at h
    cases h
  · rw [hg] at h
    by_cases hc : (has_inter_account_marker (upperS t.description)
        || has_company_name (upperS t.description) ck) = true
    · rw [if_pos hc] at h
      cases Option.some.inj h
      rfl
    · rw [if_neg hc] at h
      cases h

theorem updGenuine_category (t t' : Txn) (h : updGenuine t = some t') :
    t'.category = some Category.GENUINE_SALES_COLLECTIONS := by
  cases Option.some.inj h
  rfl

theorem mem_pairIdxs_iff {x : Nat} {ms : List MatchedTransfer} :
    x ∈ pairIdxs ms ↔ ∃ mt ∈ ms, x = mt.credit_idx ∨ x = mt.debit_idx := by
  simp only [pairIdxs, List.mem_flatMap, List.mem_cons, List.mem_singleton]
  constructor
  · rintro ⟨mt, hmt, h | h | h⟩
    · exact ⟨mt, hmt, Or.inl h⟩
    · exact ⟨mt, hmt, Or.inr h⟩
    · cases h
  · rintro ⟨mt, hmt, h | h⟩
    · exact ⟨mt, hmt, Or.inl h⟩
    · exact ⟨mt, hmt, Or.inr (Or.inl h)⟩

theorem pairCredit_eq_msum (store0 : List Txn)
    (hpos : ∀ i, i < store0.length → (store0.getD i default).sorted_idx = i)
    (hsign : ∀ t ∈ store0, 0 ≤ t.credit ∧ 0 ≤ t.debit ∧ (t.credit = 0 ∨ t.debit = 0))
    (mts : List MatchedTransfer)
    (hfacts : ∀ mt ∈ mts, mt.debit_idx ∈ debitIdxsOf store0
      ∧ mt.amount = creditAt store0 mt.credit_idx) :
    pairCredit store0 mts = msum mts := by
  unfold pairCredit msum
  congr 1
  apply List.map_congr_left
  intro mt hmt
  rw [creditAt_debitIdx_zero store0 hpos hsign (hfacts mt hmt).1, (hfacts mt hmt).2, add_zero]

theorem pairDebit_eq_own (store0 : List Txn)
    (hpos : ∀ i, i < store0.length → (store0.getD i default).sorted_idx = i)
    (hsign : ∀ t ∈ store0, 0 ≤ t.credit ∧ 0 ≤ t.debit ∧ (t.credit = 0 ∨ t.debit = 0))
    (mts : List MatchedTransfer)
    (hfacts : ∀ mt ∈ mts, mt.credit_idx ∈ creditIdxsOf store0) :
    pairDebit store0 mts = matchedDebitOwn store0 mts := by
  unfold pairDebit matchedDebitOwn
  congr 1
  apply List.map_congr_left
  intro mt hmt
  rw [debitAt_creditIdx_zero store0 hpos hsign (hfacts mt hmt), zero_add]
  rfl

theorem usedCredit_nil (store0 : List Txn) : usedCredit store0 [] = 0 := rfl

theorem usedDebit_nil (store0 : List Txn) : usedDebit store0 [] = 0 := rfl

theorem pairCredit_nil (store0 : List Txn) : pairCredit store0 [] = 0 := rfl

theorem pairDebit_nil (store0 : List Txn) : pairDebit store0 [] = 0 := rfl

theorem usedCredit_perm (store0 : List Txn) {u v : List Nat} (h : u.Perm v) :
    usedCredit store0 u = usedCredit store0 v :=
  List.Perm.sum_eq (h.map (creditAt store0))

theorem usedDebit_perm (store0 : List Txn) {u v : List Nat} (h : u.Perm v) :
    usedDebit store0 u = usedDebit store0 v :=
  List.Perm.sum_eq (h.map (debitAt store0))

theorem usedCredit_append (store0 : List Txn) (u v : List Nat) :
    usedCredit store0 (u ++ v) = usedCredit store0 u + usedCredit store0 v := by
  simp [usedCredit]

theorem usedDebit_append (store0 : List Txn) (u v : List Nat) :
    usedDebit store0 (u ++ v) = usedDebit store0 u + usedDebit store0 v := by
  simp [usedDebit]

theorem mem_chain_step {x : Nat} {u u' idxs : List Nat} {Q R : Prop}
    (hmem : x ∈ u' ↔ x ∈ u ∨ (x ∈ idxs ∧ Q)) (hin : x ∈ idxs → R)
    (h : x ∈ u' ∨ R) : x ∈ u ∨ R := by
  rcases h with h | h
  · rcases hmem.mp h with h2 | h2
    · exact Or.inl h2
    · exact Or.inr (hin h2.1)
  · exact Or.inr h

theorem mem_chain_up {x : Nat} {u u' idxs : List Nat} {Q : Prop}
    (hmem : x ∈ u' ↔ x ∈ u ∨ (x ∈ idxs ∧ Q)) (hx : x ∈ u) : x ∈ u' :=
  hmem.mpr (Or.inl hx)

theorem creditAt_pos_of_mem (store0 : List Txn)
    (hpos : ∀ i, i < store0.length → (store0.getD i default).sorted_idx = i)
    {i : Nat} (hi : i ∈ creditIdxsOf store0) : 0 < creditAt store0 i := by
  obtain ⟨t, htm, hc, hidx⟩ := (mem_creditIdxs i).mp hi
  obtain ⟨-, h2⟩ := store_mem_getD hpos htm
  unfold creditAt
  rw [← hidx, h2]
  exact hc

theorem categorize_spec (ck : List Str) (rps : List RpPattern) (missing : List Str)
    (store0 : List Txn) (res : CatResult)
    (hpos : ∀ i, i < store0.length → (store0.getD i default).sorted_idx = i)
    (hsign : ∀ t ∈ store0, 0 ≤ t.credit ∧ 0 ≤ t.debit ∧ (t.credit = 0 ∨ t.debit = 0))
    (h : categorize ck rps missing store0 = .ok res) :
    res.store.length = store0.length
    ∧ (∀ j, frozen (res.store.getD j default) = frozen (store0.getD j default))
    ∧ (pairIdxs res.matched_transfers).Nodup
    ∧ (∀ mt ∈ res.matched_transfers,
        mt.credit_idx ∈ creditIdxsOf store0 ∧ mt.debit_idx ∈ debitIdxsOf store0
        ∧ compatiblePair ck (store0.getD mt.credit_idx default)
            (store0.getD mt.debit_idx default)
        ∧ mt.amount = (store0.getD mt.credit_idx default).credit
        ∧ (res.store.getD mt.credit_idx default).category
            = some Category.INTER_ACCOUNT_TRANSFER
        ∧ (res.store.getD mt.credit_idx default).exclude_from_turnover = true
        ∧ (res.store.getD mt.debit_idx default).category
            = some Category.INTER_ACCOUNT_TRANSFER
        ∧ (res.store.getD mt.debit_idx default).exclude_from_turnover = true)
    ∧ (∀ j, j ∈ res.used ↔ j ∈ creditIdxsOf store0 ∨ j ∈ debitIdxsOf store0)
    ∧ res.used.Nodup
    ∧ (∀ j, j ∈ res.used → ∃ c, (res.store.getD j default).category = some c
        ∧ (res.store.getD j default).exclude_from_turnover = excludedCat c)
    ∧ (∀ t ∈ res.store, ¬(t.credit = 0 ∧ t.debit = 0) →
        ∃ c, t.category = some c ∧ t.exclude_from_turnover = excludedCat c)
    ∧ (∀ j, j ∈ debitIdxsOf store0 → j ∉ pairIdxs res.matched_transfers →
        (((check_related_party (store0.getD j default).description rps).isSome = true →
          (res.store.getD j default).category = some Category.RELATED_PARTY)
        ∧ (check_related_party (store0.getD j default).description rps = none →
            (updUnverified ck missing (store0.getD j default)).isSome = true →
            (res.store.getD j default).category
              = some Category.INTER_ACCOUNT_TRANSFER_UNVERIFIED)))
    ∧ msum res.matched_transfers + csum res.unverified_credit_transfers
        + csum res.related_party_credits + csum res.loan_disbursements
        + csum res.interest_credits + csum res.reversals + csum res.genuine_credits
        = totalCreditsOf store0
    ∧ matchedDebitOwn store0 res.matched_transfers
        + dsum res.related_party_debits + dsum res.unverified_debit_transfers
        + dsum res.statutory_payments + dsum res.salary_wages + dsum res.utilities
        + dsum res.bank_charges + dsum res.supplier_payments
        = totalDebitsOf store0
    ∧ (∀ t ∈ res.genuine_credits,
        t.category = some Category.GENUINE_SALES_COLLECTIONS ∧ 0 < t.credit) := by
  have ndc : (creditIdxsOf store0).Nodup := creditIdxs_nodup hpos
  have ndd : (debitIdxsOf store0).Nodup := debitIdxs_nodup hpos
  have hbc : ∀ x ∈ creditIdxsOf store0, x < store0.length := creditIdxs_bound store0 hpos
  have hbd : ∀ x ∈ debitIdxsOf store0, x < store0.length := debitIdxs_bound store0 hpos
  have hdisj := creditIdxs_debitIdxs_disjoint store0 hpos hsign
  unfold categorize at h
  rcases hm : matchPass ck (debitIdxsOf store0) (creditIdxsOf store0) store0 [] []
    with e | ⟨s1, u1, mts⟩
  · rw [hm] at h
    cases h
  rw [hm] at h
  dsimp only at h
  rcases hr2 : runPass (updUnverified ck missing) (creditIdxsOf store0) s1 u1
    with ⟨s2, u2, unvC⟩
  rw [hr2] at h
  dsimp only at h
  rcases hr3 : runPass (updRP rps) (creditIdxsOf store0) s2 u2 with ⟨s3, u3, rpC⟩
  rw [hr3] at h
  dsimp only at h
  rcases hr4 : runPass (updKeyword DISBURSEMENT_KEYWORDS Category.LOAN_DISBURSEMENT true)
      (creditIdxsOf store0) s3 u3 with ⟨s4, u4, loans⟩
  rw [hr4] at h
  dsimp only at h
  rcases hr5 : runPass (updKeyword INTEREST_KEYWORDS Category.INTEREST_PROFIT_DIVIDEND true)
      (creditIdxsOf store0) s4 u4 with ⟨s5, u5, ints⟩
  rw [hr5] at h
  dsimp only at h
  rcases hr6 : runPass (updKeyword REVERSAL_KEYWORDS Category.REVERSAL true)
      (creditIdxsOf store0) s5 u5 with ⟨s6, u6, revs⟩
  rw [hr6] at h
  dsimp only at h
  rcases hr7 : runPass updGenuine (creditIdxsOf store0) s6 u6 with ⟨s7, u7, gens⟩
  rw [hr7] at h
  dsimp only at h
  rcases hr8 : runPass (updRP rps) (debitIdxsOf store0) s7 u7 with ⟨s8, u8, rpD⟩
  rw [hr8] at h
  dsimp only at h
  rcases hr9 : runPass (updUnverified ck missing) (debitIdxsOf store0) s8 u8
    with ⟨s9, u9, unvD⟩
  rw [hr9] at h
  dsimp only at h
  rcases hr10 : runPass updStatutory (debitIdxsOf store0) s9 u9 with ⟨s10, u10, stats⟩
  rw [hr10] at h
  dsimp only at h
  rcases hr11 : runPass (updKeyword SALARY_KEYWORDS Category.SALARY_WAGES false)
      (debitIdxsOf store0) s10 u10 with ⟨s11, u11, sals⟩
  rw [hr11] at h
  dsimp only at h
  rcases hr12 : runPass (updKeyword UTILITY_KEYWORDS Category.UTILITIES false)
      (debitIdxsOf store0) s11 u11 with ⟨s12, u12, utils⟩
  rw [hr12] at h
  dsimp only at h
  rcases hr13 : runPass updBankCharge (debitIdxsOf store0) s12 u12 with ⟨s13, u13, bankcs⟩
  rw [hr13] at h
  dsimp only at h
  rcases hr14 : runPass updSupplier (debitIdxsOf store0) s13 u13 with ⟨s14, u14, sups⟩
  rw [hr14] at h
  dsimp only at h
  have hres : res =
      { store := s14, used := u14, matched_transfers := mts,
        unverified_credit_transfers := unvC, unverified_debit_transfers := unvD,
        related_party_credits := rpC, related_party_debits := rpD,
        loan_disbursements := loans, interest_credits := ints, reversals := revs,
        genuine_credits := gens, statutory_payments := stats, salary_wages := sals,
        utilities := utils, bank_charges := bankcs, supplier_payments := sups } :=
    (Except.ok.inj h).symm
  subst hres
  -- facts about the matched-transfer pass
  have hlen1 : s1.length = store0.length :=
    matchPass_length ck (debitIdxsOf store0) (creditIdxsOf store0) store0 [] [] s1 u1 mts hm
  have hf1 : ∀ x, frozen (s1.getD x default) = frozen (store0.getD x default) :=
    matchPass_frozen ck (debitIdxsOf store0) (creditIdxsOf store0) store0 [] [] s1 u1 mts hm
  obtain ⟨newms, hnew, hu1iff, hnpu, hndpair, hpairs0⟩ :=
    matchPass_spec ck (debitIdxsOf store0) (creditIdxsOf store0) store0 [] [] s1 u1 mts
      hbc hbd hm
  have hneweq : newms = mts := by
    rw [hnew]
    rfl
  subst hneweq
  have hu1 : ∀ x, x ∈ u1 ↔ x ∈ pairIdxs newms := by
    intro x
    rw [hu1iff x]
    simp
  have hnd1 : u1.Nodup :=
    matchPass_used_nodup ck (debitIdxsOf store0) (creditIdxsOf store0) store0 [] [] s1 u1
      newms hm List.nodup_nil
  obtain ⟨hms1c, hms1d⟩ := matchPass_usedSums store0 ck (debitIdxsOf store0)
    (creditIdxsOf store0) store0 [] [] s1 u1 newms hm
  have hsum1c : usedCredit store0 u1 = pairCredit store0 newms := by
    rw [pairCredit_nil, usedCredit_nil, add_zero, zero_add] at hms1c
    exact hms1c
  have hsum1d : usedDebit store0 u1 = pairDebit store0 newms := by
    rw [pairDebit_nil, usedDebit_nil, add_zero, zero_add] at hms1d
    exact hms1d
  -- the thirteen cascade passes
  obtain ⟨hl2, hf2, hp2, ho2, hmem2⟩ := chainStepE (updUnverified ck missing)
    (updOK_unverified ck missing) (creditIdxsOf store0) store0 s1 u1 s2 u2 unvC hr2
    ndc hbc hlen1 hf1
  obtain ⟨hl3, hf3, hp3, ho3, hmem3⟩ := chainStepE (updRP rps) (updOK_rp rps)
    (creditIdxsOf store0) store0 s2 u2 s3 u3 rpC hr3 ndc hbc hl2 hf2
  obtain ⟨hl4, hf4, hp4, ho4, hmem4⟩ := chainStepE
    (updKeyword DISBURSEMENT_KEYWORDS Category.LOAN_DISBURSEMENT true)
    (updOK_keyword DISBURSEMENT_KEYWORDS Category.LOAN_DISBURSEMENT true rfl)
    (creditIdxsOf store0) store0 s3 u3 s4 u4 loans hr4 ndc hbc hl3 hf3
  obtain ⟨hl5, hf5, hp5, ho5, hmem5⟩ := chainStepE
    (updKeyword INTEREST_KEYWORDS Category.INTEREST_PROFIT_DIVIDEND true)
    (updOK_keyword INTEREST_KEYWORDS Category.INTEREST_PROFIT_DIVIDEND true rfl)
    (creditIdxsOf store0) store0 s4 u4 s5 u5 ints hr5 ndc hbc hl4 hf4
  obtain ⟨hl6, hf6, hp6, ho6, hmem6⟩ := chainStepE
    (updKeyword REVERSAL_KEYWORDS Category.REVERSAL true)
    (updOK_keyword REVERSAL_KEYWORDS Category.REVERSAL true rfl)
    (creditIdxsOf store0) store0 s5 u5 s6 u6 revs hr6 ndc hbc hl5 hf5
  obtain ⟨hl7, hf7, hp7, ho7, hmem7⟩ := chainStepE updGenuine updOK_genuine
    (creditIdxsOf store0) store0 s6 u6 s7 u7 gens hr7 ndc hbc hl6 hf6
  obtain ⟨hl8, hf8, hp8, ho8, hmem8⟩ := chainStepE (updRP rps) (updOK_rp rps)
    (debitIdxsOf store0) store0 s7 u7 s8 u8 rpD hr8 ndd hbd hl7 hf7
  obtain ⟨hl9, hf9, hp9, ho9, hmem9⟩ := chainStepE (updUnverified ck missing)
    (updOK_unverified ck missing) (debitIdxsOf store0) store0 s8 u8 s9 u9 unvD hr9
    ndd hbd hl8 hf8
  obtain ⟨hl10, hf10, hp10, ho10, hmem10⟩ := chainStepE updStatutory updOK_statutory
    (debitIdxsOf store0) store0 s9 u9 s10 u10 stats hr10 ndd hbd hl9 hf9
  obtain ⟨hl11, hf11, hp11, ho11, hmem11⟩ := chainStepE
    (updKeyword SALARY_KEYWORDS Category.SALARY_WAGES false)
    (updOK_keyword SALARY_KEYWORDS Category.SALARY_WAGES false rfl)
    (debitIdxsOf store0) store0 s10 u10 s11 u11 sals hr11 ndd hbd hl10 hf10
  obtain ⟨hl12, hf12, hp12, ho12, hmem12⟩ := chainStepE
    (updKeyword UTILITY_KEYWORDS Category.UTILITIES false)
    (updOK_keyword UTILITY_KEYWORDS Category.UTILITIES false rfl)
    (debitIdxsOf store0) store0 s11 u11 s12 u12 utils hr12 ndd hbd hl11 hf11
  obtain ⟨hl13, hf13, hp13, ho13, hmem13⟩ := chainStepE updBankCharge updOK_bankCharge
    (debitIdxsOf store0) store0 s12 u12 s13 u13 bankcs hr13 ndd hbd hl12 hf12
  obtain ⟨hl14, hf14, hp14, ho14, hmem14⟩ := chainStepE updSupplier updOK_supplier
    (debitIdxsOf store0) store0 s13 u13 s14 u14 sups hr14 ndd hbd hl13 hf13
  -- upward membership in the used set
  have up2 : ∀ x, x ∈ u1 → x ∈ u2 := fun x hx => mem_chain_up (hmem2 x) hx
  have up3 : ∀ x, x ∈ u2 → x ∈ u3 := fun x hx => mem_chain_up (hmem3 x) hx
  have up4 : ∀ x, x ∈ u3 → x ∈ u4 := fun x hx => mem_chain_up (hmem4 x) hx
  have up5 : ∀ x, x ∈ u4 → x ∈ u5 := fun x hx => mem_chain_up (hmem5 x) hx
  have up6 : ∀ x, x ∈ u5 → x ∈ u6 := fun x hx => mem_chain_up (hmem6 x) hx
  have up7 : ∀ x, x ∈ u6 → x ∈ u7 := fun x hx => mem_chain_up (hmem7 x) hx
  have up8 : ∀ x, x ∈ u7 → x ∈ u8 := fun x hx => mem_chain_up (hmem8 x) hx
  have up9 : ∀ x, x ∈ u8 → x ∈ u9 := fun x hx => mem_chain_up (hmem9 x) hx
  have up10 : ∀ x, x ∈ u9 → x ∈ u10 := fun x hx => mem_chain_up (hmem10 x) hx
  have up11 : ∀ x, x ∈ u10 → x ∈ u11 := fun x hx => mem_chain_up (hmem11 x) hx
  have up12 : ∀ x, x ∈ u11 → x ∈ u12 := fun x hx => mem_chain_up (hmem12 x) hx
  have up13 : ∀ x, x ∈ u12 → x ∈ u13 := fun x hx => mem_chain_up (hmem13 x) hx
  have up14 : ∀ x, x ∈ u13 → x ∈ u14 := fun x hx => mem_chain_up (hmem14 x) hx
  -- every credit key is consumed by the genuine catch-all at the latest
  have hcr7 : ∀ x, x ∈ creditIdxsOf store0 → x ∈ u7 := by
    intro x hx
    by_cases hx6 : x ∈ u6
    · exact up7 x hx6
    · exact (hmem7 x).mpr (Or.inr ⟨hx, hx6, rfl⟩)
  have hcr14 : ∀ x, x ∈ creditIdxsOf store0 → x ∈ u14 := fun x hx =>
    up14 x (up13 x (up12 x (up11 x (up10 x (up9 x (up8 x (hcr7 x hx)))))))
  have hdb14 : ∀ x, x ∈ debitIdxsOf store0 → x ∈ u14 := by
    intro x hx
    by_cases hx13 : x ∈ u13
    · exact up14 x hx13
    · exact (hmem14 x).mpr (Or.inr ⟨hx, hx13, rfl⟩)
  -- the final used set is exactly the credit and debit keys
  have humem : ∀ x, x ∈ u14 ↔ x ∈ creditIdxsOf store0 ∨ x ∈ debitIdxsOf store0 := by
    intro x
    constructor
    · intro hx
      have t : x ∈ u14 ∨ (x ∈ creditIdxsOf store0 ∨ x ∈ debitIdxsOf store0) := Or.inl hx
      have t := mem_chain_step (hmem14 x) (fun h2 => Or.inr h2) t
      have t := mem_chain_step (hmem13 x) (fun h2 => Or.inr h2) t
      have t := mem_chain_step (hmem12 x) (fun h2 => Or.inr h2) t
      have t := mem_chain_step (hmem11 x) (fun h2 => Or.inr h2) t
      have t := mem_chain_step (hmem10 x) (fun h2 => Or.inr h2) t
      have t := mem_chain_step (hmem9 x) (fun h2 => Or.inr h2) t
      have t := mem_chain_step (hmem8 x) (fun h2 => Or.inr h2) t
      have t := mem_chain_step (hmem7 x) (fun h2 => Or.inl h2) t
      have t := mem_chain_step (hmem6 x) (fun h2 => Or.inl h2) t
      have t := mem_chain_step (hmem5 x) (fun h2 => Or.inl h2) t
      have t := mem_chain_step (hmem4 x) (fun h2 => Or.inl h2) t
      have t := mem_chain_step (hmem3 x) (fun h2 => Or.inl h2) t
      have t := mem_chain_step (hmem2 x) (fun h2 => Or.inl h2) t
      rcases t with h1 | h1
      · obtain ⟨mt, hmt, hor⟩ := mem_pairIdxs_iff.mp ((hu1 x).mp h1)
        obtain ⟨hc, hd, -⟩ := hpairs0 mt hmt
        rcases hor with he | he
        · exact Or.inl (he ▸ hc)
        · exact Or.inr (he ▸ hd)
      · exact h1
    · intro hx
      rcases hx with hx | hx
      · exact hcr14 x hx
      · exact hdb14 x hx
  -- category consistency along the chain
  have hQ1 : ∀ j, j ∈ u1 → ∃ c, (s1.getD j default).category = some c
      ∧ (s1.getD j default).exclude_from_turnover = excludedCat c := by
    intro j hj
    obtain ⟨mt, hmt, hor⟩ := mem_pairIdxs_iff.mp ((hu1 j).mp hj)
    obtain ⟨-, -, -, -, -, -, -, -, -, hc1, he1, hc2, he2⟩ := hpairs0 mt hmt
    rcases hor with he | he
    · exact ⟨Category.INTER_ACCOUNT_TRANSFER, he ▸ hc1, he ▸ he1⟩
    · exact ⟨Category.INTER_ACCOUNT_TRANSFER, he ▸ hc2, he ▸ he2⟩
  have hQ2 := chainQE (updUnverified ck missing) (updOK_unverified ck missing)
    (creditIdxsOf store0) store0 s1 u1 s2 u2 unvC hr2 ndc hbc hlen1 hQ1
  have hQ3 := chainQE (updRP rps) (updOK_rp rps) (creditIdxsOf store0) store0 s2 u2 s3 u3
    rpC hr3 ndc hbc hl2 hQ2
  have hQ4 := chainQE (updKeyword DISBURSEMENT_KEYWORDS Category.LOAN_DISBURSEMENT true)
    (updOK_keyword DISBURSEMENT_KEYWORDS Category.LOAN_DISBURSEMENT true rfl)
    (creditIdxsOf store0) store0 s3 u3 s4 u4 loans hr4 ndc hbc hl3 hQ3
  have hQ5 := chainQE (updKeyword INTEREST_KEYWORDS Category.INTEREST_PROFIT_DIVIDEND true)
    (updOK_keyword INTEREST_KEYWORDS Category.INTEREST_PROFIT_DIVIDEND true rfl)
    (creditIdxsOf store0) store0 s4 u4 s5 u5 ints hr5 ndc hbc hl4 hQ4
  have hQ6 := chainQE (updKeyword REVERSAL_KEYWORDS Category.REVERSAL true)
    (updOK_keyword REVERSAL_KEYWORDS Category.REVERSAL true rfl)
    (creditIdxsOf store0) store0 s5 u5 s6 u6 revs hr6 ndc hbc hl5 hQ5
  have hQ7 := chainQE updGenuine updOK_genuine (creditIdxsOf store0) store0 s6 u6 s7 u7
    gens hr7 ndc hbc hl6 hQ6
  have hQ8 := chainQE (updRP rps) (updOK_rp rps) (debitIdxsOf store0) store0 s7 u7 s8 u8
    rpD hr8 ndd hbd hl7 hQ7
  have hQ9 := chainQE (updUnverified ck missing) (updOK_unverified ck missing)
    (debitIdxsOf store0) store0 s8 u8 s9 u9 unvD hr9 ndd hbd hl8 hQ8
  have hQ10 := chainQE updStatutory updOK_statutory (debitIdxsOf store0) store0 s9 u9
    s10 u10 stats hr10 ndd hbd hl9 hQ9
  have hQ11 := chainQE (updKeyword SALARY_KEYWORDS Category.SALARY_WAGES false)
    (updOK_keyword SALARY_KEYWORDS Category.SALARY_WAGES false rfl)
    (debitIdxsOf store0) store0 s10 u10 s11 u11 sals hr11 ndd hbd hl10 hQ10
  have hQ12 := chainQE (updKeyword UTILITY_KEYWORDS Category.UTILITIES false)
    (updOK_keyword UTILITY_KEYWORDS Category.UTILITIES false rfl)
    (debitIdxsOf store0) store0 s11 u11 s12 u12 utils hr12 ndd hbd hl11 hQ11
  have hQ13 := chainQE updBankCharge updOK_bankCharge (debitIdxsOf store0) store0 s12 u12
    s13 u13 bankcs hr13 ndd hbd hl12 hQ12
  have hQ14 := chainQE updSupplier updOK_supplier (debitIdxsOf store0) store0 s13 u13
    s14 u14 sups hr14 ndd hbd hl13 hQ13
  -- values at consumed keys never change afterwards
  have pres1 : ∀ x, x ∈ u1 → s14.getD x default = s1.getD x default := by
    intro x hx1
    have hx2 := up2 x hx1
    have hx3 := up3 x hx2
    have hx4 := up4 x hx3
    have hx5 := up5 x hx4
    have hx6 := up6 x hx5
    have hx7 := up7 x hx6
    have hx8 := up8 x hx7
    have hx9 := up9 x hx8
    have hx10 := up10 x hx9
    have hx11 := up11 x hx10
    have hx12 := up12 x hx11
    have hx13 := up13 x hx12
    rw [hp14 x hx13, hp13 x hx12, hp12 x hx11, hp11 x hx10, hp10 x hx9, hp9 x hx8,
      hp8 x hx7, hp7 x hx6, hp6 x hx5, hp5 x hx4, hp4 x hx3, hp3 x hx2, hp2 x hx1]
  have pres8 : ∀ x, x ∈ u8 → s14.getD x default = s8.getD x default := by
    intro x hx8
    have hx9 := up9 x hx8
    have hx10 := up10 x hx9
    have hx11 := up11 x hx10
    have hx12 := up12 x hx11
    have hx13 := up13 x hx12
    rw [hp14 x hx13, hp13 x hx12, hp12 x hx11, hp11 x hx10, hp10 x hx9, hp9 x hx8]
  have pres9 : ∀ x, x ∈ u9 → s14.getD x default = s9.getD x default := by
    intro x hx9
    have hx10 := up10 x hx9
    have hx11 := up11 x hx10
    have hx12 := up12 x hx11
    have hx13 := up13 x hx12
    rw [hp14 x hx13, hp13 x hx12, hp12 x hx11, hp11 x hx10, hp10 x hx9]
  -- nodup of the final used set
  have hnd14 : u14.Nodup :=
    usedNodupE updSupplier (debitIdxsOf store0) s13 u13 s14 u14 sups hr14
      (usedNodupE updBankCharge (debitIdxsOf store0) s12 u12 s13 u13 bankcs hr13
        (usedNodupE (updKeyword UTILITY_KEYWORDS Category.UTILITIES false)
          (debitIdxsOf store0) s11 u11 s12 u12 utils hr12
          (usedNodupE (updKeyword SALARY_KEYWORDS Category.SALARY_WAGES false)
            (debitIdxsOf store0) s10 u10 s11 u11 sals hr11
            (usedNodupE updStatutory (debitIdxsOf store0) s9 u9 s10 u10 stats hr10
              (usedNodupE (updUnverified ck missing) (debitIdxsOf store0) s8 u8 s9 u9
                unvD hr9
                (usedNodupE (updRP rps) (debitIdxsOf store0) s7 u7 s8 u8 rpD hr8
                  (usedNodupE updGenuine (creditIdxsOf store0) s6 u6 s7 u7 gens hr7
                    (usedNodupE (updKeyword REVERSAL_KEYWORDS Category.REVERSAL true)
                      (creditIdxsOf store0) s5 u5 s6 u6 revs hr6
                      (usedNodupE
                        (updKeyword INTEREST_KEYWORDS Category.INTEREST_PROFIT_DIVIDEND
                          true) (creditIdxsOf store0) s4 u4 s5 u5 ints hr5
                        (usedNodupE
                          (updKeyword DISBURSEMENT_KEYWORDS Category.LOAN_DISBURSEMENT
                            true) (creditIdxsOf store0) s3 u3 s4 u4 loans hr4
                          (usedNodupE (updRP rps) (creditIdxsOf store0) s2 u2 s3 u3 rpC
                            hr3
                            (usedNodupE (updUnverified ck missing) (creditIdxsOf store0)
                              s1 u1 s2 u2 unvC hr2 hnd1))))))))))))
  -- final used set is a permutation of the credit and debit keys
  have hperm : u14.Perm (creditIdxsOf store0 ++ debitIdxsOf store0) := by
    rw [List.perm_ext_iff_of_nodup hnd14 (List.Nodup.append ndc ndd hdisj)]
    intro x
    rw [humem x, List.mem_append]
  -- per-pass sums
  obtain ⟨hsc2, hsd2⟩ := usedSumsE store0 (updUnverified ck missing)
    (updOK_unverified ck missing) (creditIdxsOf store0) s1 u1 s2 u2 unvC hr2 hf1
  obtain ⟨hsc3, hsd3⟩ := usedSumsE store0 (updRP rps) (updOK_rp rps)
    (creditIdxsOf store0) s2 u2 s3 u3 rpC hr3 hf2
  obtain ⟨hsc4, hsd4⟩ := usedSumsE store0
    (updKeyword DISBURSEMENT_KEYWORDS Category.LOAN_DISBURSEMENT true)
    (updOK_keyword DISBURSEMENT_KEYWORDS Category.LOAN_DISBURSEMENT true rfl)
    (creditIdxsOf store0) s3 u3 s4 u4 loans hr4 hf3
  obtain ⟨hsc5, hsd5⟩ := usedSumsE store0
    (updKeyword INTEREST_KEYWORDS Category.INTEREST_PROFIT_DIVIDEND true)
    (updOK_keyword INTEREST_KEYWORDS Category.INTEREST_PROFIT_DIVIDEND true rfl)
    (creditIdxsOf store0) s4 u4 s5 u5 ints hr5 hf4
  obtain ⟨hsc6, hsd6⟩ := usedSumsE store0 (updKeyword REVERSAL_KEYWORDS Category.REVERSAL
    true) (updOK_keyword REVERSAL_KEYWORDS Category.REVERSAL true rfl)
    (creditIdxsOf store0) s5 u5 s6 u6 revs hr6 hf5
  obtain ⟨hsc7, hsd7⟩ := usedSumsE store0 updGenuine updOK_genuine (creditIdxsOf store0)
    s6 u6 s7 u7 gens hr7 hf6
  obtain ⟨hsc8, hsd8⟩ := usedSumsE store0 (updRP rps) (updOK_rp rps) (debitIdxsOf store0)
    s7 u7 s8 u8 rpD hr8 hf7
  obtain ⟨hsc9, hsd9⟩ := usedSumsE store0 (updUnverified ck missing)
    (updOK_unverified ck missing) (debitIdxsOf store0) s8 u8 s9 u9 unvD hr9 hf8
  obtain ⟨hsc10, hsd10⟩ := usedSumsE store0 updStatutory updOK_statutory
    (debitIdxsOf store0) s9 u9 s10 u10 stats hr10 hf9
  obtain ⟨hsc11, hsd11⟩ := usedSumsE store0
    (updKeyword SALARY_KEYWORDS Category.SALARY_WAGES false)
    (updOK_keyword SALARY_KEYWORDS Category.SALARY_WAGES false rfl)
    (debitIdxsOf store0) s10 u10 s11 u11 sals hr11 hf10
  obtain ⟨hsc12, hsd12⟩ := usedSumsE store0
    (updKeyword UTILITY_KEYWORDS Category.UTILITIES false)
    (updOK_keyword UTILITY_KEYWORDS Category.UTILITIES false rfl)
    (debitIdxsOf store0) s11 u11 s12 u12 utils hr12 hf11
  obtain ⟨hsc13, hsd13⟩ := usedSumsE store0 updBankCharge updOK_bankCharge
    (debitIdxsOf store0) s12 u12 s13 u13 bankcs hr13 hf12
  obtain ⟨hsc14, hsd14⟩ := usedSumsE store0 updSupplier updOK_supplier
    (debitIdxsOf store0) s13 u13 s14 u14 sups hr14 hf13
  -- debit passes contribute no credit, credit passes no debit
  have hzc : ∀ i ∈ debitIdxsOf store0, creditAt store0 i = 0 := fun i hi =>
    creditAt_debitIdx_zero store0 hpos hsign hi
  have hzd : ∀ i ∈ creditIdxsOf store0, debitAt store0 i = 0 := fun i hi =>
    debitAt_creditIdx_zero store0 hpos hsign hi
  have hz8 : csum rpD = 0 := hitsCsumZero store0 (updRP rps) (updOK_rp rps)
    (debitIdxsOf store0) s7 u7 s8 u8 rpD hr8 hf7 hzc
  have hz9 : csum unvD = 0 := hitsCsumZero store0 (updUnverified ck missing)
    (updOK_unverified ck missing) (debitIdxsOf store0) s8 u8 s9 u9 unvD hr9 hf8 hzc
  have hz10 : csum stats = 0 := hitsCsumZero store0 updStatutory updOK_statutory
    (debitIdxsOf store0) s9 u9 s10 u10 stats hr10 hf9 hzc
  have hz11 : csum sals = 0 := hitsCsumZero store0
    (updKeyword SALARY_KEYWORDS Category.SALARY_WAGES false)
    (updOK_keyword SALARY_KEYWORDS Category.SALARY_WAGES false rfl)
    (debitIdxsOf store0) s10 u10 s11 u11 sals hr11 hf10 hzc
  have hz12 : csum utils = 0 := hitsCsumZero store0
    (updKeyword UTILITY_KEYWORDS Category.UTILITIES false)
    (updOK_keyword UTILITY_KEYWORDS Category.UTILITIES false rfl)
    (debitIdxsOf store0) s11 u11 s12 u12 utils hr12 hf11 hzc
  have hz13 : csum bankcs = 0 := hitsCsumZero store0 updBankCharge updOK_bankCharge
    (debitIdxsOf store0) s12 u12 s13 u13 bankcs hr13 hf12 hzc
  have hz14 : csum sups = 0 := hitsCsumZero store0 updSupplier updOK_supplier
    (debitIdxsOf store0) s13 u13 s14 u14 sups hr14 hf13 hzc
  have hw2 : dsum unvC = 0 := hitsDsumZero store0 (updUnverified ck missing)
    (updOK_unverified ck missing) (creditIdxsOf store0) s1 u1 s2 u2 unvC hr2 hf1 hzd
  have hw3 : dsum rpC = 0 := hitsDsumZero store0 (updRP rps) (updOK_rp rps)
    (creditIdxsOf store0) s2 u2 s3 u3 rpC hr3 hf2 hzd
  have hw4 : dsum loans = 0 := hitsDsumZero store0
    (updKeyword DISBURSEMENT_KEYWORDS Category.LOAN_DISBURSEMENT true)
    (updOK_keyword DISBURSEMENT_KEYWORDS Category.LOAN_DISBURSEMENT true rfl)
    (creditIdxsOf store0) s3 u3 s4 u4 loans hr4 hf3 hzd
  have hw5 : dsum ints = 0 := hitsDsumZero store0
    (updKeyword INTEREST_KEYWORDS Category.INTEREST_PROFIT_DIVIDEND true)
    (updOK_keyword INTEREST_KEYWORDS Category.INTEREST_PROFIT_DIVIDEND true rfl)
    (creditIdxsOf store0) s4 u4 s5 u5 ints hr5 hf4 hzd
  have hw6 : dsum revs = 0 := hitsDsumZero store0
    (updKeyword REVERSAL_KEYWORDS Category.REVERSAL true)
    (updOK_keyword REVERSAL_KEYWORDS Category.REVERSAL true rfl)
    (creditIdxsOf store0) s5 u5 s6 u6 revs hr6 hf5 hzd
  have hw7 : dsum gens = 0 := hitsDsumZero store0 updGenuine updOK_genuine
    (creditIdxsOf store0) s6 u6 s7 u7 gens hr7 hf6 hzd
  -- total used sums at the end
  have hucr14 : usedCredit store0 u14 = totalCreditsOf store0 := by
    rw [usedCredit_perm store0 hperm, usedCredit_append,
      usedCredit_creditIdxs store0 hpos, usedCredit_debitIdxs_zero store0 hpos hsign,
      add_zero]
  have hudb14 : usedDebit store0 u14 = totalDebitsOf store0 := by
    rw [usedDebit_perm store0 hperm, usedDebit_append,
      usedDebit_creditIdxs_zero store0 hpos hsign, usedDebit_debitIdxs store0 hpos,
      zero_add]
  have hpc : pairCredit store0 newms = msum newms :=
    pairCredit_eq_msum store0 hpos hsign newms (fun mt hmt =>
      ⟨(hpairs0 mt hmt).2.1, (hpairs0 mt hmt).2.2.2.1⟩)
  have hpd : pairDebit store0 newms = matchedDebitOwn store0 newms :=
    pairDebit_eq_own store0 hpos hsign newms (fun mt hmt => (hpairs0 mt hmt).1)
  refine ⟨hl14, hf14, hndpair, ?_, humem, hnd14, hQ14, ?_, ?_, ?_, ?_, ?_⟩
  · -- per-pair facts at the final store
    intro mt hmt
    obtain ⟨hc, hd, hcompat, hamt, -, -, -, -, -, hc1, he1, hc2, he2⟩ := hpairs0 mt hmt
    have hmci : mt.credit_idx ∈ u1 := (hu1 _).mpr
      (mem_pairIdxs_iff.mpr ⟨mt, hmt, Or.inl rfl⟩)
    have hmdi : mt.debit_idx ∈ u1 := (hu1 _).mpr
      (mem_pairIdxs_iff.mpr ⟨mt, hmt, Or.inr rfl⟩)
    refine ⟨hc, hd, hcompat, hamt, ?_, ?_, ?_, ?_⟩
    · rw [pres1 _ hmci]
      exact hc1
    · rw [pres1 _ hmci]
      exact he1
    · rw [pres1 _ hmdi]
      exact hc2
    · rw [pres1 _ hmdi]
      exact he2
  · -- every kept transaction ends categorized consistently
    intro t ht hnz
    have hpos14 : ∀ i, i < s14.length → (s14.getD i default).sorted_idx = i := by
      intro i hi
      have := frozen_fields (hf14 i)
      rw [this.2.2.2.2.2.2.2]
      exact hpos i (by rw [← hl14]; exact hi)
    obtain ⟨hlt, hget⟩ := store_mem_getD hpos14 ht
    have hltl : t.sorted_idx < store0.length := by rw [← hl14]; exact hlt
    have hff := frozen_fields (hf14 t.sorted_idx)
    rw [hget] at hff
    have hmem0 : store0.getD t.sorted_idx default ∈ store0 := mem_of_getD hltl default
    have hsidx0 : (store0.getD t.sorted_idx default).sorted_idx = t.sorted_idx :=
      hpos t.sorted_idx hltl
    obtain ⟨hs1, hs2, hs3⟩ := hsign _ hmem0
    have hin : t.sorted_idx ∈ creditIdxsOf store0 ∨ t.sorted_idx ∈ debitIdxsOf store0 := by
      rcases hs3 with h0 | h0
      · refine Or.inr ((mem_debitIdxs _).mpr ⟨_, hmem0, ?_, hsidx0⟩)
        rcases lt_or_eq_of_le hs2 with hlt2 | he2
        · exact hlt2
        · exfalso
          apply hnz
          constructor
          · rw [hff.2.2.2.2.2.1, h0]
          · rw [hff.2.2.2.2.1, ← he2]
      · refine Or.inl ((mem_creditIdxs _).mpr ⟨_, hmem0, ?_, hsidx0⟩)
        rcases lt_or_eq_of_le hs1 with hlt2 | he2
        · exact hlt2
        · exfalso
          apply hnz
          constructor
          · rw [hff.2.2.2.2.2.1, ← he2]
          · rw [hff.2.2.2.2.1, h0]
    have hu : t.sorted_idx ∈ u14 := (humem _).mpr hin
    obtain ⟨c, hc, he⟩ := hQ14 _ hu
    rw [hget] at hc he
    exact ⟨c, hc, he⟩
  · -- debit cascade: related party first, then unverified
    intro j hjd hnpair
    have hnc : j ∉ creditIdxsOf store0 := fun h2 => hdisj j h2 hjd
    have hju1 : j ∉ u1 := fun h2 => hnpair ((hu1 j).mp h2)
    have hju7 : j ∉ u7 := by
      intro h2
      have t : j ∈ u7 ∨ False := Or.inl h2
      have t := mem_chain_step (hmem7 j) (fun h3 => hnc h3) t
      have t := mem_chain_step (hmem6 j) (fun h3 => hnc h3) t
      have t := mem_chain_step (hmem5 j) (fun h3 => hnc h3) t
      have t := mem_chain_step (hmem4 j) (fun h3 => hnc h3) t
      have t := mem_chain_step (hmem3 j) (fun h3 => hnc h3) t
      have t := mem_chain_step (hmem2 j) (fun h3 => hnc h3) t
      rcases t with h3 | h3
      · exact hju1 h3
      · exact h3
    have hb7 : ∀ i ∈ debitIdxsOf store0, i < s7.length := by
      intro i hi
      rw [hl7]
      exact hbd i hi
    have hb8 : ∀ i ∈ debitIdxsOf store0, i < s8.length := by
      intro i hi
      rw [hl8]
      exact hbd i hi
    constructor
    · -- related-party branch
      intro hrp
      have hdep := (updOK_rp rps).dep (s7.getD j default) (store0.getD j default) (hf7 j)
      have hsome : (updRP rps (s7.getD j default)).isSome = true := by
        rw [hdep, updRP_isSome]
        have hdesc : (store0.getD j default).description
            = (store0.getD j default).description := rfl
        exact hrp
      have hju8 : j ∈ u8 := (hmem8 j).mpr (Or.inr ⟨hjd, hju7, hsome⟩)
      have hval := getDE (updRP rps) (debitIdxsOf store0) s7 u7 s8 u8 rpD hr8 ndd hb7 j
      rw [if_pos ⟨hjd, hju7, hsome⟩] at hval
      rcases hx : updRP rps (s7.getD j default) with _ | t'
      · rw [hx] at hsome
        cases hsome
      · rw [hx] at hval
        rw [pres8 j hju8, hval]
        exact updRP_category rps _ t' hx
    · -- unverified branch
      intro hrpn hunv
      have hdep := (updOK_rp rps).dep (s7.getD j default) (store0.getD j default) (hf7 j)
      have hnone : (updRP rps (s7.getD j default)).isSome = false := by
        rw [hdep, updRP_isSome, hrpn]
        rfl
      have hju8 : j ∉ u8 := by
        intro h2
        rcases (hmem8 j).mp h2 with h3 | h3
        · exact hju7 h3
        · rw [hnone] at h3
          exact Bool.false_ne_true h3.2.2
      have hval8 := getDE (updRP rps) (debitIdxsOf store0) s7 u7 s8 u8 rpD hr8 ndd hb7 j
      rw [if_neg (fun h3 => Bool.false_ne_true (hnone ▸ h3.2.2))] at hval8
      have hdep9 := (updOK_unverified ck missing).dep (s8.getD j default)
        (store0.getD j default) (hf8 j)
      have hsome9 : (updUnverified ck missing (s8.getD j default)).isSome = true := by
        rw [hdep9]
        exact hunv
      have hju9 : j ∈ u9 := (hmem9 j).mpr (Or.inr ⟨hjd, hju8, hsome9⟩)
      have hval9 := getDE (updUnverified ck missing) (debitIdxsOf store0) s8 u8 s9 u9
        unvD hr9 ndd hb8 j
      rw [if_pos ⟨hjd, hju8, hsome9⟩] at hval9
      rcases hx : updUnverified ck missing (s8.getD j default) with _ | t'
      · rw [hx] at hsome9
        cases hsome9
      · rw [hx] at hval9
        rw [pres9 j hju9, hval9]
        exact updUnverified_category ck missing _ t' hx
  · -- credit-side sum identity
    have hgoal : usedCredit store0 u14
        = msum newms + csum unvC + csum rpC + csum loans + csum ints + csum revs
          + csum gens := by
      rw [hsc14, hsc13, hsc12, hsc11, hsc10, hsc9, hsc8, hsc7, hsc6, hsc5, hsc4, hsc3,
        hsc2, hsum1c, hpc, hz8, hz9, hz10, hz11, hz12, hz13, hz14]
      ring
    rw [← hucr14, hgoal]
  · -- debit-side sum identity
    have hgoal : usedDebit store0 u14
        = matchedDebitOwn store0 newms + dsum rpD + dsum unvD + dsum stats + dsum sals
          + dsum utils + dsum bankcs + dsum sups := by
      rw [hsd14, hsd13, hsd12, hsd11, hsd10, hsd9, hsd8, hsd7, hsd6, hsd5, hsd4, hsd3,
        hsd2, hsum1d, hpd, hw2, hw3, hw4, hw5, hw6, hw7]
      ring
    rw [← hudb14, hgoal]
  · -- genuine credits
    intro t ht
    obtain ⟨i, hiC, hnu, hsome⟩ := hitsMemE updGenuine (creditIdxsOf store0) s6 u6 s7 u7
      gens hr7 t ht
    have hcat := updGenuine_category _ t hsome
    have hfr := frozen_fields (updOK_genuine.pres _ _ hsome)
    have hfr6 := frozen_fields (hf6 i)
    refine ⟨hcat, ?_⟩
    rw [hfr.2.2.2.2.2.1, hfr6.2.2.2.2.2.1]
    exact creditAt_pos_of_mem store0 hpos hiC

/-- C1: after a successful categorization run on a normalized store whose
transactions all have nonnegative amounts with at most one of credit/debit
non-zero, no key is consumed twice, and every transaction in the final store
carries exactly one category whose `exclude_from_turnover` flag matches the
category-exclusion table: the flag is true precisely for the six
non-operating/internal categories. -/
theorem claim_C1 (info : List (Str × AccountInfo)) (up : List (Str × RawAccount))
    (ck : List Str) (rps : List RpPattern) (missing : List Str)
    (store0 : List Txn) (res : CatResult)
    (hcomb : combine info up = .ok store0)
    (hsign : ∀ t ∈ store0, 0 ≤ t.credit ∧ 0 ≤ t.debit ∧ (t.credit = 0 ∨ t.debit = 0))
    (h : categorize ck rps missing store0 = .ok res) :
    res.used.Nodup
    ∧ ∀ t ∈ res.store, ∃ c, t.category = some c
      ∧ t.exclude_from_turnover = excludedCat c
      ∧ (excludedCat c = true ↔
          (c = Category.INTER_ACCOUNT_TRANSFER
            ∨ c = Category.INTER_ACCOUNT_TRANSFER_UNVERIFIED
            ∨ c = Category.RELATED_PARTY ∨ c = Category.LOAN_DISBURSEMENT
            ∨ c = Category.INTEREST_PROFIT_DIVIDEND ∨ c = Category.REVERSAL)) := by
  have hpos := combine_sorted_idx info up store0 hcomb
  have hbasic := combine_basic info up store0 hcomb
  obtain ⟨hlen, hfroz, -, -, -, hnd, -, hC1pt, -, -, -, -⟩ :=
    categorize_spec ck rps missing store0 res hpos hsign h
  refine ⟨hnd, ?_⟩
  intro t ht
  have hpos14 : ∀ i, i < res.store.length → (res.store.getD i default).sorted_idx = i := by
    intro i hi
    have hfi := frozen_fields (hfroz i)
    rw [hfi.2.2.2.2.2.2.2]
    exact hpos i (by rw [← hlen]; exact hi)
  obtain ⟨hlt, hget⟩ := store_mem_getD hpos14 ht
  have hltl : t.sorted_idx < store0.length := by
    rw [← hlen]
    exact hlt
  have hff := frozen_fields (hfroz t.sorted_idx)
  rw [hget] at hff
  have hmem0 : store0.getD t.sorted_idx default ∈ store0 := mem_of_getD hltl default
  have hnz0 := (hbasic _ hmem0).2.2
  have hnz : ¬(t.credit = 0 ∧ t.debit = 0) := by
    intro hzz
    apply hnz0
    constructor
    · rw [← hff.2.2.2.2.2.1]
      exact hzz.1
    · rw [← hff.2.2.2.2.1]
      exact hzz.2
  obtain ⟨c, hc, he⟩ := hC1pt t ht hnz
  refine ⟨c, hc, he, ?_⟩
  cases c <;> decide

/-- Witness for C1: the concrete single-transaction fixture run. -/
theorem claim_C1_witness :
    c1res.used.Nodup
    ∧ ∀ t ∈ c1res.store, ∃ c, t.category = some c
      ∧ t.exclude_from_turnover = excludedCat c
      ∧ (excludedCat c = true ↔
          (c = Category.INTER_ACCOUNT_TRANSFER
            ∨ c = Category.INTER_ACCOUNT_TRANSFER_UNVERIFIED
            ∨ c = Category.RELATED_PARTY ∨ c = Category.LOAN_DISBURSEMENT
            ∨ c = Category.INTEREST_PROFIT_DIVIDEND ∨ c = Category.REVERSAL)) :=
  claim_C1 c8info c8up [] c8rps c8missing c8store c1res (by with_unfolding_all rfl)
    (by with_unfolding_all decide) (by with_unfolding_all rfl)

/-- C2: the matched-transfer pass pairs each unused credit with the first
unused debit (in sort order) that has a different account, amount within 1,
dates within one day and a marker/company-keyword/large-amount justification;
each key appears in at most one pair, both sides of a pair are marked
INTER_ACCOUNT_TRANSFER and excluded, and the pair honours the tolerances. -/
theorem claim_C2 (info : List (Str × AccountInfo)) (up : List (Str × RawAccount))
    (ck : List Str) (rps : List RpPattern) (missing : List Str)
    (store0 : List Txn) (res : CatResult)
    (hcomb : combine info up = .ok store0)
    (hsign : ∀ t ∈ store0, 0 ≤ t.credit ∧ 0 ≤ t.debit ∧ (t.credit = 0 ∨ t.debit = 0))
    (h : categorize ck rps missing store0 = .ok res) :
    (∀ (c : Txn) (store : List Txn) (used dl : List Nat) (j : Nat),
        findMatch ck c store used dl = .ok (some j) →
        j ∈ dl ∧ j ∉ used ∧ compatiblePair ck c (store.getD j default)
        ∧ ∃ pre post, dl = pre ++ j :: post
            ∧ ∀ x ∈ pre, x ∈ used ∨ ¬ compatiblePair ck c (store.getD x default))
    ∧ (pairIdxs res.matched_transfers).Nodup
    ∧ (∀ mt ∈ res.matched_transfers,
        mt.credit_idx ∈ creditIdxsOf store0 ∧ mt.debit_idx ∈ debitIdxsOf store0
        ∧ ¬((store0.getD mt.debit_idx default).account_id
            = (store0.getD mt.credit_idx default).account_id)
        ∧ |(store0.getD mt.credit_idx default).credit
            - (store0.getD mt.debit_idx default).debit| ≤ 1
        ∧ (∃ cd dd, parseDate (store0.getD mt.credit_idx default).date = some cd
            ∧ parseDate (store0.getD mt.debit_idx default).date = some dd
            ∧ (dayDiff cd dd).natAbs ≤ 1)
        ∧ mt.credit_idx ∈ res.used ∧ mt.debit_idx ∈ res.used
        ∧ (res.store.getD mt.credit_idx default).category
            = some Category.INTER_ACCOUNT_TRANSFER
        ∧ (res.store.getD mt.credit_idx default).exclude_from_turnover = true
        ∧ (res.store.getD mt.debit_idx default).category
            = some Category.INTER_ACCOUNT_TRANSFER
        ∧ (res.store.getD mt.debit_idx default).exclude_from_turnover = true) := by
  have hpos := combine_sorted_idx info up store0 hcomb
  obtain ⟨-, -, hndp, hmt, huiff, -, -, -, -, -, -, -⟩ :=
    categorize_spec ck rps missing store0 res hpos hsign h
  refine ⟨fun c store used dl j hf => findMatch_some ck c store used dl j hf, hndp, ?_⟩
  intro mt hm
  obtain ⟨hc, hd, hcompat, -, hc1, he1, hc2, he2⟩ := hmt mt hm
  exact ⟨hc, hd, hcompat.1, hcompat.2.1, hcompat.2.2.1,
    (huiff _).mpr (Or.inl hc), (huiff _).mpr (Or.inr hd), hc1, he1, hc2, he2⟩

/-- Witness for C2: the fixture with a 50000/49999 matched pair. -/
theorem claim_C2_witness :
    (pairIdxs c4res.matched_transfers).Nodup
    ∧ (∀ mt ∈ c4res.matched_transfers,
        mt.credit_idx ∈ creditIdxsOf c4store ∧ mt.debit_idx ∈ debitIdxsOf c4store
        ∧ ¬((c4store.getD mt.debit_idx default).account_id
            = (c4store.getD mt.credit_idx default).account_id)
        ∧ |(c4store.getD mt.credit_idx default).credit
            - (c4store.getD mt.debit_idx default).debit| ≤ 1
        ∧ (∃ cd dd, parseDate (c4store.getD mt.credit_idx default).date = some cd
            ∧ parseDate (c4store.getD mt.debit_idx default).date = some dd
            ∧ (dayDiff cd dd).natAbs ≤ 1)
        ∧ mt.credit_idx ∈ c4res.used ∧ mt.debit_idx ∈ c4res.used
        ∧ (c4res.store.getD mt.credit_idx default).category
            = some Category.INTER_ACCOUNT_TRANSFER
        ∧ (c4res.store.getD mt.credit_idx default).exclude_from_turnover = true
        ∧ (c4res.store.getD mt.debit_idx default).category
            = some Category.INTER_ACCOUNT_TRANSFER
        ∧ (c4res.store.getD mt.debit_idx default).exclude_from_turnover = true) :=
  (claim_C2 c4info c4up [] [] c4missing c4store c4res (by with_unfolding_all rfl)
    (by with_unfolding_all decide) (by with_unfolding_all rfl)).2

/-- Counterexample to C3 as stated: a still-unused debit that satisfies the
unverified-transfer conditions (missing bank code "MBB" plus the INTERBANK
marker) but whose description also matches a related-party pattern is
classified RELATED_PARTY, not INTER_ACCOUNT_TRANSFER_UNVERIFIED: on the debit
side the related-party rule runs before the unverified rule. -/
theorem claim_C3_counterexample :
    (updUnverified [] c3missing (c3store.getD 0 default)).isSome = true
    ∧ (check_related_party (c3store.getD 0 default).description c3rps).isSome = true
    ∧ (categorize [] c3rps c3missing c3store).map
        (fun r => r.store.map (fun t => t.category))
      = .ok [some Category.RELATED_PARTY] := by
  refine ⟨?_, ?_, ?_⟩
  · with_unfolding_all rfl
  · with_unfolding_all rfl
  · with_unfolding_all rfl

/-- C3 (amended): on the debit side the related-party pass runs before the
unverified-transfer pass — a still-unused debit matching a related-party
pattern is classified RELATED_PARTY (and excluded) even when the
unverified-transfer conditions also hold, while a debit with no related-party
match satisfying the unverified conditions is classified
INTER_ACCOUNT_TRANSFER_UNVERIFIED (and excluded). -/
theorem claim_C3 (info : List (Str × AccountInfo)) (up : List (Str × RawAccount))
    (ck : List Str) (rps : List RpPattern) (missing : List Str)
    (store0 : List Txn) (res : CatResult)
    (hcomb : combine info up = .ok store0)
    (hsign : ∀ t ∈ store0, 0 ≤ t.credit ∧ 0 ≤ t.debit ∧ (t.credit = 0 ∨ t.debit = 0))
    (h : categorize ck rps missing store0 = .ok res) :
    ∀ j, j ∈ debitIdxsOf store0 → j ∉ pairIdxs res.matched_transfers →
      (((check_related_party (store0.getD j default).description rps).isSome = true →
          (res.store.getD j default).category = some Category.RELATED_PARTY
          ∧ (res.store.getD j default).exclude_from_turnover = true)
      ∧ (check_related_party (store0.getD j default).description rps = none →
          (updUnverified ck missing (store0.getD j default)).isSome = true →
          (res.store.getD j default).category
            = some Category.INTER_ACCOUNT_TRANSFER_UNVERIFIED
          ∧ (res.store.getD j default).exclude_from_turnover = true)) := by
  have hpos := combine_sorted_idx info up store0 hcomb
  obtain ⟨-, -, -, -, huiff, -, hQ, -, hC3, -, -, -⟩ :=
    categorize_spec ck rps missing store0 res hpos hsign h
  intro j hjd hnp
  have hju : j ∈ res.used := (huiff j).mpr (Or.inr hjd)
  obtain ⟨c, hcq, heq⟩ := hQ j hju
  obtain ⟨hrp, hunv⟩ := hC3 j hjd hnp
  constructor
  · intro hx
    have hcat := hrp hx
    rw [hcq] at hcat
    have hcc : c = Category.RELATED_PARTY := Option.some.inj hcat
    subst hcc
    exact ⟨hcq, heq⟩
  · intro hx1 hx2
    have hcat := hunv hx1 hx2
    rw [hcq] at hcat
    have hcc : c = Category.INTER_ACCOUNT_TRANSFER_UNVERIFIED := Option.some.inj hcat
    subst hcc
    exact ⟨hcq, heq⟩

/-- Witness for C3 (amended): the fixture debit matches a related-party
pattern and the unverified conditions, and ends RELATED_PARTY and excluded. -/
theorem claim_C3_witness :
    (c3res.store.getD 0 default).category = some Category.RELATED_PARTY
    ∧ (c3res.store.getD 0 default).exclude_from_turnover = true :=
  (claim_C3 c3info c3up [] c3rps c3missing c3store c3res (by with_unfolding_all rfl)
    (by with_unfolding_all decide) (by with_unfolding_all rfl) 0
    (by with_unfolding_all decide) (by with_unfolding_all decide)).1
    (by with_unfolding_all rfl)

/-- Counterexample to C4 as stated: booking the matched-transfer amount (the
credit amount) against the debit side breaks the debit-side sum identity —
with a matched 50000-credit/49999-debit pair the per-category debit amounts
(using the shared matched amount) total 50000 while gross debits are 49999;
the matched amount differs from the matched debits' own total. -/
theorem claim_C4_counterexample :
    msum c4res.matched_transfers + dsum c4res.related_party_debits
        + dsum c4res.unverified_debit_transfers + dsum c4res.statutory_payments
        + dsum c4res.salary_wages + dsum c4res.utilities + dsum c4res.bank_charges
        + dsum c4res.supplier_payments ≠ totalDebitsOf c4store
    ∧ msum c4res.matched_transfers ≠ matchedDebitOwn c4store c4res.matched_transfers := by
  constructor
  · with_unfolding_all decide
  · with_unfolding_all decide

/-- C4 (amended): the per-category credit amounts (with the matched-transfer
amount, which is the credit amount) sum to gross credits; the per-category
debit amounts sum to gross debits provided the matched pairs are counted at
the matched debits' own debit amounts (not the shared credit amount the code
books). -/
theorem claim_C4 (info : List (Str × AccountInfo)) (up : List (Str × RawAccount))
    (ck : List Str) (rps : List RpPattern) (missing : List Str)
    (store0 : List Txn) (res : CatResult)
    (hcomb : combine info up = .ok store0)
    (hsign : ∀ t ∈ store0, 0 ≤ t.credit ∧ 0 ≤ t.debit ∧ (t.credit = 0 ∨ t.debit = 0))
    (h : categorize ck rps missing store0 = .ok res) :
    msum res.matched_transfers + csum res.unverified_credit_transfers
        + csum res.related_party_credits + csum res.loan_disbursements
        + csum res.interest_credits + csum res.reversals + csum res.genuine_credits
      = totalCreditsOf store0
    ∧ matchedDebitOwn store0 res.matched_transfers + dsum res.related_party_debits
        + dsum res.unverified_debit_transfers + dsum res.statutory_payments
        + dsum res.salary_wages + dsum res.utilities + dsum res.bank_charges
        + dsum res.supplier_payments
      = totalDebitsOf store0 := by
  have hpos := combine_sorted_idx info up store0 hcomb
  obtain ⟨-, -, -, -, -, -, -, -, -, hcr, hdb, -⟩ :=
    categorize_spec ck rps missing store0 res hpos hsign h
  exact ⟨hcr, hdb⟩

/-- Witness for C4 (amended): the 50000/49999 fixture satisfies both sum
identities. -/
theorem claim_C4_witness :
    msum c4res.matched_transfers + csum c4res.unverified_credit_transfers
        + csum c4res.related_party_credits + csum c4res.loan_disbursements
        + csum c4res.interest_credits + csum c4res.reversals + csum c4res.genuine_credits
      = totalCreditsOf c4store
    ∧ matchedDebitOwn c4store c4res.matched_transfers + dsum c4res.related_party_debits
        + dsum c4res.unverified_debit_transfers + dsum c4res.statutory_payments
        + dsum c4res.salary_wages + dsum c4res.utilities + dsum c4res.bank_charges
        + dsum c4res.supplier_payments
      = totalDebitsOf c4store :=
  claim_C4 c4info c4up [] [] c4missing c4store c4res (by with_unfolding_all rfl)
    (by with_unfolding_all decide) (by with_unfolding_all rfl)

/-- C7: a credit amount is flagged round-figure iff it is at least the 10000
threshold and an exact multiple of 1000; the round-figure total only ranges
over the genuine-sales credits, which after the cascade are exactly
GENUINE-classified positive credits; and the round-figure ratio is the
round-figure total over gross credits times 100, defined as 0 when gross
credits are not positive. -/
theorem claim_C7 (info : List (Str × AccountInfo)) (up : List (Str × RawAccount))
    (ck : List Str) (rps : List RpPattern) (missing : List Str)
    (store0 : List Txn) (res : CatResult)
    (hcomb : combine info up = .ok store0)
    (hsign : ∀ t ∈ store0, 0 ≤ t.credit ∧ 0 ≤ t.debit ∧ (t.credit = 0 ∨ t.debit = 0))
    (h : categorize ck rps missing store0 = .ok res) :
    (∀ amount : ℚ, is_round_figure amount = true ↔
        (ROUND_FIGURE_THRESHOLD ≤ amount ∧ ∃ k : ℤ, amount = 1000 * k))
    ∧ (∀ genuine : List Txn,
        roundFigureTotal genuine = csum (genuine.filter (fun t => is_round_figure t.credit)))
    ∧ (∀ rf total : ℚ, (0 < total → roundFigurePct rf total = rf / total * 100)
        ∧ (total ≤ 0 → roundFigurePct rf total = 0))
    ∧ (∀ t ∈ res.genuine_credits,
        t.category = some Category.GENUINE_SALES_COLLECTIONS ∧ 0 < t.credit) := by
  have hpos := combine_sorted_idx info up store0 hcomb
  obtain ⟨-, -, -, -, -, -, -, -, -, -, -, hgen⟩ :=
    categorize_spec ck rps missing store0 res hpos hsign h
  refine ⟨?_, fun genuine => rfl, ?_, hgen⟩
  · intro amount
    exact is_round_figure_iff amount
  · intro rf total
    constructor
    · intro hp
      rw [roundFigurePct, if_pos hp]
    · intro hn
      rw [roundFigurePct, if_neg (not_lt.mpr hn)]

/-- Witness for C7: the fixture run, whose genuine credit 12000 is a round
figure. -/
theorem claim_C7_witness :
    ((∀ amount : ℚ, is_round_figure amount = true ↔
        (ROUND_FIGURE_THRESHOLD ≤ amount ∧ ∃ k : ℤ, amount = 1000 * k))
    ∧ (∀ genuine : List Txn,
        roundFigureTotal genuine = csum (genuine.filter (fun t => is_round_figure t.credit)))
    ∧ (∀ rf total : ℚ, (0 < total → roundFigurePct rf total = rf / total * 100)
        ∧ (total ≤ 0 → roundFigurePct rf total = 0))
    ∧ (∀ t ∈ c4res.genuine_credits,
        t.category = some Category.GENUINE_SALES_COLLECTIONS ∧ 0 < t.credit))
    ∧ is_round_figure 12000 = true :=
  ⟨claim_C7 c4info c4up [] [] c4missing c4store c4res (by with_unfolding_all rfl)
    (by with_unfolding_all decide) (by with_unfolding_all rfl),
   by with_unfolding_all decide⟩

-- ===========================================================================
-- Order properties of the string comparison, and sort determinism
-- ===========================================================================

theorem strLt_nil_right (b : Str) : strLt b [] = false := by
  cases b <;> rfl

theorem strLt_cons_iff (x y : Char) (xs ys : Str) :
    strLt (x :: xs) (y :: ys) = true ↔ (x < y ∨ (x = y ∧ strLt xs ys = true)) := by
  simp only [strLt]
  rcases lt_trichotomy x y with h | h | h
  · rw [if_pos h]
    simp [h]
  · subst h
    rw [if_neg (lt_irrefl x), if_neg (lt_irrefl x)]
    simp
  · rw [if_neg (lt_asymm h), if_pos h]
    simp only [Bool.false_eq_true, false_iff]
    rintro (h2 | ⟨h2, -⟩)
    · exact lt_asymm h h2
    · subst h2
      exact lt_irrefl x h

theorem strLt_irrefl (a : Str) : strLt a a = false := by
  induction a with
  | nil => rfl
  | cons x xs ih =>
    simp only [strLt]
    rw [if_neg (lt_irrefl x), if_neg (lt_irrefl x)]
    exact ih

theorem strLt_trans (a : Str) : ∀ b c : Str, strLt a b = true → strLt b c = true →
    strLt a c = true := by
  induction a with
  | nil =>
    intro b c hab hbc
    cases c with
    | nil =>
      rw [strLt_nil_right] at hbc
      cases hbc
    | cons z zs => rfl
  | cons x xs ih =>
    intro b c hab hbc
    cases b with
    | nil =>
      rw [strLt_nil_right] at hab
      cases hab
    | cons y ys =>
      cases c with
      | nil =>
        rw [strLt_nil_right] at hbc
        cases hbc
      | cons z zs =>
        rw [strLt_cons_iff] at hab hbc ⊢
        rcases hab with h1 | ⟨h1, h1s⟩
        · rcases hbc with h2 | ⟨h2, h2s⟩
          · exact Or.inl (lt_trans h1 h2)
          · exact Or.inl (lt_of_lt_of_eq h1 h2)
        · rcases hbc with h2 | ⟨h2, h2s⟩
          · exact Or.inl (lt_of_eq_of_lt h1 h2)
          · exact Or.inr ⟨h1.trans h2, ih ys zs h1s h2s⟩

theorem strLt_asymm {a b : Str} (h : strLt a b = true) : strLt b a = false := by
  cases hba : strLt b a with
  | false => rfl
  | true =>
    have h2 := strLt_trans a b a h hba
    rw [strLt_irrefl] at h2
    cases h2

theorem strLt_eq_of_not (a : Str) : ∀ b : Str, strLt a b = false → strLt b a = false →
    a = b := by
  induction a with
  | nil =>
    intro b hab hba
    cases b with
    | nil => rfl
    | cons y ys => simp [strLt] at hab
  | cons x xs ih =>
    intro b hab hba
    cases b with
    | nil => simp [strLt] at hba
    | cons y ys =>
      have hnab : ¬(x < y ∨ (x = y ∧ strLt xs ys = true)) := by
        intro hc
        rw [(strLt_cons_iff x y xs ys).mpr hc] at hab
        cases hab
      have hnba : ¬(y < x ∨ (y = x ∧ strLt ys xs = true)) := by
        intro hc
        rw [(strLt_cons_iff y x ys xs).mpr hc] at hba
        cases hba
      push_neg at hnab hnba
      have hxy : x = y := le_antisymm hnba.1 hnab.1
      subst hxy
      have hs1 : strLt xs ys = false := Bool.eq_false_iff.mpr (hnab.2 rfl)
      have hs2 : strLt ys xs = false := Bool.eq_false_iff.mpr (hnba.2 rfl)
      rw [ih ys hs1 hs2]

theorem sinsert_sorted_str (x : Str) (l : List Str)
    (hs : l.Pairwise (fun a b => strLt b a = false)) :
    (sinsert strLt x l).Pairwise (fun a b => strLt b a = false) := by
  induction l with
  | nil => simp [sinsert]
  | cons y ys ih =>
    rw [List.pairwise_cons] at hs
    obtain ⟨hy, hys⟩ := hs
    unfold sinsert
    by_cases hxy : strLt x y = true
    · rw [if_pos hxy, List.pairwise_cons]
      constructor
      · intro z hz
        rcases List.mem_cons.mp hz with he | hzys
        · subst he
          exact strLt_asymm hxy
        · cases hzx : strLt z x with
          | false => rfl
          | true =>
            have h2 := strLt_trans z x y hzx hxy
            rw [hy z hzys] at h2
            cases h2
      · rw [List.pairwise_cons]
        exact ⟨hy, hys⟩
    · have hxy' : strLt x y = false := Bool.eq_false_iff.mpr hxy
      rw [if_neg hxy, List.pairwise_cons]
      constructor
      · intro z hz
        have hz2 : z ∈ x :: ys := (sinsert_perm strLt x ys).mem_iff.mp hz
        rcases List.mem_cons.mp hz2 with he | hzys
        · subst he
          exact hxy'
        · exact hy z hzys
      · exact ih hys

theorem ssort_sorted_str (l : List Str) :
    (ssort strLt l).Pairwise (fun a b => strLt b a = false) := by
  unfold ssort
  suffices h : ∀ acc : List Str, acc.Pairwise (fun a b => strLt b a = false) →
      (l.foldl (fun acc x => sinsert strLt x acc) acc).Pairwise
        (fun a b => strLt b a = false) by
    exact h [] (by simp)
  induction l with
  | nil =>
    intro acc hacc
    exact hacc
  | cons x xs ih =>
    intro acc hacc
    exact ih (sinsert strLt x acc) (sinsert_sorted_str x acc hacc)

theorem ssort_strLt_eq_of_perm (l l' : List Str) (h : l.Perm l') :
    ssort strLt l = ssort strLt l' := by
  letI : IsAntisymm Str (fun a b => strLt b a = false) :=
    ⟨fun a b hab hba => strLt_eq_of_not a b hba hab⟩
  have hp : (ssort strLt l).Perm (ssort strLt l') :=
    (ssort_perm strLt l).trans (h.trans (ssort_perm strLt l').symm)
  exact List.eq_of_perm_of_sorted hp (ssort_sorted_str l) (ssort_sorted_str l')

theorem dget_perm {α : Type} {l l' : List (Str × α)} (h : l.Perm l') :
    ∀ k, (l.map Prod.fst).Nodup → dget l k = dget l' k := by
  induction h with
  | nil =>
    intro k _
    rfl
  | cons x h2 ih =>
    intro k hnd
    obtain ⟨k1, v1⟩ := x
    rw [List.map_cons, List.nodup_cons] at hnd
    simp only [dget]
    by_cases hk : k1 == k
    · rw [if_pos hk, if_pos hk]
    · rw [if_neg hk, if_neg hk]
      exact ih k hnd.2
  | swap x y l0 =>
    intro k hnd
    obtain ⟨k1, v1⟩ := x
    obtain ⟨k2, v2⟩ := y
    rw [List.map_cons, List.map_cons, List.nodup_cons, List.nodup_cons] at hnd
    simp only [dget]
    by_cases h1 : k1 == k <;> by_cases h2 : k2 == k
    · exfalso
      have he : k2 = k1 := (eq_of_beq h2).trans (eq_of_beq h1).symm
      exact hnd.1 (by simp only [he]; exact List.mem_cons_self _ _)
    · simp [h1, h2]
    · simp [h1, h2]
    · simp [h1, h2]
  | trans h1 h2 ih1 ih2 =>
    intro k hnd
    rw [ih1 k hnd]
    exact ih2 k ((h1.map Prod.fst).nodup_iff.mp hnd)

theorem combineGo_congr (up up' : List (Str × RawAccount))
    (hd : ∀ k, dget up k = dget up' k) :
    ∀ (ks : List Str) (idx : Nat), combineGo ks up idx = combineGo ks up' idx := by
  intro ks
  induction ks with
  | nil =>
    intro idx
    rfl
  | cons k rest ih =>
    intro idx
    unfold combineGo
    rw [hd k]
    cases dget up' k with
    | none => exact ih idx
    | some acc => simp only [ih]

theorem buildAccounts_congr (info info' : List (Str × AccountInfo))
    (up up' : List (Str × RawAccount))
    (hdi : ∀ k, dget info k = dget info' k) (hdu : ∀ k, dget up k = dget up' k) :
    ∀ ks : List Str, buildAccounts info up ks = buildAccounts info' up' ks := by
  intro ks
  induction ks with
  | nil => rfl
  | cons k rest ih =>
    unfold buildAccounts
    rw [hdu k]
    cases dget up' k with
    | none => exact ih
    | some acc => simp only [ih, hdi k]

theorem combine_perm_eq (info info' : List (Str × AccountInfo))
    (up up' : List (Str × RawAccount)) (hinfo : info.Perm info') (hup : up.Perm up')
    (hndu : (up.map Prod.fst).Nodup) :
    combine info up = combine info' up' := by
  have hkeys : ssort strLt (info.map Prod.fst) = ssort strLt (info'.map Prod.fst) :=
    ssort_strLt_eq_of_perm _ _ (hinfo.map Prod.fst)
  unfold combine
  rw [hkeys, combineGo_congr up up' (fun k => dget_perm hup k hndu)]

theorem analysisCore_perm (cn : Str) (ck : List Str) (rps : List RelatedParty)
    (info info' : List (Str × AccountInfo)) (up up' : List (Str × RawAccount))
    (hinfo : info.Perm info') (hup : up.Perm up')
    (hndi : (info.map Prod.fst).Nodup) (hndu : (up.map Prod.fst).Nodup) :
    analysisCore cn ck rps info up = analysisCore cn ck rps info' up' := by
  have hkeys : ssort strLt (info.map Prod.fst) = ssort strLt (info'.map Prod.fst) :=
    ssort_strLt_eq_of_perm _ _ (hinfo.map Prod.fst)
  have hcombeq := combine_perm_eq info info' up up' hinfo hup hndu
  have hba := buildAccounts_congr info info' up up'
    (fun k => dget_perm hinfo k hndi) (fun k => dget_perm hup k hndu)
  unfold analysisCore
  rw [hcombeq, hkeys]
  simp only [hba]

/-- Counterexample to C5 as stated: two runs on identical account data taken
at different clock readings differ (the report carries the generation
timestamp), so the output is not byte-identical across runs. -/
theorem claim_C5_counterexample :
    isOkE (process_analysis ("CO".data) [] [] c5info c5up ("T1".data)) = true
    ∧ (process_analysis ("CO".data) [] [] c5info c5up ("T1".data)).toOption.map
        (fun r => r.report_info.generated_at)
      ≠ (process_analysis ("CO".data) [] [] c5info c5up ("T2".data)).toOption.map
        (fun r => r.report_info.generated_at) := by
  constructor
  · with_unfolding_all rfl
  · with_unfolding_all decide

/-- C5 (amended): the engine is deterministic modulo the generation
timestamp — for account maps with duplicate-free keys, permuting the
account-info and uploaded-data entries leaves the output byte-identical when
the clock reading is the same, and identical after blanking `generated_at`
when the clock readings differ. -/
theorem claim_C5 (cn : Str) (ck : List Str) (rps : List RelatedParty)
    (info info' : List (Str × AccountInfo)) (up up' : List (Str × RawAccount))
    (now now' : Str) (hinfo : info.Perm info') (hup : up.Perm up')
    (hndi : (info.map Prod.fst).Nodup) (hndu : (up.map Prod.fst).Nodup) :
    process_analysis cn ck rps info up now = process_analysis cn ck rps info' up' now
    ∧ (process_analysis cn ck rps info up now).map scrubTime
        = (process_analysis cn ck rps info' up' now').map scrubTime := by
  have hcore := analysisCore_perm cn ck rps info info' up up' hinfo hup hndi hndu
  constructor
  · unfold process_analysis
    rw [hcore]
  · unfold process_analysis
    rw [hcore]
    rcases hres : analysisCore cn ck rps info' up' with e | r
    · rfl
    · rfl

/-- Witness for C5 (amended): reversing the two-account fixture's maps leaves
the run byte-identical, and a different timestamp agrees after scrubbing. -/
theorem claim_C5_witness :
    (process_analysis ("CO".data) [] [] c5info c5up ("T1".data)
        = process_analysis ("CO".data) [] [] c5info2 c5up2 ("T1".data))
    ∧ (process_analysis ("CO".data) [] [] c5info c5up ("T1".data)).map scrubTime
        = (process_analysis ("CO".data) [] [] c5info2 c5up2 ("T2".data)).map scrubTime :=
  claim_C5 ("CO".data) [] [] c5info c5info2 c5up c5up2 ("T1".data) ("T2".data)
    (by with_unfolding_all decide) (by with_unfolding_all decide)
    (by with_unfolding_all decide) (by with_unfolding_all decide)

/-- Witness for C8: a description containing no purpose keyword yields an
empty purpose note. -/
theorem claim_C8_witness : purposeNote ("HELLO".data) = [] :=
  claim_C8.2.2.1 ("HELLO".data) (by decide)

end BankAnalysis
